import Mathlib

/-!
# Verification of the LevyCAS specification against its source

This file gives a shallow embedding of the Python computer-algebra kernel
(package levycas: expressions/expression.py, expressions/trig.py,
expressions/exp.py, operations/simplification_ops.py,
operations/calculus_ops.py, operations/polynomial_ops.py,
operations/algebraic_ops.py, operations/numerical_ops.py) and settles the
claims of the specification against it.

Modelling conventions:
 - Python objects that flow through the simplifier are modelled by the
   inductive type `Obj`.  This includes raw Python ints and strings,
   because the source leaks them into expression positions (for example
   `simplify_sum(Integer(2))` returns the raw int `2`, and the absorbing
   sentinel `UNDEFINED` is the raw string "UNDEFINED").
 - Exceptions and other abnormal outcomes are modelled with `Except Err`.
   `Err.hang` marks a Python loop that provably never terminates (the
   binary gcd of `numerical_ops.gcd` on arguments of mixed sign);
   `Err.floatPath` marks the one branch whose result depends on IEEE
   floating point (`Integer.__pow__` with a Rational exponent and a base
   of absolute value at least 2).  No theorem below asserts a concrete
   value for a computation that reaches `Err.floatPath`.
 - All recursive procedures are fuel-indexed; `Err.fuelOut` reports fuel
   exhaustion.  Counterexample theorems run with explicit concrete fuel.
 - Python `//` and `%` are floor division and floor modulus, modelled by
   `Int.fdiv` and `Int.fmod`.
 - Python `==` on expressions is `str(self) == str(other)`
   (Expression.__eq__), modelled by comparing `reprObj` strings.
-/

namespace LevyCAS

/-! ### Decimal printing

Python's `str(int)` produces the canonical decimal form (no leading
zeros, a leading `-` for negatives).  We define it directly so that its
properties (which literals it can collide with) are provable. -/

/-- The decimal digit character for `n < 10`. -/
def digitChar : Nat → Char
  | 0 => '0'
  | 1 => '1'
  | 2 => '2'
  | 3 => '3'
  | 4 => '4'
  | 5 => '5'
  | 6 => '6'
  | 7 => '7'
  | 8 => '8'
  | 9 => '9'
  | _ => '*'

/-- Characters of the decimal form of a natural, most significant first
(structurally recursive through an explicit digit-count bound, so that it
reduces definitionally). -/
def natCharsAux : Nat → Nat → List Char
  | 0, _ => []
  | b+1, n =>
    if n < 10 then [digitChar n]
    else natCharsAux b (n / 10) ++ [digitChar (n % 10)]

def natChars (n : Nat) : List Char := natCharsAux (n + 1) n

/-- Python `str` of a natural number. -/
def natStr (n : Nat) : String := ⟨natChars n⟩

/-- Python `str` of an integer. -/
def intStr (n : Int) : String :=
  if n < 0 then "-" ++ natStr n.natAbs else natStr n.toNat

mutual
/-- The universe of Python values that reach the rewrite engine: raw ints
and strings, `Integer` and `Rational` instances, `Variable`, the n-ary
`Sum` and `Product`, `Div`, `Power`, `Factorial`, the six `Trig` classes
(expressions/trig.py), and `Exp`/`Ln` (expressions/exp.py). -/
inductive Obj where
  | pint (n : Int)
  | pstr (s : String)
  | intE (n : Int)
  | ratE (n d : Int)
  | var (name : String)
  | sumL (terms : ObjList)
  | prodL (factors : ObjList)
  | divE (l r : Obj)
  | powE (b e : Obj)
  | fact (v : Obj)
  | sinE (a : Obj)
  | cosE (a : Obj)
  | tanE (a : Obj)
  | cscE (a : Obj)
  | secE (a : Obj)
  | cotE (a : Obj)
  | expE (a : Obj)
  | lnE (a : Obj)

/-- Operand sequences of `Sum`/`Product` nodes, as a mutually defined
list type so that all recursion over `Obj` is structural (and hence
reduces definitionally in proofs by `rfl`/`decide`). -/
inductive ObjList where
  | nil
  | cons (head : Obj) (tail : ObjList)
end

deriving instance DecidableEq for Obj

namespace ObjList

def toList : ObjList → List Obj
  | .nil => []
  | .cons h t => h :: toList t

def ofList : List Obj → ObjList
  | [] => .nil
  | h :: t => .cons h (ofList t)

end ObjList

namespace Obj

/-- The UNDEFINED flyweight of expression.py line 49: the raw string. -/
def undef : Obj := pstr "UNDEFINED"

/-- Build a `Sum` node from a Lean list of operands. -/
def sum (ts : List Obj) : Obj := sumL (ObjList.ofList ts)

/-- Build a `Product` node from a Lean list of operands. -/
def prod (fs : List Obj) : Obj := prodL (ObjList.ofList fs)

mutual
/-- `str(obj)`: the `__repr__` methods of expression.py, trig.py, exp.py.
`Sum.__repr__` prints its terms in reversed order; `Product.__repr__`
special-cases a two-element `[Integer, Variable]` product. -/
def reprObj : Obj → String
  | pint n => intStr n
  | pstr s => s
  | intE n => intStr n
  | ratE n d => "(" ++ intStr n ++ " / " ++ intStr d ++ ")"
  | var s => s
  | sumL ts => "(" ++ String.intercalate " + " (reprList ts).reverse ++ ")"
  | prodL fs =>
      match fs with
      | .cons (intE a) (.cons (var v) .nil) =>
          if a = -1 then "-" ++ v else intStr a ++ v
      | _ => "(" ++ String.intercalate " · " (reprList fs) ++ ")"
  | divE l r => "(" ++ reprObj l ++ " / " ++ reprObj r ++ ")"
  | powE b e => "(" ++ reprObj b ++ " ^ " ++ reprObj e ++ ")"
  | fact v => "(" ++ reprObj v ++ "!)"
  | sinE a => "Sin(" ++ reprObj a ++ ")"
  | cosE a => "Cos(" ++ reprObj a ++ ")"
  | tanE a => "Tan(" ++ reprObj a ++ ")"
  | cscE a => "Csc(" ++ reprObj a ++ ")"
  | secE a => "Sec(" ++ reprObj a ++ ")"
  | cotE a => "Cot(" ++ reprObj a ++ ")"
  | expE a => "exp(" ++ reprObj a ++ ")"
  | lnE a => "ln(" ++ reprObj a ++ ")"

def reprList : ObjList → List String
  | .nil => []
  | .cons x xs => reprObj x :: reprList xs
end

/-- `Expression.__eq__`: string equality of printed forms.  Raw strings
compare as themselves, raw ints print as their decimal form, matching the
`UNDEFINED == e` and `0 in factors` membership tests of the source. -/
def eqObj (a b : Obj) : Bool := reprObj a == reprObj b

/-- isinstance(x, Constant): `Integer` or `Rational` instances only. -/
def isConstant : Obj → Bool
  | intE _ | ratE _ _ => true
  | _ => false

/-- isinstance(x, Expression): every modelled object except raw ints and
raw strings. -/
def isExpression : Obj → Bool
  | pint _ | pstr _ => false
  | _ => true

def isSum : Obj → Bool
  | sumL _ => true
  | _ => false

def isProd : Obj → Bool
  | prodL _ => true
  | _ => false

def isPow : Obj → Bool
  | powE _ _ => true
  | _ => false

def isIntE : Obj → Bool
  | intE _ => true
  | _ => false

def isVar : Obj → Bool
  | var _ => true
  | _ => false

/-- isinstance(x, Trig) for the six classes of expressions/trig.py. -/
def isTrig : Obj → Bool
  | sinE _ | cosE _ | tanE _ | cscE _ | secE _ | cotE _ => true
  | _ => false

/-- `Trig.orderings.index(type(self).__name__)` for the list
['Sin', 'Cos', 'Tan', 'Csc', 'Sec', 'Cot']. -/
def trigIdx : Obj → Nat
  | sinE _ => 0
  | cosE _ => 1
  | tanE _ => 2
  | cscE _ => 3
  | secE _ => 4
  | cotE _ => 5
  | _ => 6

end Obj

/-- Abnormal outcomes of running the Python code. -/
inductive Err where
  | attributeError
  | typeError
  | zeroDivisionError
  | valueError
  | assertionError
  | indexError
  | floatPath
  | nameError
  | unmodelled
  | hang
  | fuelOut
deriving Repr, DecidableEq

abbrev M (α : Type) : Type := Except Err α

/-! ## The exact-number layer (numerical_ops.py, Rational.__new__) -/

/-- Magnitude part of `numerical_ops._reduce`: strip factors of two from
a positive natural, counting them.  (Python floor division of an even
integer is exact, so sign and magnitude separate; the sign is reattached
in `reduceTwos`.)  The Python loop `while a % 2 == 0` runs forever on 0;
callers below never reach it with 0. -/
def stripTwosAux : Nat → Nat → Nat × Nat
  | 0, n => (n, 0)
  | f+1, n =>
    if n ≠ 0 ∧ n % 2 = 0 then
      let p := stripTwosAux f (n / 2)
      (p.1, p.2 + 1)
    else
      (n, 0)

def stripTwos (n : Nat) : Nat × Nat := stripTwosAux n n

/-- `numerical_ops._reduce` on a nonzero integer. -/
def reduceTwos (n : Int) : Int × Nat :=
  let p := stripTwos n.natAbs
  (n.sign * p.1, p.2)

/-- The subtractive binary-gcd loop of `numerical_ops.gcd`, in the case
of two positive (odd-reduced) arguments, where it terminates; driven by
an explicit iteration bound (the sum of the arguments strictly decreases
on every iteration, see `gcdLoopAux_eq_gcd`).  The zero guard is dead
code: `gcdPy` only calls this with positive arguments. -/
def gcdLoopAux : Nat → Nat → Nat → Nat
  | 0, a, _ => a
  | f+1, a, b =>
    if a = 0 ∨ b = 0 then 0
    else if a = b then a
    else if b < a then gcdLoopAux f (stripTwos (a - b)).1 b
    else gcdLoopAux f a (stripTwos (b - a)).1

def gcdLoopPos (a b : Nat) : Nat := gcdLoopAux (a + b) a b

/-- `numerical_ops.gcd`, the binary gcd.  Returns `none` exactly when the
Python loop does not terminate: `_reduce` loops forever on 0; after the
initial odd-reduction, the loop
`while a != b: if b < a: a = reduce(a-b) else: b = reduce(b-a)`
subtracts on the larger side only, so once the two values have mixed
signs the positive one stays positive and the negative one is never
touched again (the two can never meet), and two distinct negative values
reach mixed signs after one step. -/
def gcdPy (a b : Int) : Option Int :=
  if a = 0 ∨ b = 0 then none
  else
    let pa := reduceTwos a
    let pb := reduceTwos b
    let d : Nat := min pa.2 pb.2
    let a1 := pa.1
    let b1 := pb.1
    if a1 = b1 then some ((2 ^ d : Nat) * a1.natAbs)
    else if 0 < a1 ∧ 0 < b1 then
      some ((2 ^ d : Nat) * gcdLoopPos a1.toNat b1.toNat)
    else none

/-- `Rational.__new__`: normalisation at construction time.  Denominator 0
gives the UNDEFINED string; an exact division demotes to `Integer`;
otherwise the fraction is reduced by `gcd` (which hangs on arguments of
mixed sign) and the sign is moved to the numerator. -/
def ratMake (n d : Int) : M Obj :=
  if d = 0 then .ok Obj.undef
  else if n.fmod d = 0 then .ok (Obj.intE (n.fdiv d))
  else
    match gcdPy n d with
    | none => .error .hang
    | some g =>
      if 0 < d then .ok (Obj.ratE (n.fdiv g) (d.fdiv g))
      else .ok (Obj.ratE ((-n).fdiv g) ((-d).fdiv g))

/-! ## Structural accessors (expression.py) -/

namespace Obj

/-- `self.num()` for Constants only (used inside Constant arithmetic;
`Integer.num` is the raw value, `Rational.num` the stored numerator). -/
def constNum : Obj → Int
  | intE n => n
  | ratE n _ => n
  | _ => 0

/-- `self.denom()` for Constants only. -/
def constDenom : Obj → Int
  | intE _ => 1
  | ratE _ d => d
  | _ => 1

/-- `Constant.is_positive` (Integer / Rational variants). -/
def constIsPos : Obj → Bool
  | intE n => 0 < n
  | ratE n d => if d < 0 then n < 0 else 0 < n
  | _ => false

/-- `Constant.is_negative` (Integer / Rational variants). -/
def constIsNeg : Obj → Bool
  | intE n => n < 0
  | ratE n d => if 0 < d then n < 0 else 0 < n
  | _ => false

/-- Exact comparison of the values of two Constants.  The source compares
`self.eval() < other.eval()` where `Rational.eval` is a Python float
division; this model compares the exact rational values, which agrees
with the float comparison on all comparisons exercised in this file
(small integers and halves, where double arithmetic is exact). -/
def constValLt (a b : Obj) : Bool :=
  constNum a * constDenom b < constNum b * constDenom a

/-- `base()`: `Power` returns its left operand, everything else returns
itself (expression.py lines 75 and 291). -/
def base : Obj → Obj
  | powE b _ => b
  | e => e

/-- `exponent()`: `Power` returns its right operand, everything else
`Integer(1)`. -/
def exponent : Obj → Obj
  | powE _ e => e
  | _ => intE 1

/-- `coefficient()`: a Constant returns itself; a Product whose first
factor is a Constant returns that factor; everything else `Integer(1)`.
Raw values have no such attribute. -/
def coefficient : Obj → M Obj
  | pint _ | pstr _ => .error .attributeError
  | intE n => .ok (intE n)
  | ratE n d => .ok (ratE n d)
  | prodL .nil => .error .indexError
  | prodL (.cons f _) => .ok (if f.isConstant then f else intE 1)
  | _ => .ok (intE 1)

/-- `term()`: a Constant returns `Integer(1)`; a Product whose first
factor is a Constant strips it; everything else wraps itself in a unary
Product (expression.py line 85). -/
def term : Obj → M Obj
  | pint _ | pstr _ => .error .attributeError
  | intE _ | ratE _ _ => .ok (intE 1)
  | prodL .nil => .error .indexError
  | prodL (.cons f fs) => .ok (if f.isConstant then prodL fs else prodL (.cons f fs))
  | e => .ok (prod [e])

/-- `operands()` for every variant.  `Integer.operands` and
`Rational.operands` return raw ints, `Variable.operands` the raw name
string; raw values have no `operands` attribute. -/
def operands : Obj → M (List Obj)
  | pint _ | pstr _ => .error .attributeError
  | intE n => .ok [pint n]
  | ratE n d => .ok [pint n, pint d]
  | var s => .ok [pstr s]
  | sumL ts => .ok ts.toList
  | prodL fs => .ok fs.toList
  | divE l r => .ok [l, r]
  | powE b e => .ok [b, e]
  | fact v => .ok [v]
  | sinE a | cosE a | tanE a | cscE a | secE a | cotE a | expE a | lnE a => .ok [a]

end Obj

/-- `convert_primitive` (expression.py line 794) restricted to the values
that occur here: the UNDEFINED string passes through, Expressions pass
through, raw ints box to `Integer`. -/
def convertPrim : Obj → Obj
  | Obj.pint n => Obj.intE n
  | e => e

/-- Lexicographic comparison of character lists by code point: Python's
string `<`. -/
def charsLt : List Char → List Char → Bool
  | [], [] => false
  | [], _ :: _ => true
  | _ :: _, [] => false
  | c :: cs, d :: ds =>
    if c.toNat < d.toNat then true
    else if d.toNat < c.toNat then false
    else charsLt cs ds

/-- Python string comparison (`str.__lt__`): lexicographic by code
point. -/
def strLt (s t : String) : Bool := charsLt s.data t.data

/-- Compare a printed form against a literal, e.g. the pervasive
`v == 0` / `w == 1` tests of the source. -/
def eqS (a : Obj) (s : String) : Bool := Obj.reprObj a == s

/-- Python list equality over expression operands: elementwise `==`. -/
def listEq : List Obj → List Obj → Bool
  | [], [] => true
  | x :: xs, y :: ys => Obj.eqObj x y && listEq xs ys
  | _, _ => false

/-- `base()` as an effect: raw ints and strings have no such attribute. -/
def baseM : Obj → M Obj
  | Obj.pint _ | Obj.pstr _ => .error .attributeError
  | Obj.powE b _ => .ok b
  | e => .ok e

/-- `exponent()` as an effect. -/
def exponentM : Obj → M Obj
  | Obj.pint _ | Obj.pstr _ => .error .attributeError
  | Obj.powE _ e => .ok e
  | _ => .ok (Obj.intE 1)

/-- Result of a Python rich comparison: True, False, or None (the
`Exp.__lt__` fall-through). -/
inductive PyB where
  | t
  | f
  | n
deriving Repr, DecidableEq

/-- Result of a single `__lt__`/`__gt__` method: a `PyB`, or
NotImplemented. -/
inductive LtV where
  | t
  | f
  | n
  | ni
deriving Repr, DecidableEq

def PyB.toLtV : PyB → LtV
  | .t => .t
  | .f => .f
  | .n => .n

/-- Python truthiness of a comparison result (None is falsy). -/
def PyB.truthy : PyB → Bool
  | .t => true
  | .f => false
  | .n => false

def boolPyB (b : Bool) : PyB := if b then .t else .f

/-- `Trig.orderings` / same-kind dispatch: the two objects are instances
of the same Trig class. -/
def sameTrigKind : Obj → Obj → Bool
  | Obj.sinE _, Obj.sinE _ => true
  | Obj.cosE _, Obj.cosE _ => true
  | Obj.tanE _, Obj.tanE _ => true
  | Obj.cscE _, Obj.cscE _ => true
  | Obj.secE _, Obj.secE _ => true
  | Obj.cotE _, Obj.cotE _ => true
  | _, _ => false

/-- The single trig argument (arity is guaranteed by the constructors). -/
def trigArg : Obj → Obj
  | Obj.sinE a | Obj.cosE a | Obj.tanE a | Obj.cscE a | Obj.secE a | Obj.cotE a => a
  | Obj.expE a | Obj.lnE a => a
  | e => e

/-- Python `math.lcm` on the two (positive, in all reachable uses)
denominators in `Constant.__add__`/`__sub__`. -/
def pyLcm (a b : Int) : Int := (a.natAbs.lcm b.natAbs : Nat)

/-- `Constant.__add__` when both operands are Constants: common
denominator by `lcm`, then `Rational` construction-time reduction. -/
def constAddM (a b : Obj) : M Obj :=
  let L := pyLcm a.constDenom b.constDenom
  let ln := a.constNum * (L.fdiv a.constDenom)
  let rn := b.constNum * (L.fdiv b.constDenom)
  ratMake (ln + rn) L

/-- `Constant.__sub__` when both operands are Constants. -/
def constSubM (a b : Obj) : M Obj :=
  let L := pyLcm a.constDenom b.constDenom
  let ln := a.constNum * (L.fdiv a.constDenom)
  let rn := b.constNum * (L.fdiv b.constDenom)
  ratMake (ln - rn) L

/-- `Constant.__mul__` when both operands are Constants. -/
def constMulM (a b : Obj) : M Obj :=
  ratMake (a.constNum * b.constNum) (a.constDenom * b.constDenom)

/-! ## The fueled rewrite engine

One mutual block of fuel-indexed functions, one per Python function (or
operator method) of the source.  Fuel is spent on every call, so the
whole block is structurally recursive on the fuel argument; `Err.fuelOut`
reports exhaustion. -/

open Obj

mutual

/-- `simplification_ops.simplify`. -/
def simplify : Nat → Obj → M Obj
  | 0, _ => .error .fuelOut
  | fu+1, e =>
    match e with
    | .intE _ | .ratE _ _ | .var _ => .ok e
    | .pint _ | .pstr _ => .error .attributeError
    | _ => do
      let ops ← e.operands
      let sims ← simplifyList fu ops
      if sims.any (fun x => reprObj x == "UNDEFINED") then
        .ok Obj.undef
      else do
        let e2 ← construct fu sims e
        match e with
        | .powE _ _ => simplifyPower fu e2
        | .prodL _ => simplifyProduct fu e2
        | .sumL _ => simplifySum fu e2
        | .divE _ _ => simplifyDiv fu e2
        | .fact _ => simplifyFactorial fu e2
        | _ => .ok e2

def simplifyList : Nat → List Obj → M (List Obj)
  | 0, _ => .error .fuelOut
  | _+1, [] => .ok []
  | fu+1, x :: xs => do
    let y ← simplify fu x
    let ys ← simplifyList fu xs
    .ok (y :: ys)

/-- `expression_ops.construct`: Sum operands are rebuilt through the
`sum` builtin (repeated `__add__` from the raw int 0), Product operands
through repeated `__mul__` from `Integer(1)`, Power through `**`;
everything else through the class constructor (whose arity asserts are
modelled as assertion errors). -/
def construct : Nat → List Obj → Obj → M Obj
  | 0, _, _ => .error .fuelOut
  | fu+1, ops, orig =>
    match orig with
    | .sumL _ => pySum fu (Obj.pint 0) ops
    | .prodL _ => pyProd fu (Obj.intE 1) ops
    | .powE _ _ =>
      match ops with
      | [a, b] => opPow fu a b
      | _ => .error .assertionError
    | .divE _ _ =>
      match ops with
      | [a, b] => .ok (Obj.divE a b)
      | _ => .error .assertionError
    | .fact _ =>
      match ops with
      | [a] => .ok (Obj.fact a)
      | _ => .error .typeError
    | .sinE _ => match ops with | [a] => .ok (Obj.sinE a) | _ => .error .assertionError
    | .cosE _ => match ops with | [a] => .ok (Obj.cosE a) | _ => .error .assertionError
    | .tanE _ => match ops with | [a] => .ok (Obj.tanE a) | _ => .error .assertionError
    | .cscE _ => match ops with | [a] => .ok (Obj.cscE a) | _ => .error .assertionError
    | .secE _ => match ops with | [a] => .ok (Obj.secE a) | _ => .error .assertionError
    | .cotE _ => match ops with | [a] => .ok (Obj.cotE a) | _ => .error .assertionError
    | .expE _ => match ops with | [a] => .ok (Obj.expE a) | _ => .error .assertionError
    | .lnE _ => match ops with | [a] => .ok (Obj.lnE a) | _ => .error .assertionError
    | .intE _ => match ops with | [.pint n] => .ok (Obj.intE n) | _ => .error .typeError
    | .ratE _ _ => match ops with | [.pint n, .pint d] => ratMake n d | _ => .error .typeError
    | .var _ => match ops with | [.pstr s] => .ok (Obj.var s) | _ => .error .typeError
    | _ => .error .typeError

/-- The `sum` builtin over expression operands, starting from the raw
int 0 (used by `construct`, `simplify_product`'s distribution branch and
`derivative`). -/
def pySum : Nat → Obj → List Obj → M Obj
  | 0, _, _ => .error .fuelOut
  | _+1, acc, [] => .ok acc
  | fu+1, acc, x :: xs => do
    let a ← opAdd fu acc x
    pySum fu a xs

/-- The `prod *= operand` loop of `construct`, starting from
`Integer(1)`. -/
def pyProd : Nat → Obj → List Obj → M Obj
  | 0, _, _ => .error .fuelOut
  | _+1, acc, [] => .ok acc
  | fu+1, acc, x :: xs => do
    let a ← opMul fu acc x
    pyProd fu a xs

/-- `simplification_ops.simplify_power`.  Note that the both-constants
case returns the node unevaluated, and that the `v == 0` test is the
string-equality `__eq__`. -/
def simplifyPower : Nat → Obj → M Obj
  | 0, _ => .error .fuelOut
  | fu+1, e => do
    let v ← baseM e
    let w ← exponentM e
    if eqS v "0" then
      -- `if isinstance(w, Constant) and w.is_positive()`
      if w.isConstant && w.constIsPos then .ok (Obj.intE 0) else .ok Obj.undef
    else if eqS v "1" then .ok (Obj.intE 1)
    else if w.isConstant then
      if v.isConstant then .ok e
      else if eqS w "0" then .ok (Obj.intE 1)
      else if eqS w "1" then .ok v
      else
        match v with
        | .powE r s => do
          let ne ← simplifyProduct fu (Obj.prod [s, w])
          let np := Obj.powE r ne
          if ne.isIntE then simplifyPower fu np else .ok np
        | .prodL fs => do
          let nf ← powListWith fu w fs.toList
          simplifyProduct fu (Obj.prod nf)
        | _ => .ok e
    else .ok e

/-- The list comprehension `[simplify_power(factor ** w) for factor in
v.operands()]` of `simplify_power`. -/
def powListWith : Nat → Obj → List Obj → M (List Obj)
  | 0, _, _ => .error .fuelOut
  | _+1, _, [] => .ok []
  | fu+1, w, x :: xs => do
    let p ← opPow fu x w
    let q ← simplifyPower fu p
    let rest ← powListWith fu w xs
    .ok (q :: rest)

/-- `simplification_ops.simplify_product`.  The dispatcher may hand this
a node that is not a Product (`construct` re-simplifies through the
operators), in which case its operands are still read as factors. -/
def simplifyProduct : Nat → Obj → M Obj
  | 0, _ => .error .fuelOut
  | fu+1, e => do
    let fs ← e.operands
    if fs.any (fun x => eqS x "0") then .ok (Obj.intE 0)
    else
      match fs with
      | [x] => .ok x
      | [x, y] =>
        if x.isConstant then
          if y.isSum then do
            let ts ← y.operands
            let parts ← mulListWith fu x ts
            pySum fu (Obj.pint 0) parts
          else productFinish fu [x, y]
        else if y.isConstant then simplifyProduct fu (Obj.prod [y, x])
        else productFinish fu [x, y]
      | _ => productFinish fu fs

/-- The comprehension `[factors[0] * term for term in
factors[1].operands()]`. -/
def mulListWith : Nat → Obj → List Obj → M (List Obj)
  | 0, _, _ => .error .fuelOut
  | _+1, _, [] => .ok []
  | fu+1, c, x :: xs => do
    let y ← opMul fu c x
    let ys ← mulListWith fu c xs
    .ok (y :: ys)

/-- Tail of `simplify_product`: flatten, then rebuild. -/
def productFinish : Nat → List Obj → M Obj
  | 0, _ => .error .fuelOut
  | fu+1, fs => do
    let fl ← flattenFactors fu fs
    match fl with
    | [] => .ok (Obj.intE 1)
    | [x] => .ok x
    | _ => .ok (Obj.prod fl)

/-- `simplification_ops.simplify_sum`. -/
def simplifySum : Nat → Obj → M Obj
  | 0, _ => .error .fuelOut
  | fu+1, e => do
    let ts ← e.operands
    if ts.any (fun x => reprObj x == "UNDEFINED") then .ok Obj.undef
    else
      match ts with
      | [x] => .ok x
      | _ => do
        let fl ← flattenTerms fu ts
        match fl with
        | [] => .ok (Obj.intE 0)
        | [x] => .ok x
        | _ => .ok (Obj.sum fl)

/-- `simplification_ops.simplify_div`. -/
def simplifyDiv : Nat → Obj → M Obj
  | 0, _ => .error .fuelOut
  | fu+1, e => do
    let n ← numAcc fu e
    let d ← denomAcc fu e
    if n.isConstant && d.isConstant then opDiv fu n d
    else do
      let p ← opPow fu d (Obj.intE (-1))
      let m ← opMul fu n p
      simplify fu m

/-- `simplification_ops.simplify_factorial`: `math.factorial` on an
`Integer` operand (raising ValueError on negatives), identity otherwise. -/
def simplifyFactorial : Nat → Obj → M Obj
  | 0, _ => .error .fuelOut
  | _+1, e => do
    let ops ← e.operands
    match ops with
    | [] => .error .indexError
    | o :: _ =>
      match o with
      | .intE k => if k < 0 then .error .valueError else .ok (Obj.intE (Nat.factorial k.toNat))
      | _ => .ok e

/-- `num()` (expression.py): `Div` and `Rational` return their stored
numerator (raw for `Rational`/`Integer`), a `Power` with a negative
constant exponent returns `Integer(1)`, a `Product` multiplies the
numerators of its first factor and of the rest. -/
def numAcc : Nat → Obj → M Obj
  | 0, _ => .error .fuelOut
  | fu+1, e =>
    match e with
    | .pint _ | .pstr _ => .error .attributeError
    | .divE l _ => .ok l
    | .intE n => .ok (Obj.pint n)
    | .ratE n _ => .ok (Obj.pint n)
    | .powE _ ex =>
      if ex.isConstant && decide (ex.constNum < 0) then .ok (Obj.intE 1) else .ok e
    | .prodL .nil => .error .indexError
    | .prodL (.cons f0 fs) => do
      let n1 ← numAcc fu f0
      let rest ← opDiv fu (Obj.prodL (.cons f0 fs)) f0
      let n2 ← numAcc fu rest
      opMul fu n1 n2
    | _ => .ok e

/-- `denom()` (expression.py), dual to `numAcc`. -/
def denomAcc : Nat → Obj → M Obj
  | 0, _ => .error .fuelOut
  | fu+1, e =>
    match e with
    | .pint _ | .pstr _ => .error .attributeError
    | .divE _ r => .ok r
    | .intE _ => .ok (Obj.pint 1)
    | .ratE _ d => .ok (Obj.pint d)
    | .powE b ex =>
      if ex.isConstant && decide (ex.constNum < 0) then do
        let m ← opMul fu (Obj.intE (-1)) ex
        opPow fu b m
      else .ok (Obj.intE 1)
    | .prodL .nil => .error .indexError
    | .prodL (.cons f0 fs) => do
      let d1 ← denomAcc fu f0
      let rest ← opDiv fu (Obj.prodL (.cons f0 fs)) f0
      let d2 ← denomAcc fu rest
      opMul fu d1 d2
    | _ => .ok (Obj.intE 1)

/-- `simplification_ops.flatten_factors`. -/
def flattenFactors : Nat → List Obj → M (List Obj)
  | 0, _ => .error .fuelOut
  | fu+1, factors =>
    match factors with
    | [] => .ok []
    | [x] => .ok [x]
    | [u1, u2] =>
      match u1, u2 with
      | .prodL ops1, .prodL ops2 => mergeFactors fu ops1.toList ops2.toList
      | .prodL ops1, _ => mergeFactors fu ops1.toList [u2]
      | _, .prodL ops2 => mergeFactors fu [u1] ops2.toList
      | _, _ =>
        if u1.isConstant && u2.isConstant then do
          let c ← opMul fu u1 u2
          if eqS c "1" then .ok [] else .ok [c]
        else if eqS u1 "1" then .ok [u2]
        else if eqS u2 "1" then .ok [u1]
        else do
          let b1 ← baseM u1
          let b2 ← baseM u2
          if eqObj b1 b2 then do
            let e1 ← exponentM u1
            let e2 ← exponentM u2
            let s ← opAdd fu e1 e2
            let ne ← simplifySum fu s
            let p ← opPow fu b1 ne
            let np ← simplifyPower fu p
            if eqS np "1" then .ok [] else .ok [np]
          else do
            let r ← pyLt fu u2 u1
            if r.truthy then .ok [u2, u1] else .ok [u1, u2]
    | u1 :: rest => do
      let remaining ← flattenFactors fu rest
      match u1 with
      | .prodL ops1 => mergeFactors fu ops1.toList remaining
      | _ => mergeFactors fu [u1] remaining

/-- `simplification_ops.merge_factors`. -/
def mergeFactors : Nat → List Obj → List Obj → M (List Obj)
  | 0, _, _ => .error .fuelOut
  | fu+1, first, second =>
    match first, second with
    | xs, [] => .ok xs
    | [], ys => .ok ys
    | p :: restP, q :: restQ => do
      let h ← flattenFactors fu [p, q]
      match h with
      | [] => mergeFactors fu restP restQ
      | [x] => do
        let rest ← mergeFactors fu restP restQ
        .ok (x :: rest)
      | _ =>
        if listEq h [p, q] then do
          let rest ← mergeFactors fu restP (q :: restQ)
          .ok (p :: rest)
        else if listEq h [q, p] then do
          let rest ← mergeFactors fu (p :: restP) restQ
          .ok (q :: rest)
        else .error .assertionError

/-- `simplification_ops.flatten_terms`. -/
def flattenTerms : Nat → List Obj → M (List Obj)
  | 0, _ => .error .fuelOut
  | fu+1, terms =>
    match terms with
    | [] => .ok []
    | [x] => .ok [x]
    | [u1, u2] =>
      match u1, u2 with
      | .sumL ops1, .sumL ops2 => mergeTerms fu ops1.toList ops2.toList
      | .sumL ops1, _ => mergeTerms fu ops1.toList [u2]
      | _, .sumL ops2 => mergeTerms fu [u1] ops2.toList
      | _, _ =>
        if u1.isConstant && u2.isConstant then do
          let c ← opAdd fu u1 u2
          if eqS c "0" then .ok [] else .ok [c]
        else if eqS u1 "0" then .ok [u2]
        else if eqS u2 "0" then .ok [u1]
        else do
          let t1 ← u1.term
          let t2 ← u2.term
          if eqObj t1 t2 then do
            let c1 ← u1.coefficient
            let c2 ← u2.coefficient
            let nc ← opAdd fu c1 c2
            let t1b ← u1.term
            let np ← opMul fu nc t1b
            if eqS np "0" then .ok [] else .ok [np]
          else do
            let r ← pyLt fu u2 u1
            if r.truthy then .ok [u2, u1] else .ok [u1, u2]
    | u1 :: rest => do
      let remaining ← flattenTerms fu rest
      match u1 with
      | .sumL ops1 => mergeTerms fu ops1.toList remaining
      | _ => mergeTerms fu [u1] remaining

/-- `simplification_ops.merge_terms`. -/
def mergeTerms : Nat → List Obj → List Obj → M (List Obj)
  | 0, _, _ => .error .fuelOut
  | fu+1, first, second =>
    match first, second with
    | xs, [] => .ok xs
    | [], ys => .ok ys
    | p :: restP, q :: restQ => do
      let h ← flattenTerms fu [p, q]
      match h with
      | [] => mergeTerms fu restP restQ
      | [x] => do
        let rest ← mergeTerms fu restP restQ
        .ok (x :: rest)
      | _ =>
        if listEq h [p, q] then do
          let rest ← mergeTerms fu restP (q :: restQ)
          .ok (p :: rest)
        else if listEq h [q, p] then do
          let rest ← mergeTerms fu (p :: restP) restQ
          .ok (q :: rest)
        else .error .assertionError

/-- The `+` operator: Python dispatch over `int.__add__`,
`Constant.__add__`, `Sum.__add__`, `Expression.__add__`, with reflection
into `Expression.__radd__` for a raw left operand. -/
def opAdd : Nat → Obj → Obj → M Obj
  | 0, _, _ => .error .fuelOut
  | fu+1, a, b =>
    match a with
    | .pint n =>
      match b with
      | .pint m => .ok (Obj.pint (n + m))
      | .pstr _ => .error .typeError
      | _ => opAdd fu (Obj.intE n) b
    | .pstr s =>
      match b with
      | .pstr t => .ok (Obj.pstr (s ++ t))
      | _ => .error .typeError
    | .intE _ | .ratE _ _ =>
      let b' := convertPrim b
      if b'.isConstant then constAddM a b'
      else if b'.isExpression then simplifySum fu (Obj.sum [a, b'])
      else .error .typeError
    | .sumL ts =>
      match b with
      | .sumL ts2 => simplifySum fu (Obj.sum (ts.toList ++ ts2.toList))
      | _ =>
        let b' := convertPrim b
        if b'.isExpression then simplifySum fu (Obj.sum [a, b'])
        else .error .typeError
    | _ =>
      let b' := convertPrim b
      if b'.isExpression then simplifySum fu (Obj.sum [a, b'])
      else .error .typeError

/-- The `*` operator: `int.__mul__`, `Constant.__mul__`,
`Product.__mul__`, `Expression.__mul__`, with reflection for a raw left
operand. -/
def opMul : Nat → Obj → Obj → M Obj
  | 0, _, _ => .error .fuelOut
  | fu+1, a, b =>
    match a with
    | .pint n =>
      match b with
      | .pint m => .ok (Obj.pint (n * m))
      | .pstr _ => .error .unmodelled
      | _ => opMul fu (Obj.intE n) b
    | .pstr _ => .error .unmodelled
    | .intE _ | .ratE _ _ =>
      let b' := convertPrim b
      if b'.isConstant then constMulM a b'
      else if b'.isExpression then simplifyProduct fu (Obj.prod [a, b'])
      else .error .typeError
    | .prodL fs =>
      match b with
      | .prodL fs2 => simplifyProduct fu (Obj.prod (fs.toList ++ fs2.toList))
      | _ =>
        let b' := convertPrim b
        if b'.isExpression then simplifyProduct fu (Obj.prod [a, b'])
        else .error .typeError
    | _ =>
      let b' := convertPrim b
      if b'.isExpression then simplifyProduct fu (Obj.prod [a, b'])
      else .error .typeError

/-- The `-` binary operator (`Constant.__sub__` / `Expression.__sub__`). -/
def opSub : Nat → Obj → Obj → M Obj
  | 0, _, _ => .error .fuelOut
  | fu+1, a, b =>
    match a with
    | .pint n =>
      match b with
      | .pint m => .ok (Obj.pint (n - m))
      | .pstr _ => .error .typeError
      | _ => do
        -- int.__sub__ NotImplemented; Expression.__rsub__ converts and flips
        opSub fu (Obj.intE n) b
    | .pstr _ => .error .typeError
    | .intE _ | .ratE _ _ =>
      let b' := convertPrim b
      if b'.isConstant then constSubM a b'
      else if b'.isExpression then do
        let t ← opMul fu (Obj.intE (-1)) b'
        opAdd fu a t
      else .error .typeError
    | _ =>
      let b' := convertPrim b
      if b'.isExpression then do
        let t ← opMul fu (Obj.intE (-1)) b'
        opAdd fu a t
      else .error .typeError

/-- The `**` operator: `Integer.__pow__`, `Rational.__pow__`,
`Expression.__pow__`, with reflection via `Expression.__rpow__`. -/
def opPow : Nat → Obj → Obj → M Obj
  | 0, _, _ => .error .fuelOut
  | fu+1, a, b =>
    match a with
    | .pint n =>
      match b with
      | .pint m => if 0 ≤ m then .ok (Obj.pint (n ^ m.toNat)) else .error .unmodelled
      | .pstr _ => .error .typeError
      | _ =>
        -- int.__pow__ NotImplemented on Expression; Expression.__rpow__
        opPow fu (Obj.intE n) b
    | .pstr _ =>
      -- str has no __pow__; Expression.__rpow__ converts the string,
      -- finds it is not an Expression, and returns NotImplemented.
      .error .typeError
    | .intE n =>
      let b' := convertPrim b
      if ¬ b'.isExpression then .error .typeError
      else if ¬ b'.isConstant then simplifyPower fu (Obj.powE a b')
      else intPow fu n b'
    | .ratE p q =>
      let b' := convertPrim b
      if ¬ b'.isExpression then .error .typeError
      else if ¬ b'.isConstant then simplifyPower fu (Obj.powE a b')
      else ratPow fu p q b'
    | _ =>
      let b' := convertPrim b
      if b'.isExpression then simplifyPower fu (Obj.powE a b')
      else .error .typeError

/-- `Integer.__pow__` with a Constant exponent. -/
def intPow : Nat → Int → Obj → M Obj
  | 0, _, _ => .error .fuelOut
  | fu+1, n, w =>
    if n = 1 || eqS w "0" then .ok (Obj.intE 1)
    else if w.constIsNeg then do
      let nexpt ← opMul fu (Obj.intE (-1)) w
      if n < 0 then
        match w with
        | .intE k =>
          -- (-1)**int(other): a raw float of value ±1, later boxed
          -- exactly by convert_primitive.
          let sgn := Obj.intE (if k.fmod 2 = 0 then 1 else -1)
          do
            let r ← ratMake 1 (-n)
            let t ← opPow fu r nexpt
            opMul fu sgn t
        | _ => .error .typeError   -- int(Rational) has no __int__
      else do
        let r ← ratMake 1 n
        let t ← opPow fu r nexpt
        .ok t
    else
      match w with
      | .intE k => .ok (Obj.intE (n ^ k.toNat))
      | .ratE _ _ =>
        -- float n-th root extraction; exactly representable only for
        -- bases 0 and -1 (1 was handled above).
        if n = 0 then .ok (Obj.intE 0)
        else if n = -1 then .error .valueError
        else .error .floatPath
      | _ => .error .typeError

/-- `Rational.__pow__` with a Constant exponent. -/
def ratPow : Nat → Int → Int → Obj → M Obj
  | 0, _, _, _ => .error .fuelOut
  | fu+1, p, q, w =>
    match w with
    | .intE k =>
      if k = 0 then .ok (Obj.intE 1)
      else if k < 0 then do
        let nexpt ← opMul fu (Obj.intE (-1)) (Obj.intE k)
        if eqS nexpt "1" then ratMake q p
        else if (Obj.ratE p q).constIsNeg then .error .indexError  -- Rational() with no args
        else do
          let r ← ratMake q p
          opPow fu r nexpt
      else ratMake (p ^ k.toNat) (q ^ k.toNat)
    | .ratE ep eq' =>
      -- the sympy-adapted radical split; every product/power below runs
      -- through the real operators.
      let ip := ep.fdiv eq'
      if ip ≠ 0 then
        let ip2 := ip + 1
        if ip2 < 0 then .error .unmodelled
        else do
          let remfrac := ip2 * eq' - ep
          let ratfrac ← ratMake remfrac eq'
          if p ≠ 1 then do
            let t1 ← opPow fu (Obj.intE p) (Obj.ratE ep eq')
            let t2 ← opPow fu (Obj.intE q) ratfrac
            let t3 ← ratMake 1 (p ^ ip2.toNat)
            let m1 ← opMul fu t1 t2
            opMul fu m1 t3
          else do
            let t2 ← opPow fu (Obj.intE q) ratfrac
            let t3 ← ratMake 1 (q ^ ip2.toNat)
            opMul fu t2 t3
      else do
        let remfrac := eq' - ep
        let ratfrac ← ratMake remfrac eq'
        if p ≠ 1 then do
          let t1 ← opPow fu (Obj.intE p) (Obj.ratE ep eq')
          let t2 ← opPow fu (Obj.intE q) ratfrac
          let t3 ← ratMake 1 q
          let m1 ← opMul fu t1 t2
          opMul fu m1 t3
        else do
          let t2 ← opPow fu (Obj.intE q) ratfrac
          let t3 ← ratMake 1 q
          opMul fu t2 t3
    | _ => .error .typeError

/-- The `/` operator (`Expression.__truediv__`, with
`Expression.__rtruediv__` reflection for a raw left operand). -/
def opDiv : Nat → Obj → Obj → M Obj
  | 0, _, _ => .error .fuelOut
  | fu+1, a, b =>
    match a with
    | .pint n =>
      if b.isExpression then
        if eqS b "0" then .error .zeroDivisionError
        else do
          let p ← opPow fu b (Obj.pint (-1))
          opMul fu (Obj.intE n) p
      else .error .unmodelled
    | .pstr _ => .error .typeError
    | _ =>
      let b' := convertPrim b
      if eqS b' "0" then .error .zeroDivisionError
      else if b'.isExpression then do
        let p ← opPow fu b' (Obj.pint (-1))
        opMul fu a p
      else .error .typeError

/-- A single `__lt__` method call; `.ni` is NotImplemented. -/
def dunderLt : Nat → Obj → Obj → M LtV
  | 0, _, _ => .error .fuelOut
  | fu+1, a, b =>
    match a with
    | .pint n =>
      match b with
      | .pint m => .ok (if n < m then .t else .f)
      | _ => .ok .ni
    | .pstr s =>
      match b with
      | .pstr t => .ok (if strLt s t then .t else .f)
      | _ => .ok .ni
    | .intE _ | .ratE _ _ =>
      -- Constant.__lt__
      if b.isConstant then .ok (if a.constValLt b then .t else .f)
      else if b.isExpression then .ok .t
      else
        match b with
        | .pint m => .ok (if a.constValLt (Obj.intE m) then .t else .f)
        | _ => .error .typeError
    | .var s =>
      match b with
      | .var t => .ok (if strLt s t then .t else .f)
      | _ => .ok .ni
    | .sumL ts =>
      match b with
      | .sumL ts2 => cmpBack fu ts.toList ts2.toList
      | _ =>
        if b.isExpression && !b.isConstant && !b.isPow then do
          let r ← pyLt fu a (Obj.sum [b])
          .ok r.toLtV
        else .ok .ni
    | .prodL fs =>
      match b with
      | .prodL fs2 => cmpBack fu fs.toList fs2.toList
      | _ =>
        if b.isExpression && !b.isConstant then do
          let r ← pyLt fu a (Obj.prod [b])
          .ok r.toLtV
        else .ok .ni
    | .powE v w =>
      if b.isExpression && !b.isProd then
        if eqObj v b.base then do
          let r ← pyLt fu w b.exponent
          .ok r.toLtV
        else do
          let r ← pyLt fu v b.base
          .ok r.toLtV
      else .ok .ni
    | .fact v =>
      match b with
      | .fact w => do
        let r ← pyLt fu v w
        .ok r.toLtV
      | .var _ =>
        if eqObj v b then .ok .f
        else do
          let r ← pyLt fu a (Obj.fact b)
          .ok r.toLtV
      | _ => .ok .ni
    | .sinE _ | .cosE _ | .tanE _ | .cscE _ | .secE _ | .cotE _ =>
      if sameTrigKind a b then do
        let r ← pyLt fu (trigArg a) (trigArg b)
        .ok r.toLtV
      else if b.isTrig then .ok (if a.trigIdx < b.trigIdx then .t else .f)
      else if b.isExpression then .ok .f
      else .ok .ni
    | .expE a0 =>
      if ¬ b.isExpression then .ok .ni
      else
        match b with
        | .expE b0 => do
          let r ← pyLt fu a0 b0
          .ok r.toLtV
        | .lnE _ => .ok .t
        | _ => .ok .n     -- Exp.__lt__ falls off the end: None
    | .lnE a0 =>
      if ¬ b.isExpression then .ok .ni
      else
        match b with
        | .lnE b0 => do
          let r ← pyLt fu a0 b0
          .ok r.toLtV
        | _ => .ok .f
    | .divE _ _ =>
      -- Div defines no __lt__ and Expression has none either.
      .ok .ni

/-- `Sum.__lt__`/`Product.__lt__` O-3: compare operand lists from the
last element backwards; on a tie of the common suffix, compare lengths. -/
def cmpBack : Nat → List Obj → List Obj → M LtV
  | 0, _, _ => .error .fuelOut
  | fu+1, xs, ys => cmpBackAux fu xs.length ys.length xs.reverse ys.reverse

def cmpBackAux : Nat → Nat → Nat → List Obj → List Obj → M LtV
  | 0, _, _, _, _ => .error .fuelOut
  | fu+1, lx, ly, xs, ys =>
    match xs, ys with
    | x :: xs', y :: ys' =>
      if eqObj x y then cmpBackAux fu lx ly xs' ys'
      else do
        let r ← pyLt fu x y
        .ok r.toLtV
    | _, _ => .ok (if lx < ly then .t else .f)

/-- A single `__gt__` method call: `Expression.__gt__` is
`not (self < other)`; raw ints and strings compare natively among
themselves. -/
def dunderGt : Nat → Obj → Obj → M LtV
  | 0, _, _ => .error .fuelOut
  | fu+1, a, b =>
    match a with
    | .pint n =>
      match b with
      | .pint m => .ok (if m < n then .t else .f)
      | _ => .ok .ni
    | .pstr s =>
      match b with
      | .pstr t => .ok (if strLt t s then .t else .f)
      | _ => .ok .ni
    | _ => do
      let r ← pyLt fu a b
      .ok (if r.truthy then .f else .t)

/-- The `<` operator: try `type(a).__lt__(a, b)`, then the reflected
`type(b).__gt__(b, a)`, else TypeError. -/
def pyLt : Nat → Obj → Obj → M PyB
  | 0, _, _ => .error .fuelOut
  | fu+1, a, b => do
    let r ← dunderLt fu a b
    match r with
    | .t => .ok .t
    | .f => .ok .f
    | .n => .ok .n
    | .ni => do
      let r2 ← dunderGt fu b a
      match r2 with
      | .t => .ok .t
      | .f => .ok .f
      | .n => .ok .n
      | .ni => .error .typeError

end

/-! ## The polynomial predicates and the rational-integration strategy

Models of `expression_ops.contains`, the polynomial layer of
`polynomial_ops.py` (`is_monomial`, `is_polynomial`,
`_coefficient_monomial`, `degree`), `algebraic_ops.linear_form`,
`quadratic_form` (the only definition of that collaborator in the
repository lives in the `src/levycas` copy under `src/`), and the second
(shadowing) definition of `calculus_ops._integrate_rational`.  The
branches that re-enter the full `integrate` pipeline or reach the
`Arctan` name (which no module defines: evaluating that line raises
NameError) are marked explicitly. -/

mutual

/-- `expression_ops.contains` with a single sub-expression: membership
is `==` (printed-form equality); a non-Expression operand aborts the
whole scan with False. -/
def containsPy : Nat → Obj → Obj → M Bool
  | 0, _, _ => .error .fuelOut
  | fu+1, e, sub =>
    if eqObj e sub then .ok true
    else if ¬ e.isExpression then .ok false
    else do
      let ops ← e.operands
      containsList fu ops sub

def containsList : Nat → List Obj → Obj → M Bool
  | 0, _, _ => .error .fuelOut
  | _+1, [], _ => .ok false
  | fu+1, o :: os, sub =>
    if ¬ o.isExpression then .ok false
    else do
      let c ← containsPy fu o sub
      if c then .ok true else containsList fu os sub

end

mutual

/-- `polynomial_ops.is_monomial` with a single variable. -/
def isMonomial : Nat → Obj → Obj → M Bool
  | 0, _, _ => .error .fuelOut
  | fu+1, e, v =>
    if eqObj e v then .ok true
    else
      match e with
      | .powE b ex =>
        if eqObj b v && ex.isIntE && decide (1 < ex.constNum) then .ok true
        else do
          let c ← containsPy fu e v
          .ok (!c)
      | .prodL fs => monoList fu fs.toList v
      | _ => do
        let c ← containsPy fu e v
        .ok (!c)

def monoList : Nat → List Obj → Obj → M Bool
  | 0, _, _ => .error .fuelOut
  | _+1, [], _ => .ok true
  | fu+1, f :: fs, v => do
    let m ← isMonomial fu f v
    if m then monoList fu fs v else .ok false

end

/-- `polynomial_ops.is_polynomial` with a single variable. -/
def isPolynomial : Nat → Obj → Obj → M Bool
  | 0, _, _ => .error .fuelOut
  | fu+1, e, v =>
    match e with
    | .sumL ts =>
      if eqObj e v then .ok true
      else monoList fu ts.toList v
    | _ => isMonomial fu e v

mutual

/-- `polynomial_ops._coefficient_monomial`: the pair `[a, n]` of
coefficient and degree, or None. -/
def coefMonomial : Nat → Obj → Obj → M (Option (Obj × Obj))
  | 0, _, _ => .error .fuelOut
  | fu+1, e, v =>
    if eqObj e v then .ok (some (Obj.intE 1, Obj.intE 1))
    else
      match e with
      | .powE b ex =>
        if eqObj b v && ex.isIntE && decide (1 < ex.constNum) then
          .ok (some (Obj.intE 1, ex))
        else do
          let c ← containsPy fu e v
          if c then .ok none else .ok (some (e, Obj.intE 0))
      | .prodL fs => coefProdLoop fu e v fs.toList (Obj.intE 0) e
      | _ => do
        let c ← containsPy fu e v
        if c then .ok none else .ok (some (e, Obj.intE 0))

/-- The factor loop of `_coefficient_monomial`: the last factor of
nonzero degree sets `m` and `c = expr / var**m`. -/
def coefProdLoop : Nat → Obj → Obj → List Obj → Obj → Obj → M (Option (Obj × Obj))
  | 0, _, _, _, _, _ => .error .fuelOut
  | _+1, _, _, [], m, c => .ok (some (c, m))
  | fu+1, e, v, f :: fs, m, c => do
    let r ← coefMonomial fu f v
    match r with
    | none => .ok none
    | some (_, deg) =>
      if eqS deg "0" then coefProdLoop fu e v fs m c
      else do
        let p ← opPow fu v deg
        let c2 ← opDiv fu e p
        coefProdLoop fu e v fs deg c2

end

mutual

/-- `polynomial_ops.degree` with a single variable.  The
zero-polynomial convention returns the raw int `-1`. -/
def degreePy : Nat → Obj → Obj → M (Option Obj)
  | 0, _, _ => .error .fuelOut
  | fu+1, e, v =>
    if eqS e "0" then .ok (some (Obj.pint (-1)))
    else
      match e with
      | .sumL ts => degSumLoop fu ts.toList v (Obj.intE 0)
      | _ => do
        let r ← coefMonomial fu e v
        match r with
        | none => .ok none
        | some (_, n) => do
          let d ← opAdd fu (Obj.intE 0) n
          .ok (some d)

def degSumLoop : Nat → List Obj → Obj → Obj → M (Option Obj)
  | 0, _, _, _ => .error .fuelOut
  | _+1, [], _, deg => .ok (some deg)
  | fu+1, t :: ts, v, deg => do
    let r ← coefMonomial fu t v
    match r with
    | none => .ok none
    | some (_, n) => do
      let ds ← opAdd fu (Obj.intE 0) n
      let lt ← pyLt fu deg ds
      degSumLoop fu ts v (if lt.truthy then ds else deg)

end

/-- `algebraic_ops.linear_form`: the pair `[a, b]` of `a*x + b`, or
None. -/
def linearForm : Nat → Obj → Obj → M (Option (Obj × Obj))
  | 0, _, _ => .error .fuelOut
  | fu+1, e, v =>
    if eqObj e v then .ok (some (Obj.intE 1, Obj.intE 0))
    else
      match e with
      | .intE _ | .ratE _ _ | .var _ => .ok (some (Obj.intE 0, e))
      | .prodL _ => do
        let c ← containsPy fu e v
        if ¬ c then .ok (some (Obj.intE 0, e))
        else do
          let q ← opDiv fu e v
          let cq ← containsPy fu q v
          if ¬ cq then .ok (some (q, Obj.intE 0)) else .ok none
      | .sumL ts =>
        match ts.toList with
        | [] => .error .indexError
        | t0 :: _ => do
          let f1 ← linearForm fu t0 v
          match f1 with
          | none => .ok none
          | some (a1, b1) => do
            let rem ← opSub fu e t0
            let f2 ← linearForm fu rem v
            match f2 with
            | none => .ok none
            | some (a2, b2) => do
              let ra ← opAdd fu a1 a2
              let rb ← opAdd fu b1 b2
              .ok (some (ra, rb))
      | _ => do
        let c ← containsPy fu e v
        if ¬ c then .ok (some (Obj.intE 0, e)) else .ok none

mutual

/-- `algebraic_ops.quadratic_form` (from the repository's `src/levycas`
copy, the only definition): the triple `[a, b, c]` of
`a*x^2 + b*x + c`, or None. -/
def quadraticForm : Nat → Obj → Obj → M (Option (Obj × Obj × Obj))
  | 0, _, _ => .error .fuelOut
  | fu+1, e, v =>
    if eqObj e v then .ok (some (Obj.intE 1, Obj.intE 0, Obj.intE 0))
    else
      match e with
      | .intE _ | .ratE _ _ | .var _ => .ok (some (Obj.intE 0, Obj.intE 0, e))
      | .prodL _ => do
        let c ← containsPy fu e v
        if ¬ c then .ok (some (Obj.intE 0, Obj.intE 0, e))
        else do
          let q ← opDiv fu e v
          let lf ← linearForm fu q v
          match lf with
          | some (r, s) => .ok (some (r, s, Obj.intE 0))
          | none => .ok none
      | .sumL ts => qfSumLoop fu ts.toList v (Obj.intE 0) (Obj.intE 0) (Obj.intE 0)
      | .powE b ex => do
        let ce ← containsPy fu ex v
        if ce then .ok none
        else
          if eqObj b v then
            if eqS ex "2" then .ok (some (Obj.intE 1, Obj.intE 0, Obj.intE 0))
            else if eqS ex "1" then .ok (some (Obj.intE 0, Obj.intE 1, Obj.intE 0))
            else .ok none
          else do
            let cb ← containsPy fu b v
            if cb then .ok none else .ok (some (Obj.intE 0, Obj.intE 0, e))
      | _ => do
        let c ← containsPy fu e v
        if ¬ c then .ok (some (Obj.intE 0, Obj.intE 0, e)) else .ok none

def qfSumLoop : Nat → List Obj → Obj → Obj → Obj → Obj → M (Option (Obj × Obj × Obj))
  | 0, _, _, _, _, _ => .error .fuelOut
  | _+1, [], _, qa, qb, qc => .ok (some (qa, qb, qc))
  | fu+1, t :: ts, v, qa, qb, qc => do
    let tf ← quadraticForm fu t v
    match tf with
    | none => .ok none
    | some (a, b, c) => do
      let qa2 ← opAdd fu qa a
      let qb2 ← opAdd fu qb b
      let qc2 ← opAdd fu qc c
      qfSumLoop fu ts v qa2 qb2 qc2

end

/-- Python `int(...)` on a degree value (an `Integer` or a raw int). -/
def intVal : Obj → M Int
  | .intE k => .ok k
  | .pint k => .ok k
  | _ => .error .typeError

/-- The `>` operator on degree values: `Expression.__gt__` is
`not (self < other)`; a raw int left operand reflects into
`Constant.__lt__`, which compares numerically. -/
def pyGtObj : Nat → Obj → Obj → M Bool
  | 0, _, _ => .error .fuelOut
  | fu+1, a, b =>
    match a with
    | .pint n =>
      match b with
      | .pint m => .ok (decide (m < n))
      | .intE m => .ok (decide (m < n))
      | .ratE _ _ => .ok (b.constValLt (Obj.intE n))
      | _ => .error .typeError
    | _ => do
      let r ← pyLt fu a b
      .ok (!r.truthy)

/-- The second (shadowing) `calculus_ops._integrate_rational`.  The
polynomial-division branch and the branch that recurses into the full
`integrate` pipeline are outside the modelled fragment; the fall-through
to the `Arctan` formula raises NameError, since no module defines
`Arctan`. -/
def integrateRational : Nat → Obj → Obj → M (Option Obj)
  | 0, _, _ => .error .fuelOut
  | fu+1, e, wrt => do
    let denom ← denomAcc fu e
    let pd ← isPolynomial fu denom wrt
    if ¬ pd then .ok none
    else do
      let dd ← degreePy fu denom wrt
      match dd with
      | none => .error .typeError
      | some ddeg => do
        let k ← intVal ddeg
        if ¬ (k ≤ 2) then .ok none
        else do
          let num ← numAcc fu e
          let pn ← isPolynomial fu num wrt
          if ¬ pn then .ok none
          else do
            let nd ← degreePy fu num wrt
            match nd with
            | none => .error .typeError
            | some ndeg => do
              let gt ← pyGtObj fu ndeg ddeg
              if gt then .error .unmodelled
              else do
                let qf ← quadraticForm fu denom wrt
                match qf with
                | none => .error .typeError
                | some (a, b, c) => do
                  let b2 ← opPow fu b (Obj.pint 2)
                  let fourA ← opMul fu (Obj.pint 4) a
                  let fourAC ← opMul fu fourA c
                  let disc ← opSub fu b2 fourAC
                  if eqS num "1" then
                    if disc.isIntE then
                      if eqS disc "0" then do
                        let twoA ← opMul fu (Obj.pint 2) a
                        let twoAX ← opMul fu twoA wrt
                        let dn ← opAdd fu twoAX b
                        let r ← opDiv fu (Obj.pint (-2)) dn
                        .ok (some r)
                      else if disc.constIsPos then .ok none
                      else .error .nameError
                    else .error .nameError
                  else
                    if eqS ndeg "1" then .error .unmodelled else .ok none

/-- Decidable equality of run results (the engine result type is built
from types with decidable equality). -/
instance decEqRun {ε α : Type} [DecidableEq ε] [DecidableEq α] :
    DecidableEq (Except ε α) := fun a b =>
  match a, b with
  | .ok x, .ok y =>
    if h : x = y then isTrue (by rw [h]) else isFalse (by simp [h])
  | .error x, .error y =>
    if h : x = y then isTrue (by rw [h]) else isFalse (by simp [h])
  | .ok _, .error _ => isFalse (by simp)
  | .error _, .ok _ => isFalse (by simp)

/-- The exact rational value of a Constant node (for stating value-level
correctness of constant arithmetic). -/
def ratQ : Obj → ℚ
  | .intE n => (n : ℚ)
  | .ratE p q => (p : ℚ) / (q : ℚ)
  | _ => 0

/-- The six Trig application constructors, indexed in the order of the
`Trig.orderings` list `['Sin', 'Cos', 'Tan', 'Csc', 'Sec', 'Cot']` (for
stating the cross-kind comparison behaviour uniformly). -/
def trigMk : Fin 6 → Obj → Obj
  | ⟨0, _⟩, a => Obj.sinE a
  | ⟨1, _⟩, a => Obj.cosE a
  | ⟨2, _⟩, a => Obj.tanE a
  | ⟨3, _⟩, a => Obj.cscE a
  | ⟨4, _⟩, a => Obj.secE a
  | ⟨5, _⟩, a => Obj.cotE a
  | ⟨n + 6, h⟩, _ => absurd h (by omega)

end LevyCAS

namespace LevyCAS

open Obj

/-! ## Properties of the decimal printer -/

theorem natCharsAux_bound (b b2 n : Nat) (h : n < b) (h2 : n < b2) :
    natCharsAux b n = natCharsAux b2 n := by
  induction b generalizing b2 n with
  | zero => omega
  | succ b ih =>
    cases b2 with
    | zero => omega
    | succ b2 =>
      show natCharsAux (b+1) n = natCharsAux (b2+1) n
      rw [natCharsAux, natCharsAux]
      split
      · rfl
      · rename_i hge
        rw [ih b2 (n / 10) (by omega) (by omega)]

/-- The defining recurrence of the decimal printer. -/
theorem natChars_eq (n : Nat) :
    natChars n = if n < 10 then [digitChar n]
      else natChars (n / 10) ++ [digitChar (n % 10)] := by
  show natCharsAux (n+1) n = _
  rw [natCharsAux]
  split
  · rfl
  · rename_i hge
    rw [natCharsAux_bound n (n / 10 + 1) (n / 10) (by omega) (by omega)]
    rfl

theorem digitChar_toNat : ∀ n, n < 10 → (digitChar n).toNat = 48 + n := by decide

theorem digitChar_eq_iff : ∀ n, n < 10 → ∀ m, m < 10 →
    (digitChar n = digitChar m ↔ n = m) := by decide

theorem natChars_head_digit (n : Nat) :
    ∃ c l, natChars n = c :: l ∧ 48 ≤ c.toNat ∧ c.toNat ≤ 57 := by
  induction n using Nat.strong_induction_on with
  | _ n ih =>
    rw [natChars_eq]
    split
    · rename_i h
      refine ⟨digitChar n, [], rfl, ?_, ?_⟩ <;> rw [digitChar_toNat n h] <;> omega
    · rename_i h
      obtain ⟨c, l, hl, h1, h2⟩ := ih (n / 10) (by omega)
      exact ⟨c, l ++ [digitChar (n % 10)], by rw [hl]; rfl, h1, h2⟩

theorem natChars_single_iff (n d : Nat) (hd : d < 10) :
    natChars n = [digitChar d] ↔ n = d := by
  constructor
  · intro h
    rw [natChars_eq] at h
    split at h
    · rename_i hlt
      have heq : digitChar n = digitChar d := by simpa using h
      exact (digitChar_eq_iff n hlt d hd).mp heq
    · rename_i hge
      obtain ⟨c, l, hl, _, _⟩ := natChars_head_digit (n / 10)
      rw [hl] at h
      simp at h
  · rintro rfl
    rw [natChars_eq, if_pos hd]

theorem intStr_eq_zero_iff (n : Int) : intStr n = "0" ↔ n = 0 := by
  unfold intStr natStr
  split
  · rename_i h
    constructor
    · intro he
      obtain ⟨c, l, hl, h1, h2⟩ := natChars_head_digit n.natAbs
      have hdata : ("-" ++ String.mk (natChars n.natAbs)).data = "0".data := by rw [he]
      simp [hl] at hdata
    · intro he
      omega
  · rename_i h
    constructor
    · intro he
      have hdata : natChars n.toNat = "0".data := by
        have := congrArg String.data he
        simpa using this
      have h0 : n.toNat = 0 :=
        (natChars_single_iff n.toNat 0 (by omega)).mp (by simpa [digitChar] using hdata)
      omega
    · rintro rfl
      have h0 : natChars 0 = ['0'] := (natChars_single_iff 0 0 (by omega)).mpr rfl
      simp [h0]

theorem intStr_eq_one_iff (n : Int) : intStr n = "1" ↔ n = 1 := by
  unfold intStr natStr
  split
  · rename_i h
    constructor
    · intro he
      obtain ⟨c, l, hl, h1, h2⟩ := natChars_head_digit n.natAbs
      have hdata : ("-" ++ String.mk (natChars n.natAbs)).data = "1".data := by rw [he]
      simp [hl] at hdata
    · intro he
      omega
  · rename_i h
    constructor
    · intro he
      have hdata : natChars n.toNat = "1".data := by
        have := congrArg String.data he
        simpa using this
      have h0 : n.toNat = 1 :=
        (natChars_single_iff n.toNat 1 (by omega)).mp (by simpa [digitChar] using hdata)
      omega
    · rintro rfl
      have h1 : natChars 1 = ['1'] := (natChars_single_iff 1 1 (by omega)).mpr rfl
      simp [show ((1:Int).toNat) = 1 from rfl, h1]

/-- The decimal form of an integer starts with a minus sign or a digit. -/
theorem intStr_head (n : Int) :
    ∃ c l, (intStr n).data = c :: l ∧ (c = '-' ∨ (48 ≤ c.toNat ∧ c.toNat ≤ 57)) := by
  unfold intStr natStr
  split
  · obtain ⟨c, l, hl, h1, h2⟩ := natChars_head_digit n.natAbs
    refine ⟨'-', c :: l, ?_, Or.inl rfl⟩
    show ("-" ++ String.mk (natChars n.natAbs)).data = '-' :: c :: l
    simp [hl]
  · obtain ⟨c, l, hl, h1, h2⟩ := natChars_head_digit n.toNat
    exact ⟨c, l, by simp [hl], Or.inr ⟨h1, h2⟩⟩

theorem intStr_ne_of_head (n : Int) (s : String) (c0 : Char) (l0 : List Char)
    (hs : s.data = c0 :: l0) (hc : c0 ≠ '-') (hd : ¬(48 ≤ c0.toNat ∧ c0.toNat ≤ 57)) :
    intStr n ≠ s := by
  intro he
  obtain ⟨c, l, hl, hor⟩ := intStr_head n
  rw [he, hs] at hl
  cases hl
  rcases hor with h | h
  · exact hc h
  · exact hd h

theorem intStr_ne_undef (n : Int) : intStr n ≠ "UNDEFINED" := by
  refine intStr_ne_of_head n _ 'U' "NDEFINED".data rfl (by decide) (by decide)

/-! ## Correctness of the number layer

The binary gcd of `numerical_ops.gcd` computes `Nat.gcd` on positive
inputs, and `Rational.__new__` (`ratMake`) produces a Constant holding
the exact rational value of its arguments whenever the numerator is
nonnegative and the denominator positive. -/

theorem stripTwosAux_spec (f : Nat) : ∀ n, n ≤ f →
    (stripTwosAux f n).1 * 2 ^ (stripTwosAux f n).2 = n ∧
      (n ≠ 0 → (stripTwosAux f n).1 % 2 = 1) := by
  induction f with
  | zero =>
    intro n hn
    have hz : n = 0 := by omega
    subst hz
    exact ⟨by simp [stripTwosAux], fun h => absurd rfl h⟩
  | succ f ih =>
    intro n hn
    simp only [stripTwosAux]
    by_cases h : n ≠ 0 ∧ n % 2 = 0
    · rw [if_pos h]
      obtain ⟨h1, h2⟩ := ih (n / 2) (by omega)
      constructor
      · show (stripTwosAux f (n / 2)).1 * 2 ^ ((stripTwosAux f (n / 2)).2 + 1) = n
        rw [pow_succ, ← Nat.mul_assoc, h1]
        omega
      · intro _
        show (stripTwosAux f (n / 2)).1 % 2 = 1
        exact h2 (by omega)
    · rw [if_neg h]
      refine ⟨by simp, fun hn0 => ?_⟩
      show n % 2 = 1
      omega

theorem stripTwos_spec (n : Nat) :
    (stripTwos n).1 * 2 ^ (stripTwos n).2 = n ∧ (n ≠ 0 → (stripTwos n).1 % 2 = 1) :=
  stripTwosAux_spec n n le_rfl

theorem stripTwos_mul (n : Nat) : (stripTwos n).1 * 2 ^ (stripTwos n).2 = n :=
  (stripTwos_spec n).1

theorem stripTwos_odd (n : Nat) (h : n ≠ 0) : (stripTwos n).1 % 2 = 1 :=
  (stripTwos_spec n).2 h

theorem stripTwos_fst_pos (n : Nat) (h : 0 < n) : 0 < (stripTwos n).1 := by
  have hm := stripTwos_mul n
  rcases Nat.eq_zero_or_pos (stripTwos n).1 with h0 | h0
  · rw [h0, Nat.zero_mul] at hm
    omega
  · exact h0

theorem coprime_two_pow_odd (k b : Nat) (h : b % 2 = 1) : Nat.Coprime (2 ^ k) b := by
  apply Nat.Coprime.pow_left
  show Nat.gcd 2 b = 1
  rw [Nat.gcd_rec, h]
  rfl

theorem gcd_mul_two_pow_right (s t j : Nat) (hs : s % 2 = 1) :
    Nat.gcd s (t * 2 ^ j) = Nat.gcd s t :=
  Nat.Coprime.gcd_mul_right_cancel_right t (coprime_two_pow_odd j s hs)

theorem gcd_mul_two_pow_left (s t i : Nat) (ht : t % 2 = 1) :
    Nat.gcd (s * 2 ^ i) t = Nat.gcd s t :=
  Nat.Coprime.gcd_mul_right_cancel s (coprime_two_pow_odd i t ht)

theorem gcd_split (s t i j : Nat) (hs : s % 2 = 1) (ht : t % 2 = 1) :
    Nat.gcd (s * 2 ^ i) (t * 2 ^ j) = Nat.gcd s t * 2 ^ min i j := by
  rcases Nat.le_total i j with hij | hij
  · have hj : j - i + i = j := by omega
    have ht2 : t * 2 ^ j = t * 2 ^ (j - i) * 2 ^ i := by
      rw [Nat.mul_assoc, ← pow_add, hj]
    rw [ht2, Nat.gcd_mul_right, gcd_mul_two_pow_right s t (j - i) hs,
      Nat.min_eq_left hij]
  · have hi : i - j + j = i := by omega
    have hs2 : s * 2 ^ i = s * 2 ^ (i - j) * 2 ^ j := by
      rw [Nat.mul_assoc, ← pow_add, hi]
    rw [hs2, Nat.gcd_mul_right, gcd_mul_two_pow_left s t (i - j) ht,
      Nat.min_eq_right hij]

theorem gcdLoopAux_eq_gcd (f : Nat) : ∀ a b : Nat, 0 < a → 0 < b →
    a % 2 = 1 → b % 2 = 1 → a + b ≤ f + 1 → gcdLoopAux f a b = Nat.gcd a b := by
  induction f with
  | zero =>
    intro a b ha hb _ _ hf
    omega
  | succ f ih =>
    intro a b ha hb hoa hob hf
    rw [gcdLoopAux]
    rw [if_neg (by omega)]
    by_cases hab : a = b
    · rw [if_pos hab, hab, Nat.gcd_self]
    · rw [if_neg hab]
      by_cases hba : b < a
      · rw [if_pos hba]
        have hmul := stripTwos_mul (a - b)
        have hodd := stripTwos_odd (a - b) (by omega)
        have hspos : 0 < (stripTwos (a - b)).1 := stripTwos_fst_pos _ (by omega)
        have hk : 1 ≤ (stripTwos (a - b)).2 := by
          by_contra hk0
          have hz : (stripTwos (a - b)).2 = 0 := by omega
          rw [hz, pow_zero, Nat.mul_one] at hmul
          omega
        have h2s : 2 * (stripTwos (a - b)).1 ≤ a - b := by
          calc 2 * (stripTwos (a - b)).1 = (stripTwos (a - b)).1 * 2 ^ 1 := by ring
            _ ≤ (stripTwos (a - b)).1 * 2 ^ (stripTwos (a - b)).2 :=
              Nat.mul_le_mul_left _ (Nat.pow_le_pow_right (by omega) hk)
            _ = a - b := hmul
        rw [ih _ b hspos hb hodd hob (by omega)]
        calc Nat.gcd (stripTwos (a - b)).1 b
            = Nat.gcd ((stripTwos (a - b)).1 * 2 ^ (stripTwos (a - b)).2) b :=
              (gcd_mul_two_pow_left _ b _ hob).symm
          _ = Nat.gcd (a - b) b := by rw [hmul]
          _ = Nat.gcd a b := Nat.gcd_sub_self_left (by omega)
      · rw [if_neg hba]
        have hmul := stripTwos_mul (b - a)
        have hodd := stripTwos_odd (b - a) (by omega)
        have hspos : 0 < (stripTwos (b - a)).1 := stripTwos_fst_pos _ (by omega)
        have hk : 1 ≤ (stripTwos (b - a)).2 := by
          by_contra hk0
          have hz : (stripTwos (b - a)).2 = 0 := by omega
          rw [hz, pow_zero, Nat.mul_one] at hmul
          omega
        have h2s : 2 * (stripTwos (b - a)).1 ≤ b - a := by
          calc 2 * (stripTwos (b - a)).1 = (stripTwos (b - a)).1 * 2 ^ 1 := by ring
            _ ≤ (stripTwos (b - a)).1 * 2 ^ (stripTwos (b - a)).2 :=
              Nat.mul_le_mul_left _ (Nat.pow_le_pow_right (by omega) hk)
            _ = b - a := hmul
        rw [ih a _ ha hspos hoa hodd (by omega)]
        calc Nat.gcd a (stripTwos (b - a)).1
            = Nat.gcd a ((stripTwos (b - a)).1 * 2 ^ (stripTwos (b - a)).2) :=
              (gcd_mul_two_pow_right a _ _ hoa).symm
          _ = Nat.gcd a (b - a) := by rw [hmul]
          _ = Nat.gcd a b := Nat.gcd_sub_self_right (by omega)

/-- On positive inputs, the source's binary gcd terminates and computes
the mathematical gcd. -/
theorem gcdPy_pos (a b : Int) (ha : 0 < a) (hb : 0 < b) :
    gcdPy a b = some ((Nat.gcd a.toNat b.toNat : Nat) : Int) := by
  have hsa : a.sign = 1 := Int.sign_eq_one_iff_pos.mpr ha
  have hsb : b.sign = 1 := Int.sign_eq_one_iff_pos.mpr hb
  have hpa : 0 < (stripTwos a.natAbs).1 := stripTwos_fst_pos _ (by omega)
  have hpb : 0 < (stripTwos b.natAbs).1 := stripTwos_fst_pos _ (by omega)
  have hoa := stripTwos_odd a.natAbs (by omega)
  have hob := stripTwos_odd b.natAbs (by omega)
  have hma := stripTwos_mul a.natAbs
  have hmb := stripTwos_mul b.natAbs
  have hta : a.toNat = (stripTwos a.natAbs).1 * 2 ^ (stripTwos a.natAbs).2 := by
    rw [hma]; omega
  have htb : b.toNat = (stripTwos b.natAbs).1 * 2 ^ (stripTwos b.natAbs).2 := by
    rw [hmb]; omega
  have hgcd : Nat.gcd a.toNat b.toNat =
      Nat.gcd (stripTwos a.natAbs).1 (stripTwos b.natAbs).1 *
        2 ^ min (stripTwos a.natAbs).2 (stripTwos b.natAbs).2 := by
    rw [hta, htb]
    exact gcd_split _ _ _ _ hoa hob
  rw [gcdPy]
  rw [if_neg (by omega)]
  simp only [reduceTwos, hsa, hsb, one_mul]
  by_cases heq : ((stripTwos a.natAbs).1 : Int) = ((stripTwos b.natAbs).1 : Int)
  · rw [if_pos heq]
    have heqN : (stripTwos a.natAbs).1 = (stripTwos b.natAbs).1 := by omega
    congr 1
    rw [hgcd, ← heqN, Nat.gcd_self]
    rw [Int.natAbs_ofNat]
    push_cast
    ring
  · rw [if_neg heq]
    rw [if_pos ⟨by omega, by omega⟩]
    congr 1
    have htoa : ((stripTwos a.natAbs).1 : Int).toNat = (stripTwos a.natAbs).1 := by
      omega
    have htob : ((stripTwos b.natAbs).1 : Int).toNat = (stripTwos b.natAbs).1 := by
      omega
    rw [htoa, htob, gcdLoopPos,
      gcdLoopAux_eq_gcd _ _ _ hpa hpb hoa hob (by omega), hgcd]
    push_cast
    ring

/-- `Rational(n, d)` with a nonnegative numerator and positive
denominator succeeds and holds the exact rational value `n / d`. -/
theorem ratMake_spec (n d : Int) (hn : 0 ≤ n) (hd : 0 < d) :
    ∃ r, ratMake n d = .ok r ∧ r.isConstant = true ∧ ratQ r = (n : ℚ) / (d : ℚ) := by
  rw [ratMake]
  rw [if_neg (by omega)]
  have hfm : n.fmod d = n % d := Int.fmod_eq_emod n hd.le
  have hdQ : (d : ℚ) ≠ 0 := by exact_mod_cast hd.ne'
  by_cases hmod : n.fmod d = 0
  · rw [if_pos hmod]
    have hdvd : d ∣ n := Int.dvd_of_emod_eq_zero (by rw [← hfm]; exact hmod)
    obtain ⟨k, hk⟩ := hdvd
    refine ⟨_, rfl, rfl, ?_⟩
    show ((n.fdiv d : Int) : ℚ) = (n : ℚ) / (d : ℚ)
    rw [hk, Int.mul_fdiv_cancel_left _ (by omega)]
    push_cast
    rw [mul_comm, mul_div_assoc, div_self hdQ, mul_one]
  · rw [if_neg hmod]
    have hn0 : 0 < n := by
      rcases eq_or_lt_of_le hn with h0 | h0
      · exfalso
        apply hmod
        rw [hfm, ← h0, Int.zero_emod]
      · exact h0
    rw [gcdPy_pos n d hn0 hd]
    set g : Int := ((Nat.gcd n.toNat d.toNat : Nat) : Int) with hgdef
    show ∃ r, (if 0 < d then Except.ok (Obj.ratE (n.fdiv g) (d.fdiv g))
        else Except.ok (Obj.ratE ((-n).fdiv g) ((-d).fdiv g))) = Except.ok r ∧
        r.isConstant = true ∧ ratQ r = (n : ℚ) / (d : ℚ)
    rw [if_pos hd]
    have hgpos : 0 < Nat.gcd n.toNat d.toNat :=
      Nat.gcd_pos_of_pos_left _ (by omega)
    have hgne : g ≠ 0 := by
      rw [hgdef]
      exact_mod_cast hgpos.ne'
    have hgQ : ((g : Int) : ℚ) ≠ 0 := by exact_mod_cast hgne
    have hdn : g ∣ n := by
      have h1 := Nat.gcd_dvd_left n.toNat d.toNat
      have h2 : g ∣ ((n.toNat : Nat) : Int) := Int.natCast_dvd_natCast.mpr h1
      rwa [Int.toNat_of_nonneg hn0.le] at h2
    have hdd : g ∣ d := by
      have h1 := Nat.gcd_dvd_right n.toNat d.toNat
      have h2 : g ∣ ((d.toNat : Nat) : Int) := Int.natCast_dvd_natCast.mpr h1
      rwa [Int.toNat_of_nonneg hd.le] at h2
    obtain ⟨p, hp⟩ := hdn
    obtain ⟨q, hq⟩ := hdd
    refine ⟨_, rfl, rfl, ?_⟩
    show ((n.fdiv g : Int) : ℚ) / ((d.fdiv g : Int) : ℚ) = (n : ℚ) / (d : ℚ)
    rw [hp, hq, Int.mul_fdiv_cancel_left _ hgne, Int.mul_fdiv_cancel_left _ hgne]
    push_cast
    rw [mul_div_mul_left _ _ hgQ]

/-- Reducing a bind on an already-computed result. -/
theorem mBind_ok {α β : Type} (a : α) (f : α → M β) :
    ((Except.ok a : M α) >>= f) = f a := rfl

theorem ratMake_one_lt (v : Int) (hv : 1 < v) : ratMake 1 v = .ok (Obj.ratE 1 v) := by
  rw [ratMake]
  rw [if_neg (by omega)]
  have hfm : (1 : Int).fmod v = 1 := by
    rw [Int.fmod_eq_emod _ (by omega)]
    exact Int.emod_eq_of_lt (by omega) (by omega)
  rw [if_neg (by rw [hfm]; norm_num)]
  rw [gcdPy_pos 1 v (by omega) (by omega)]
  have hg1 : ((Nat.gcd (1 : Int).toNat v.toNat : Nat) : Int) = 1 := by norm_num
  rw [hg1]
  show (if 0 < v then Except.ok (Obj.ratE ((1 : Int).fdiv 1) (v.fdiv 1))
      else Except.ok (Obj.ratE ((-(1 : Int)).fdiv 1) ((-v).fdiv 1))) =
    Except.ok (Obj.ratE 1 v)
  rw [if_pos (by omega), Int.fdiv_one, Int.fdiv_one]

theorem opPow_ratE_one (p q : Int) :
    opPow 25 (Obj.ratE p q) (Obj.intE 1) = ratMake p q := by
  show ratMake (p ^ (1 : Int).toNat) (q ^ (1 : Int).toNat) = ratMake p q
  norm_num

theorem intPow_neg_one (v : Int) (hv : 0 < v) :
    intPow 26 v (Obj.intE (-1)) = .ok (if v = 1 then Obj.intE 1 else Obj.ratE 1 v) := by
  by_cases h1 : v = 1
  · subst h1
    rfl
  · rw [if_neg h1]
    have hd1 : decide (v = 1) = false := decide_eq_false h1
    have heq0 : eqS (Obj.intE (-1)) "0" = false := rfl
    have hnex : opMul 25 (Obj.intE (-1)) (Obj.intE (-1)) = .ok (Obj.intE 1) := rfl
    simp only [intPow, hd1, heq0, Bool.or_false, Bool.false_eq_true, if_false]
    rw [hnex, mBind_ok]
    rw [if_neg (by omega : ¬ v < 0)]
    rw [ratMake_one_lt v (by omega), mBind_ok]
    rw [opPow_ratE_one, ratMake_one_lt v (by omega), mBind_ok]
    rw [if_pos (show (Obj.intE (-1)).constIsNeg = true from rfl)]

theorem opPow_intE_neg (v : Int) (hv : 0 < v) :
    opPow 27 (Obj.intE v) (Obj.pint (-1)) =
      .ok (if v = 1 then Obj.intE 1 else Obj.ratE 1 v) := by
  show intPow 26 v (Obj.intE (-1)) = _
  exact intPow_neg_one v hv

theorem opMul_intE_inv (u v : Int) (hv : 0 < v) :
    opMul 27 (Obj.intE u) (if v = 1 then Obj.intE 1 else Obj.ratE 1 v) =
      ratMake u v := by
  by_cases h1 : v = 1
  · subst h1
    rw [if_pos rfl]
    show ratMake (u * 1) (1 * 1) = ratMake u 1
    norm_num
  · rw [if_neg h1]
    show ratMake (u * 1) (1 * v) = ratMake u v
    norm_num

theorem opDiv_const (u v : Int) (hv : 0 < v) :
    opDiv 28 (Obj.intE u) (Obj.intE v) = ratMake u v := by
  have h0 : eqS (Obj.intE v) "0" = false := by
    show (intStr v == "0") = false
    exact beq_eq_false_iff_ne.mpr (by rw [Ne, intStr_eq_zero_iff]; omega)
  show (if eqS (Obj.intE v) "0" = true then (.error .zeroDivisionError : M Obj)
      else if (Obj.intE v).isExpression = true then
        opPow 27 (Obj.intE v) (Obj.pint (-1)) >>= fun p => opMul 27 (Obj.intE u) p
      else .error .typeError) = ratMake u v
  rw [if_neg (by rw [h0]; exact Bool.false_ne_true),
    if_pos (show (Obj.intE v).isExpression = true from rfl)]
  rw [opPow_intE_neg v hv, mBind_ok]
  show opMul 27 (Obj.intE u) (if v = 1 then Obj.intE 1 else Obj.ratE 1 v) = ratMake u v
  exact opMul_intE_inv u v hv

/-- On a quotient of two Integer constants with positive denominator,
`simplify` returns exactly what `Rational.__new__` builds from them. -/
theorem simplify_div_const (u v : Int) (hv : 0 < v) :
    simplify 30 (Obj.divE (Obj.intE u) (Obj.intE v)) = ratMake u v := by
  have hany : ([Obj.intE u, Obj.intE v].any fun x => Obj.reprObj x == "UNDEFINED")
      = false := by
    show ((intStr u == "UNDEFINED") || ((intStr v == "UNDEFINED") || false)) = false
    rw [beq_eq_false_iff_ne.mpr (intStr_ne_undef u),
      beq_eq_false_iff_ne.mpr (intStr_ne_undef v)]
    rfl
  show (if ([Obj.intE u, Obj.intE v].any fun x => Obj.reprObj x == "UNDEFINED") = true
      then Except.ok Obj.undef
      else construct 29 [Obj.intE u, Obj.intE v]
          (Obj.divE (Obj.intE u) (Obj.intE v)) >>= fun e2 => simplifyDiv 29 e2) =
    ratMake u v
  rw [if_neg (by rw [hany]; exact Bool.false_ne_true)]
  show opDiv 28 (Obj.intE u) (Obj.intE v) = ratMake u v
  exact opDiv_const u v hv

/-! ## Claim C1 — idempotence of `simplify` -/

/-- Claim C1 counterexample.  For
`e = Product(2, z, Sum(a, b), Power(z, -1), c)` the first `simplify`
returns `(2 · (b + a) · c)` (the inverse pair `z · z⁻¹` collapses and the
flattened factor list retains the constant next to the un-distributed
sum), while simplifying that result again distributes the 2 and returns
`((2b + 2a) · c)` — a different canonical string, so
`simplify(simplify(e)) == simplify(e)` fails. -/
theorem claim_C1_counterexample :
    simplify 100 (prod [intE 2, var "z", sum [var "a", var "b"],
        powE (var "z") (intE (-1)), var "c"])
      = .ok (prod [intE 2, sum [var "a", var "b"], var "c"]) ∧
    simplify 100 (prod [intE 2, sum [var "a", var "b"], var "c"])
      = .ok (prod [sum [prod [intE 2, var "a"], prod [intE 2, var "b"]], var "c"]) ∧
    reprObj (prod [intE 2, sum [var "a", var "b"], var "c"])
      ≠ reprObj (prod [sum [prod [intE 2, var "a"], prod [intE 2, var "b"]], var "c"]) := by
  refine ⟨by rfl, by rfl, by decide⟩

/-- Claim C1, amended: `simplify` is idempotent on leaves — constants
and variables are returned unchanged at any fuel, so a second
application returns the same result.  (In general idempotence fails, see
the counterexample.) -/
theorem claim_C1 (e : Obj) (h : (e.isConstant || e.isVar) = true) (fu : Nat) :
    simplify (fu+1) e = .ok e ∧
    (simplify (fu+1) e >>= simplify (fu+1)) = simplify (fu+1) e := by
  cases e <;> simp_all [Obj.isConstant, Obj.isVar] <;>
    simp [simplify, Bind.bind, Except.bind]

theorem claim_C1_witness :
    simplify 11 (intE 5) = .ok (intE 5) ∧
    (simplify 11 (intE 5) >>= simplify 11) = simplify 11 (intE 5) :=
  claim_C1 (intE 5) (by rfl) 10

/-! ## Claim C2 — UNDEFINED absorption -/

/-- Claim C2: the absorption the specification promises does not happen;
with the UNDEFINED sentinel (the raw string "UNDEFINED") as a literal
operand, `simplify` recurses into the operand and crashes with
`AttributeError` (`str` has no `operands`), for all four node kinds. -/
theorem claim_C2_code_behavior :
    simplify 100 (sum [Obj.undef, var "x"]) = .error .attributeError ∧
    simplify 100 (prod [Obj.undef, var "x"]) = .error .attributeError ∧
    simplify 100 (powE Obj.undef (var "x")) = .error .attributeError ∧
    simplify 100 (divE Obj.undef (var "x")) = .error .attributeError := by
  refine ⟨by rfl, by rfl, by rfl, by rfl⟩

/-! ## Claim C3 — constant division -/

/-- Claim C3 counterexample: dividing by the constant 0 does not return
UNDEFINED; `Expression.__truediv__` raises `ZeroDivisionError`. -/
theorem claim_C3_counterexample :
    simplify 30 (divE (intE 1) (intE 0)) = .error .zeroDivisionError := by rfl

/-- Claim C3, amended.  For a quotient of Integer constants with
nonnegative numerator and positive denominator, `simplify` does return a
Constant holding the exact rational quotient.  But the rest of the claim
fails: division by the constant 0 raises `ZeroDivisionError` instead of
returning UNDEFINED, and a negative numerator over a positive
denominator with a non-exact quotient never returns at all (the binary
gcd loops forever on arguments of mixed sign). -/
theorem claim_C3 (u v : Int) (hu : 0 ≤ u) (hv : 0 < v) :
    (∃ r, simplify 30 (divE (intE u) (intE v)) = .ok r ∧
        r.isConstant = true ∧ ratQ r = (u : ℚ) / (v : ℚ)) ∧
    simplify 30 (divE (intE 1) (intE 0)) = .error .zeroDivisionError ∧
    simplify 100 (divE (intE (-1)) (intE 2)) = .error .hang := by
  refine ⟨?_, by rfl, by rfl⟩
  obtain ⟨r, hr, hc, hq⟩ := ratMake_spec u v hu hv
  exact ⟨r, by rw [simplify_div_const u v hv, hr], hc, hq⟩

theorem claim_C3_witness :
    (0 : Int) ≤ 2 ∧ (0 : Int) < 3 ∧
      ((∃ r, simplify 30 (divE (intE 2) (intE 3)) = .ok r ∧
          r.isConstant = true ∧ ratQ r = (2 : ℚ) / (3 : ℚ)) ∧
        simplify 30 (divE (intE 1) (intE 0)) = .error .zeroDivisionError ∧
        simplify 100 (divE (intE (-1)) (intE 2)) = .error .hang) :=
  ⟨by decide, by decide, claim_C3 2 3 (by decide) (by decide)⟩

/-! ## Support for the power rules: reducing `simplify` on a Power node -/

theorem any_undef_pair (a b : Obj)
    (ha : Obj.reprObj a ≠ "UNDEFINED") (hb : Obj.reprObj b ≠ "UNDEFINED") :
    ([a, b].any fun x => Obj.reprObj x == "UNDEFINED") = false := by
  show ((Obj.reprObj a == "UNDEFINED") || ((Obj.reprObj b == "UNDEFINED") || false))
      = false
  rw [beq_eq_false_iff_ne.mpr ha, beq_eq_false_iff_ne.mpr hb]
  rfl

theorem simplifyList_pair (a b : Obj)
    (ha : simplify 28 a = .ok a) (hb : simplify 27 b = .ok b) :
    simplifyList 29 [a, b] = .ok [a, b] := by
  show (simplify 28 a >>= fun y =>
      (simplify 27 b >>= fun y2 =>
        (simplifyList 27 [] >>= fun ys2 => Except.ok (y2 :: ys2))) >>= fun ys =>
      Except.ok (y :: ys)) = .ok [a, b]
  rw [ha, mBind_ok, hb, mBind_ok]
  rfl

/-- `simplify` on a Power node whose operands are already simplified and
not UNDEFINED: simplify the operands, rebuild through `**`, and hand the
result to `simplify_power`. -/
theorem simplify_pow_eq (a b : Obj)
    (hl : simplifyList 29 [a, b] = .ok [a, b])
    (hany : ([a, b].any fun x => Obj.reprObj x == "UNDEFINED") = false) :
    simplify 30 (powE a b) =
      (opPow 28 a b >>= fun e2 => simplifyPower 29 e2) := by
  show (simplifyList 29 [a, b] >>= fun sims =>
      if (sims.any fun x => Obj.reprObj x == "UNDEFINED") = true then Except.ok Obj.undef
      else construct 29 sims (powE a b) >>= fun e2 => simplifyPower 29 e2) =
    (opPow 28 a b >>= fun e2 => simplifyPower 29 e2)
  rw [hl, mBind_ok]
  rw [if_neg (by rw [hany]; exact Bool.false_ne_true)]
  rfl

/-- `simplify_power` fixes an Integer (the dispatcher hands it one after
`construct` has collapsed a Power of constants). -/
theorem simplifyPower_intE (fu : Nat) (n : Int) :
    simplifyPower (fu + 1) (Obj.intE n) = .ok (Obj.intE n) := by
  by_cases h0 : n = 0
  · subst h0
    rfl
  · by_cases h1 : n = 1
    · subst h1
      rfl
    · have e0 : eqS (Obj.intE n) "0" = false := by
        show (intStr n == "0") = false
        exact beq_eq_false_iff_ne.mpr (by rw [Ne, intStr_eq_zero_iff]; omega)
      have e1 : eqS (Obj.intE n) "1" = false := by
        show (intStr n == "1") = false
        exact beq_eq_false_iff_ne.mpr (by rw [Ne, intStr_eq_one_iff]; omega)
      simp only [simplifyPower, baseM, exponentM, mBind_ok, e0, e1,
        Bool.false_eq_true, if_false]
      rfl

/-- `simplify_power` fixes a Variable not literally named "0" or "1". -/
theorem simplifyPower_var (fu : Nat) (s : String) (hs0 : s ≠ "0") (hs1 : s ≠ "1") :
    simplifyPower (fu + 1) (Obj.var s) = .ok (Obj.var s) := by
  have e0 : eqS (Obj.var s) "0" = false := by
    show (s == "0") = false
    exact beq_eq_false_iff_ne.mpr hs0
  have e1 : eqS (Obj.var s) "1" = false := by
    show (s == "1") = false
    exact beq_eq_false_iff_ne.mpr hs1
  simp only [simplifyPower, baseM, exponentM, mBind_ok, e0, e1,
    Bool.false_eq_true, if_false]
  rfl

/-- `simplify_power` on a Variable to the 0th power: the `w == 0` rule
fires (after the base's own name survives the `v == 0` / `v == 1`
string comparisons). -/
theorem simplifyPower_var_zero (fu : Nat) (s : String)
    (hs0 : s ≠ "0") (hs1 : s ≠ "1") :
    simplifyPower (fu + 1) (Obj.powE (Obj.var s) (Obj.intE 0)) = .ok (Obj.intE 1) := by
  have e0 : eqS (Obj.var s) "0" = false := by
    show (s == "0") = false
    exact beq_eq_false_iff_ne.mpr hs0
  have e1 : eqS (Obj.var s) "1" = false := by
    show (s == "1") = false
    exact beq_eq_false_iff_ne.mpr hs1
  simp only [simplifyPower, baseM, exponentM, mBind_ok, e0, e1,
    Bool.false_eq_true, if_false]
  rfl

/-- `simplify_power` on a Variable to the 1st power: the `w == 1` rule
returns the base. -/
theorem simplifyPower_var_one (fu : Nat) (s : String)
    (hs0 : s ≠ "0") (hs1 : s ≠ "1") :
    simplifyPower (fu + 1) (Obj.powE (Obj.var s) (Obj.intE 1)) = .ok (Obj.var s) := by
  have e0 : eqS (Obj.var s) "0" = false := by
    show (s == "0") = false
    exact beq_eq_false_iff_ne.mpr hs0
  have e1 : eqS (Obj.var s) "1" = false := by
    show (s == "1") = false
    exact beq_eq_false_iff_ne.mpr hs1
  simp only [simplifyPower, baseM, exponentM, mBind_ok, e0, e1,
    Bool.false_eq_true, if_false]
  rfl

theorem ratMake_int (n : Int) : ratMake n 1 = .ok (Obj.intE n) := by
  rw [ratMake]
  rw [if_neg (by norm_num : ¬ (1 : Int) = 0)]
  have hf : n.fmod 1 = 0 := by
    rw [Int.fmod_eq_emod _ (by norm_num)]
    exact Int.emod_one n
  rw [hf]
  rw [if_pos rfl]
  rw [Int.fdiv_one]

theorem opMul_neg1_int (k : Int) :
    opMul 26 (Obj.intE (-1)) (Obj.intE k) = .ok (Obj.intE (-k)) := by
  show ratMake (-1 * k) (1 * 1) = .ok (Obj.intE (-k))
  rw [show (-1 : Int) * k = -k from by ring, show (1 : Int) * 1 = 1 from by norm_num]
  exact ratMake_int (-k)

theorem intPow_zero_pos (k : Int) (hk : 0 < k) :
    intPow 27 0 (Obj.intE k) = .ok (Obj.intE 0) := by
  have heq : eqS (Obj.intE k) "0" = false := by
    show (intStr k == "0") = false
    exact beq_eq_false_iff_ne.mpr (by rw [Ne, intStr_eq_zero_iff]; omega)
  have hd1 : decide ((0 : Int) = 1) = false := rfl
  simp only [intPow, hd1, heq, Bool.or_false, Bool.false_eq_true, if_false]
  have hcn : (Obj.intE k).constIsNeg = false := by
    show decide (k < 0) = false
    exact decide_eq_false (by omega)
  rw [if_neg (by rw [hcn]; exact Bool.false_ne_true)]
  show Except.ok (Obj.intE ((0 : Int) ^ k.toNat)) = .ok (Obj.intE 0)
  rw [zero_pow (by omega : k.toNat ≠ 0)]

theorem intPow_zero_neg (k : Int) (hk : k < 0) :
    intPow 27 0 (Obj.intE k) = .error .typeError := by
  have heq : eqS (Obj.intE k) "0" = false := by
    show (intStr k == "0") = false
    exact beq_eq_false_iff_ne.mpr (by rw [Ne, intStr_eq_zero_iff]; omega)
  have hd1 : decide ((0 : Int) = 1) = false := rfl
  simp only [intPow, hd1, heq, Bool.or_false, Bool.false_eq_true, if_false]
  have hcn : (Obj.intE k).constIsNeg = true := by
    show decide (k < 0) = true
    exact decide_eq_true hk
  rw [if_pos hcn]
  rw [opMul_neg1_int k, mBind_ok]
  rfl

/-! ## Claim C4 — power simplification rules -/

/-- Claim C4 counterexample: `simplify(Power(0, 0))` returns `Integer(1)`
(the exponentiation happens inside `construct` via `Integer.__pow__`,
whose `other == 0` test fires before any zero-base check), and
`simplify(Power(0, -1))` raises TypeError (`Rational(1, 0)` yields the
UNDEFINED string, which then cannot be raised to a power) — neither is
the UNDEFINED result the claim requires for nonpositive exponents. -/
theorem claim_C4_counterexample :
    simplify 50 (powE (intE 0) (intE 0)) = .ok (intE 1) ∧
    simplify 50 (powE (intE 0) (intE (-1))) = .error .typeError := by
  refine ⟨by rfl, by rfl⟩

/-- Claim C4, amended.  The rules hold on integer-constant and variable
operands exactly as far as the claim says, except at a nonpositive
exponent of base 0: `0^k = 0` for positive integer `k`, but `0^0`
returns `Integer(1)` and `0^k` for negative `k` raises TypeError (never
UNDEFINED); `1^w = 1`, `v^0 = 1` and `v^1 = v` hold for every integer
constant and for every variable not literally named "0" or "1" (those
names collide with the string comparisons `v == 0` / `v == 1` of
`simplify_power`). -/
theorem claim_C4 (k kneg n : Int) (hk : 0 < k) (hkn : kneg < 0) (s : String)
    (hs0 : s ≠ "0") (hs1 : s ≠ "1") (hsu : s ≠ "UNDEFINED") :
    simplify 30 (powE (intE 0) (intE k)) = .ok (intE 0) ∧
    simplify 30 (powE (intE 0) (intE 0)) = .ok (intE 1) ∧
    simplify 30 (powE (intE 0) (intE kneg)) = .error .typeError ∧
    simplify 30 (powE (intE 1) (intE n)) = .ok (intE 1) ∧
    simplify 30 (powE (intE 1) (var s)) = .ok (intE 1) ∧
    simplify 30 (powE (intE n) (intE 0)) = .ok (intE 1) ∧
    simplify 30 (powE (var s) (intE 0)) = .ok (intE 1) ∧
    simplify 30 (powE (intE n) (intE 1)) = .ok (intE n) ∧
    simplify 30 (powE (var s) (intE 1)) = .ok (var s) := by
  have hvu : Obj.reprObj (var s) ≠ "UNDEFINED" := hsu
  refine ⟨?_, by rfl, ?_, ?_, ?_, ?_, ?_, ?_, ?_⟩
  · -- 0 ^ positive = 0
    rw [simplify_pow_eq (intE 0) (intE k) (simplifyList_pair (intE 0) (intE k) rfl rfl)
      (any_undef_pair (intE 0) (intE k) (intStr_ne_undef 0) (intStr_ne_undef k))]
    show (intPow 27 0 (intE k) >>= fun e2 => simplifyPower 29 e2) = .ok (intE 0)
    rw [intPow_zero_pos k hk, mBind_ok]
    rfl
  · -- 0 ^ negative raises TypeError
    rw [simplify_pow_eq (intE 0) (intE kneg) (simplifyList_pair (intE 0) (intE kneg) rfl rfl)
      (any_undef_pair (intE 0) (intE kneg) (intStr_ne_undef 0) (intStr_ne_undef kneg))]
    show (intPow 27 0 (intE kneg) >>= fun e2 => simplifyPower 29 e2)
        = .error .typeError
    rw [intPow_zero_neg kneg hkn]
    rfl
  · -- 1 ^ integer = 1
    rw [simplify_pow_eq (intE 1) (intE n) (simplifyList_pair (intE 1) (intE n) rfl rfl)
      (any_undef_pair (intE 1) (intE n) (intStr_ne_undef 1) (intStr_ne_undef n))]
    rfl
  · -- 1 ^ variable = 1
    rw [simplify_pow_eq (intE 1) (var s) (simplifyList_pair (intE 1) (var s) rfl rfl)
      (any_undef_pair (intE 1) (var s) (intStr_ne_undef 1) hvu)]
    rfl
  · -- integer ^ 0 = 1
    rw [simplify_pow_eq (intE n) (intE 0) (simplifyList_pair (intE n) (intE 0) rfl rfl)
      (any_undef_pair (intE n) (intE 0) (intStr_ne_undef n) (intStr_ne_undef 0))]
    have hc : (decide (n = 1) || eqS (intE 0) "0") = true := by
      rw [show eqS (intE 0) "0" = true from rfl, Bool.or_true]
    show (intPow 27 n (intE 0) >>= fun e2 => simplifyPower 29 e2) = .ok (intE 1)
    simp only [intPow]
    rw [if_pos hc, mBind_ok]
    rfl
  · -- variable ^ 0 = 1
    rw [simplify_pow_eq (var s) (intE 0) (simplifyList_pair (var s) (intE 0) rfl rfl)
      (any_undef_pair (var s) (intE 0) hvu (intStr_ne_undef 0))]
    show (simplifyPower 27 (powE (var s) (intE 0)) >>= fun e2 => simplifyPower 29 e2)
        = .ok (intE 1)
    rw [simplifyPower_var_zero 26 s hs0 hs1, mBind_ok]
    rfl
  · -- integer ^ 1 = the integer
    rw [simplify_pow_eq (intE n) (intE 1) (simplifyList_pair (intE n) (intE 1) rfl rfl)
      (any_undef_pair (intE n) (intE 1) (intStr_ne_undef n) (intStr_ne_undef 1))]
    by_cases hn1 : n = 1
    · subst hn1
      rfl
    · have hd1 : decide (n = 1) = false := decide_eq_false hn1
      show (intPow 27 n (intE 1) >>= fun e2 => simplifyPower 29 e2) = .ok (intE n)
      simp only [intPow, hd1]
      show simplifyPower 29 (intE (n ^ (1 : Int).toNat)) = .ok (intE n)
      rw [show n ^ ((1 : Int)).toNat = n from by rw [Int.toNat_one, pow_one]]
      exact simplifyPower_intE 28 n
  · -- variable ^ 1 = the variable
    rw [simplify_pow_eq (var s) (intE 1) (simplifyList_pair (var s) (intE 1) rfl rfl)
      (any_undef_pair (var s) (intE 1) hvu (intStr_ne_undef 1))]
    show (simplifyPower 27 (powE (var s) (intE 1)) >>= fun e2 => simplifyPower 29 e2)
        = .ok (var s)
    rw [simplifyPower_var_one 26 s hs0 hs1, mBind_ok]
    exact simplifyPower_var 28 s hs0 hs1

theorem claim_C4_witness :
    (0 : Int) < 2 ∧ (-3 : Int) < 0 ∧ "y" ≠ "0" ∧ "y" ≠ "1" ∧ "y" ≠ "UNDEFINED" ∧
      (simplify 30 (powE (intE 0) (intE 2)) = .ok (intE 0) ∧
        simplify 30 (powE (intE 0) (intE 0)) = .ok (intE 1) ∧
        simplify 30 (powE (intE 0) (intE (-3))) = .error .typeError ∧
        simplify 30 (powE (intE 1) (intE 5)) = .ok (intE 1) ∧
        simplify 30 (powE (intE 1) (var "y")) = .ok (intE 1) ∧
        simplify 30 (powE (intE 5) (intE 0)) = .ok (intE 1) ∧
        simplify 30 (powE (var "y") (intE 0)) = .ok (intE 1) ∧
        simplify 30 (powE (intE 5) (intE 1)) = .ok (intE 5) ∧
        simplify 30 (powE (var "y") (intE 1)) = .ok (var "y")) :=
  ⟨by decide, by decide, by decide, by decide, by decide,
    claim_C4 2 (-3) 5 (by decide) (by decide) "y"
      (by decide) (by decide) (by decide)⟩

/-! ## The string order used by `Variable.__lt__` -/

theorem charsLt_irrefl (l : List Char) : charsLt l l = false := by
  induction l with
  | nil => rfl
  | cons c cs ih =>
    simp only [charsLt]
    rw [if_neg (by omega), if_neg (by omega)]
    exact ih

theorem charsLt_asymm : ∀ l1 l2 : List Char,
    charsLt l1 l2 = true → charsLt l2 l1 = false := by
  intro l1
  induction l1 with
  | nil =>
    intro l2 h
    cases l2 with
    | nil => exact Bool.noConfusion h
    | cons d ds => rfl
  | cons c cs ih =>
    intro l2 h
    cases l2 with
    | nil => exact Bool.noConfusion h
    | cons d ds =>
      by_cases h1 : c.toNat < d.toNat
      · simp only [charsLt]
        rw [if_neg (by omega), if_pos h1]
      · by_cases h2 : d.toNat < c.toNat
        · simp only [charsLt] at h
          rw [if_neg h1, if_pos h2] at h
          exact Bool.noConfusion h
        · simp only [charsLt] at h ⊢
          rw [if_neg h1, if_neg h2] at h
          rw [if_neg h2, if_neg h1]
          exact ih ds h

theorem charsLt_total : ∀ l1 l2 : List Char, l1 ≠ l2 →
    charsLt l1 l2 = true ∨ charsLt l2 l1 = true := by
  intro l1
  induction l1 with
  | nil =>
    intro l2 h
    cases l2 with
    | nil => exact absurd rfl h
    | cons d ds => left; rfl
  | cons c cs ih =>
    intro l2 h
    cases l2 with
    | nil => right; rfl
    | cons d ds =>
      by_cases h1 : c.toNat < d.toNat
      · left
        simp only [charsLt]
        rw [if_pos h1]
      · by_cases h2 : d.toNat < c.toNat
        · right
          simp only [charsLt]
          rw [if_pos h2]
        · have hcd : c.toNat = d.toNat := by omega
          have hc : c = d := Char.ext (UInt32.ext hcd)
          subst hc
          have hne : cs ≠ ds := fun hh => h (by rw [hh])
          rcases ih ds hne with ht | ht
          · left
            simp only [charsLt]
            rw [if_neg h1, if_neg h2]
            exact ht
          · right
            simp only [charsLt]
            rw [if_neg h2, if_neg h1]
            exact ht

theorem strLt_asymm (s t : String) (h : strLt s t = true) : strLt t s = false :=
  charsLt_asymm _ _ h

theorem strLt_total (s t : String) (h : s ≠ t) :
    strLt s t = true ∨ strLt t s = true :=
  charsLt_total _ _ (fun hd => h (String.ext hd))

theorem paren_ne (s t : String) (h : s ≠ t) :
    ("(" ++ s ++ ")" : String) ≠ "(" ++ t ++ ")" := by
  intro he
  apply h
  have hd : ("(" ++ s ++ ")" : String).data = ("(" ++ t ++ ")" : String).data := by
    rw [he]
  simp only [String.data_append] at hd
  have h2 := List.append_cancel_right hd
  have h3 := List.append_cancel_left h2
  exact String.ext h3

/-- `Variable.__lt__` through the full rich-comparison protocol:
comparison of names by the Python string order. -/
theorem pyLt_var (fu : Nat) (s t : String) :
    pyLt (fu + 2) (Obj.var s) (Obj.var t) =
      .ok (if strLt s t then PyB.t else PyB.f) := by
  by_cases h : strLt s t = true
  · have hd : dunderLt (fu + 1) (Obj.var s) (Obj.var t) = .ok LtV.t := by
      show Except.ok (if strLt s t = true then LtV.t else LtV.f) = .ok LtV.t
      rw [if_pos h]
    simp only [pyLt]
    rw [hd, mBind_ok, if_pos h]
  · have hd : dunderLt (fu + 1) (Obj.var s) (Obj.var t) = .ok LtV.f := by
      show Except.ok (if strLt s t = true then LtV.t else LtV.f) = .ok LtV.f
      rw [if_neg h]
    simp only [pyLt]
    rw [hd, mBind_ok, if_neg h]

/-! ## Canonicalization of two-element Sums and Products -/

theorem flattenTerms_pair_vars (fu : Nat) (a b : String)
    (ha0 : a ≠ "0") (hb0 : b ≠ "0") (hab : a ≠ b) :
    flattenTerms (fu + 3) [Obj.var a, Obj.var b] =
      .ok (if strLt b a then [Obj.var b, Obj.var a] else [Obj.var a, Obj.var b]) := by
  have h01 : eqS (Obj.var a) "0" = false := by
    show (a == "0") = false
    exact beq_eq_false_iff_ne.mpr ha0
  have h02 : eqS (Obj.var b) "0" = false := by
    show (b == "0") = false
    exact beq_eq_false_iff_ne.mpr hb0
  have hobj : eqObj (Obj.prod [Obj.var a]) (Obj.prod [Obj.var b]) = false := by
    show (("(" ++ a ++ ")" : String) == ("(" ++ b ++ ")" : String)) = false
    exact beq_eq_false_iff_ne.mpr (paren_ne a b hab)
  simp only [flattenTerms]
  rw [if_neg (show ¬ (((Obj.var a).isConstant && (Obj.var b).isConstant) = true)
    from Bool.false_ne_true)]
  rw [if_neg (by rw [h01]; exact Bool.false_ne_true)]
  rw [if_neg (by rw [h02]; exact Bool.false_ne_true)]
  show (if eqObj (Obj.prod [Obj.var a]) (Obj.prod [Obj.var b]) = true then _
      else pyLt (fu + 2) (Obj.var b) (Obj.var a) >>= fun r =>
        if r.truthy = true then Except.ok [Obj.var b, Obj.var a]
        else Except.ok [Obj.var a, Obj.var b]) = _
  rw [if_neg (by rw [hobj]; exact Bool.false_ne_true)]
  rw [pyLt_var fu b a, mBind_ok]
  by_cases h : strLt b a = true
  · rw [h]
    rfl
  · have hf : strLt b a = false := by
      cases hv : strLt b a
      · rfl
      · exact absurd hv h
    rw [hf]
    rfl

theorem simplifySum_pair_vars (fu : Nat) (a b : String)
    (ha0 : a ≠ "0") (hb0 : b ≠ "0") (hab : a ≠ b)
    (hau : a ≠ "UNDEFINED") (hbu : b ≠ "UNDEFINED") :
    simplifySum (fu + 4) (Obj.sum [Obj.var a, Obj.var b]) =
      .ok (if strLt b a then Obj.sum [Obj.var b, Obj.var a]
        else Obj.sum [Obj.var a, Obj.var b]) := by
  have hu1 : (a == "UNDEFINED") = false := beq_eq_false_iff_ne.mpr hau
  have hu2 : (b == "UNDEFINED") = false := beq_eq_false_iff_ne.mpr hbu
  show (if ((a == "UNDEFINED") || ((b == "UNDEFINED") || false)) = true
      then Except.ok Obj.undef
      else flattenTerms (fu + 3) [Obj.var a, Obj.var b] >>= fun fl =>
        match fl with
        | [] => Except.ok (Obj.intE 0)
        | [x] => Except.ok x
        | _ => Except.ok (Obj.sum fl)) = _
  rw [if_neg (by rw [hu1, hu2]; exact Bool.false_ne_true)]
  rw [flattenTerms_pair_vars fu a b ha0 hb0 hab, mBind_ok]
  by_cases h : strLt b a = true
  · rw [h]
    rfl
  · have hf : strLt b a = false := by
      cases hv : strLt b a
      · rfl
      · exact absurd hv h
    rw [hf]
    rfl

theorem flattenFactors_pair_vars (fu : Nat) (a b : String)
    (ha1 : a ≠ "1") (hb1 : b ≠ "1") (hab : a ≠ b) :
    flattenFactors (fu + 3) [Obj.var a, Obj.var b] =
      .ok (if strLt b a then [Obj.var b, Obj.var a] else [Obj.var a, Obj.var b]) := by
  have h11 : eqS (Obj.var a) "1" = false := by
    show (a == "1") = false
    exact beq_eq_false_iff_ne.mpr ha1
  have h12 : eqS (Obj.var b) "1" = false := by
    show (b == "1") = false
    exact beq_eq_false_iff_ne.mpr hb1
  have hobj : eqObj (Obj.var a) (Obj.var b) = false := by
    show (a == b) = false
    exact beq_eq_false_iff_ne.mpr hab
  simp only [flattenFactors]
  rw [if_neg (show ¬ (((Obj.var a).isConstant && (Obj.var b).isConstant) = true)
    from Bool.false_ne_true)]
  rw [if_neg (by rw [h11]; exact Bool.false_ne_true)]
  rw [if_neg (by rw [h12]; exact Bool.false_ne_true)]
  show (if eqObj (Obj.var a) (Obj.var b) = true then _
      else pyLt (fu + 2) (Obj.var b) (Obj.var a) >>= fun r =>
        if r.truthy = true then Except.ok [Obj.var b, Obj.var a]
        else Except.ok [Obj.var a, Obj.var b]) = _
  rw [if_neg (by rw [hobj]; exact Bool.false_ne_true)]
  rw [pyLt_var fu b a, mBind_ok]
  by_cases h : strLt b a = true
  · rw [h]
    rfl
  · have hf : strLt b a = false := by
      cases hv : strLt b a
      · rfl
      · exact absurd hv h
    rw [hf]
    rfl

theorem productFinish_pair_vars (fu : Nat) (a b : String)
    (ha1 : a ≠ "1") (hb1 : b ≠ "1") (hab : a ≠ b) :
    productFinish (fu + 4) [Obj.var a, Obj.var b] =
      .ok (if strLt b a then Obj.prod [Obj.var b, Obj.var a]
        else Obj.prod [Obj.var a, Obj.var b]) := by
  show (flattenFactors (fu + 3) [Obj.var a, Obj.var b] >>= fun fl =>
      match fl with
      | [] => Except.ok (Obj.intE 1)
      | [x] => Except.ok x
      | _ => Except.ok (Obj.prod fl)) = _
  rw [flattenFactors_pair_vars fu a b ha1 hb1 hab, mBind_ok]
  by_cases h : strLt b a = true
  · rw [h]
    rfl
  · have hf : strLt b a = false := by
      cases hv : strLt b a
      · rfl
      · exact absurd hv h
    rw [hf]
    rfl

theorem simplifyProduct_pair_vars (fu : Nat) (a b : String)
    (ha0 : a ≠ "0") (hb0 : b ≠ "0") (ha1 : a ≠ "1") (hb1 : b ≠ "1") (hab : a ≠ b) :
    simplifyProduct (fu + 5) (Obj.prod [Obj.var a, Obj.var b]) =
      .ok (if strLt b a then Obj.prod [Obj.var b, Obj.var a]
        else Obj.prod [Obj.var a, Obj.var b]) := by
  have h01 : eqS (Obj.var a) "0" = false := by
    show (a == "0") = false
    exact beq_eq_false_iff_ne.mpr ha0
  have h02 : eqS (Obj.var b) "0" = false := by
    show (b == "0") = false
    exact beq_eq_false_iff_ne.mpr hb0
  show (if ((eqS (Obj.var a) "0") || ((eqS (Obj.var b) "0") || false)) = true
      then Except.ok (Obj.intE 0)
      else productFinish (fu + 4) [Obj.var a, Obj.var b]) = _
  rw [if_neg (by rw [h01, h02]; exact Bool.false_ne_true)]
  exact productFinish_pair_vars fu a b ha1 hb1 hab

/-! ## The `sum`/`prod` rebuild loops on two atoms -/

theorem opAdd_zero_int (m : Int) :
    opAdd 27 (Obj.pint 0) (Obj.intE m) = .ok (Obj.intE m) := by
  have h0 : opAdd 27 (Obj.pint 0) (Obj.intE m)
      = constAddM (Obj.intE 0) (Obj.intE m) := rfl
  have h1 : constAddM (Obj.intE 0) (Obj.intE m)
      = ratMake (0 * ((pyLcm 1 1).fdiv 1) + m * ((pyLcm 1 1).fdiv 1)) (pyLcm 1 1) := rfl
  have h2 : ratMake (0 * ((pyLcm 1 1).fdiv 1) + m * ((pyLcm 1 1).fdiv 1)) (pyLcm 1 1)
      = ratMake (0 * 1 + m * 1) 1 := rfl
  rw [h0, h1, h2, show (0 : Int) * 1 + m * 1 = m from by ring]
  exact ratMake_int m

theorem opAdd_int_int (m n : Int) :
    opAdd 26 (Obj.intE m) (Obj.intE n) = .ok (Obj.intE (m + n)) := by
  have h0 : opAdd 26 (Obj.intE m) (Obj.intE n)
      = constAddM (Obj.intE m) (Obj.intE n) := rfl
  have h1 : constAddM (Obj.intE m) (Obj.intE n)
      = ratMake (m * ((pyLcm 1 1).fdiv 1) + n * ((pyLcm 1 1).fdiv 1)) (pyLcm 1 1) := rfl
  have h2 : ratMake (m * ((pyLcm 1 1).fdiv 1) + n * ((pyLcm 1 1).fdiv 1)) (pyLcm 1 1)
      = ratMake (m * 1 + n * 1) 1 := rfl
  rw [h0, h1, h2, show m * 1 + n * 1 = m + n from by ring]
  exact ratMake_int (m + n)

theorem opAdd_zero_var (s : String) (hsu : s ≠ "UNDEFINED") :
    opAdd 27 (Obj.pint 0) (Obj.var s) = .ok (Obj.var s) := by
  have hu : (s == "UNDEFINED") = false := beq_eq_false_iff_ne.mpr hsu
  show (if ((intStr 0 == "UNDEFINED") || ((s == "UNDEFINED") || false)) = true
      then Except.ok Obj.undef
      else flattenTerms 24 [Obj.intE 0, Obj.var s] >>= fun fl =>
        match fl with
        | [] => Except.ok (Obj.intE 0)
        | [x] => Except.ok x
        | _ => Except.ok (Obj.sum fl)) = .ok (Obj.var s)
  rw [if_neg (by rw [hu]; exact Bool.false_ne_true)]
  rfl

theorem opAdd_var_var (a b : String) (ha0 : a ≠ "0") (hb0 : b ≠ "0") (hab : a ≠ b)
    (hau : a ≠ "UNDEFINED") (hbu : b ≠ "UNDEFINED") :
    opAdd 26 (Obj.var a) (Obj.var b) =
      .ok (if strLt b a then Obj.sum [Obj.var b, Obj.var a]
        else Obj.sum [Obj.var a, Obj.var b]) := by
  show simplifySum 25 (Obj.sum [Obj.var a, Obj.var b]) = _
  exact simplifySum_pair_vars 21 a b ha0 hb0 hab hau hbu

theorem opMul_one_int (m : Int) :
    opMul 27 (Obj.intE 1) (Obj.intE m) = .ok (Obj.intE m) := by
  show ratMake (1 * m) (1 * 1) = .ok (Obj.intE m)
  rw [show (1 : Int) * m = m from by ring, show (1 : Int) * 1 = 1 from by norm_num]
  exact ratMake_int m

theorem opMul_int_int (m n : Int) :
    opMul 26 (Obj.intE m) (Obj.intE n) = .ok (Obj.intE (m * n)) := by
  show ratMake (m * n) (1 * 1) = .ok (Obj.intE (m * n))
  rw [show (1 : Int) * 1 = 1 from by norm_num]
  exact ratMake_int (m * n)

theorem opMul_one_var (s : String) (hs0 : s ≠ "0") :
    opMul 27 (Obj.intE 1) (Obj.var s) = .ok (Obj.var s) := by
  have h0 : eqS (Obj.var s) "0" = false := by
    show (s == "0") = false
    exact beq_eq_false_iff_ne.mpr hs0
  show (if ((eqS (Obj.intE 1) "0") || ((eqS (Obj.var s) "0") || false)) = true
      then Except.ok (Obj.intE 0)
      else productFinish 25 [Obj.intE 1, Obj.var s]) = .ok (Obj.var s)
  rw [if_neg (by rw [h0]; exact Bool.false_ne_true)]
  rfl

theorem opMul_var_var (a b : String) (ha0 : a ≠ "0") (hb0 : b ≠ "0")
    (ha1 : a ≠ "1") (hb1 : b ≠ "1") (hab : a ≠ b) :
    opMul 26 (Obj.var a) (Obj.var b) =
      .ok (if strLt b a then Obj.prod [Obj.var b, Obj.var a]
        else Obj.prod [Obj.var a, Obj.var b]) := by
  show simplifyProduct 25 (Obj.prod [Obj.var a, Obj.var b]) = _
  exact simplifyProduct_pair_vars 20 a b ha0 hb0 ha1 hb1 hab

/-! ## `simplify` on two-operand Sums and Products -/

theorem simplify_sum_eq (a b : Obj)
    (hl : simplifyList 29 [a, b] = .ok [a, b])
    (hany : ([a, b].any fun x => Obj.reprObj x == "UNDEFINED") = false) :
    simplify 30 (Obj.sum [a, b]) =
      (pySum 28 (Obj.pint 0) [a, b] >>= fun e2 => simplifySum 29 e2) := by
  show (simplifyList 29 [a, b] >>= fun sims =>
      if (sims.any fun x => Obj.reprObj x == "UNDEFINED") = true then Except.ok Obj.undef
      else construct 29 sims (Obj.sum [a, b]) >>= fun e2 => simplifySum 29 e2) = _
  rw [hl, mBind_ok]
  rw [if_neg (by rw [hany]; exact Bool.false_ne_true)]
  rfl

theorem simplify_prod_eq (a b : Obj)
    (hl : simplifyList 29 [a, b] = .ok [a, b])
    (hany : ([a, b].any fun x => Obj.reprObj x == "UNDEFINED") = false) :
    simplify 30 (Obj.prod [a, b]) =
      (pyProd 28 (Obj.intE 1) [a, b] >>= fun e2 => simplifyProduct 29 e2) := by
  show (simplifyList 29 [a, b] >>= fun sims =>
      if (sims.any fun x => Obj.reprObj x == "UNDEFINED") = true then Except.ok Obj.undef
      else construct 29 sims (Obj.prod [a, b]) >>= fun e2 => simplifyProduct 29 e2) = _
  rw [hl, mBind_ok]
  rw [if_neg (by rw [hany]; exact Bool.false_ne_true)]
  rfl

theorem simplifySum_intE (fu : Nat) (c : Int) :
    simplifySum (fu + 1) (Obj.intE c) = .ok (Obj.pint c) := by
  have hu : (intStr c == "UNDEFINED") = false := beq_eq_false_iff_ne.mpr (intStr_ne_undef c)
  show (if ((intStr c == "UNDEFINED") || false) = true then Except.ok Obj.undef
      else Except.ok (Obj.pint c)) = .ok (Obj.pint c)
  rw [if_neg (by rw [hu]; exact Bool.false_ne_true)]

theorem simplifyProduct_intE (fu : Nat) (c : Int) :
    simplifyProduct (fu + 1) (Obj.intE c) =
      (if c = 0 then .ok (Obj.intE 0) else .ok (Obj.pint c)) := by
  by_cases hc : c = 0
  · subst hc
    rw [if_pos rfl]
    rfl
  · rw [if_neg hc]
    have h0 : (intStr c == "0") = false :=
      beq_eq_false_iff_ne.mpr (by rw [Ne, intStr_eq_zero_iff]; omega)
    show (if ((eqS (Obj.pint c) "0") || false) = true then Except.ok (Obj.intE 0)
        else Except.ok (Obj.pint c)) = .ok (Obj.pint c)
    rw [if_neg (by
      rw [show eqS (Obj.pint c) "0" = false from h0]
      exact Bool.false_ne_true)]

theorem simplify_sum_int (m n : Int) :
    simplify 30 (Obj.sum [Obj.intE m, Obj.intE n]) = .ok (Obj.pint (m + n)) := by
  rw [simplify_sum_eq (Obj.intE m) (Obj.intE n)
    (simplifyList_pair (Obj.intE m) (Obj.intE n) rfl rfl)
    (any_undef_pair (Obj.intE m) (Obj.intE n) (intStr_ne_undef m) (intStr_ne_undef n))]
  show ((opAdd 27 (Obj.pint 0) (Obj.intE m) >>= fun a1 => pySum 27 a1 [Obj.intE n]) >>=
      fun e2 => simplifySum 29 e2) = _
  rw [opAdd_zero_int m, mBind_ok]
  show ((opAdd 26 (Obj.intE m) (Obj.intE n) >>= fun a2 => pySum 26 a2 []) >>=
      fun e2 => simplifySum 29 e2) = _
  rw [opAdd_int_int m n, mBind_ok]
  show simplifySum 29 (Obj.intE (m + n)) = .ok (Obj.pint (m + n))
  exact simplifySum_intE 28 (m + n)

theorem simplify_prod_int (m n : Int) :
    simplify 30 (Obj.prod [Obj.intE m, Obj.intE n]) =
      (if m * n = 0 then .ok (Obj.intE 0) else .ok (Obj.pint (m * n))) := by
  rw [simplify_prod_eq (Obj.intE m) (Obj.intE n)
    (simplifyList_pair (Obj.intE m) (Obj.intE n) rfl rfl)
    (any_undef_pair (Obj.intE m) (Obj.intE n) (intStr_ne_undef m) (intStr_ne_undef n))]
  show ((opMul 27 (Obj.intE 1) (Obj.intE m) >>= fun a1 => pyProd 27 a1 [Obj.intE n]) >>=
      fun e2 => simplifyProduct 29 e2) = _
  rw [opMul_one_int m, mBind_ok]
  show ((opMul 26 (Obj.intE m) (Obj.intE n) >>= fun a2 => pyProd 26 a2 []) >>=
      fun e2 => simplifyProduct 29 e2) = _
  rw [opMul_int_int m n, mBind_ok]
  show simplifyProduct 29 (Obj.intE (m * n)) = _
  exact simplifyProduct_intE 28 (m * n)

theorem simplify_sum_vars (s t : String) (hs0 : s ≠ "0") (ht0 : t ≠ "0")
    (hst : s ≠ t) (hsu : s ≠ "UNDEFINED") (htu : t ≠ "UNDEFINED") :
    simplify 30 (Obj.sum [Obj.var s, Obj.var t]) =
      .ok (if strLt t s then Obj.sum [Obj.var t, Obj.var s]
        else Obj.sum [Obj.var s, Obj.var t]) := by
  rw [simplify_sum_eq (Obj.var s) (Obj.var t)
    (simplifyList_pair (Obj.var s) (Obj.var t) rfl rfl)
    (any_undef_pair (Obj.var s) (Obj.var t) hsu htu)]
  show ((opAdd 27 (Obj.pint 0) (Obj.var s) >>= fun a1 => pySum 27 a1 [Obj.var t]) >>=
      fun e2 => simplifySum 29 e2) = _
  rw [opAdd_zero_var s hsu, mBind_ok]
  show ((opAdd 26 (Obj.var s) (Obj.var t) >>= fun a2 => pySum 26 a2 []) >>=
      fun e2 => simplifySum 29 e2) = _
  rw [opAdd_var_var s t hs0 ht0 hst hsu htu, mBind_ok]
  by_cases h : strLt t s = true
  · rw [h]
    show simplifySum 29 (Obj.sum [Obj.var t, Obj.var s]) =
      .ok (Obj.sum [Obj.var t, Obj.var s])
    rw [simplifySum_pair_vars 25 t s ht0 hs0 (Ne.symm hst) htu hsu,
      strLt_asymm t s h]
    rfl
  · have hf : strLt t s = false := by
      cases hv : strLt t s
      · rfl
      · exact absurd hv h
    rw [hf]
    show simplifySum 29 (Obj.sum [Obj.var s, Obj.var t]) =
      .ok (Obj.sum [Obj.var s, Obj.var t])
    rw [simplifySum_pair_vars 25 s t hs0 ht0 hst hsu htu, hf]
    rfl

theorem simplify_prod_vars (s t : String) (hs0 : s ≠ "0") (ht0 : t ≠ "0")
    (hs1 : s ≠ "1") (ht1 : t ≠ "1")
    (hst : s ≠ t) (hsu : s ≠ "UNDEFINED") (htu : t ≠ "UNDEFINED") :
    simplify 30 (Obj.prod [Obj.var s, Obj.var t]) =
      .ok (if strLt t s then Obj.prod [Obj.var t, Obj.var s]
        else Obj.prod [Obj.var s, Obj.var t]) := by
  rw [simplify_prod_eq (Obj.var s) (Obj.var t)
    (simplifyList_pair (Obj.var s) (Obj.var t) rfl rfl)
    (any_undef_pair (Obj.var s) (Obj.var t) hsu htu)]
  show ((opMul 27 (Obj.intE 1) (Obj.var s) >>= fun a1 => pyProd 27 a1 [Obj.var t]) >>=
      fun e2 => simplifyProduct 29 e2) = _
  rw [opMul_one_var s hs0, mBind_ok]
  show ((opMul 26 (Obj.var s) (Obj.var t) >>= fun a2 => pyProd 26 a2 []) >>=
      fun e2 => simplifyProduct 29 e2) = _
  rw [opMul_var_var s t hs0 ht0 hs1 ht1 hst, mBind_ok]
  by_cases h : strLt t s = true
  · rw [h]
    show simplifyProduct 29 (Obj.prod [Obj.var t, Obj.var s]) =
      .ok (Obj.prod [Obj.var t, Obj.var s])
    rw [simplifyProduct_pair_vars 24 t s ht0 hs0 ht1 hs1 (Ne.symm hst),
      strLt_asymm t s h]
    rfl
  · have hf : strLt t s = false := by
      cases hv : strLt t s
      · rfl
      · exact absurd hv h
    rw [hf]
    show simplifyProduct 29 (Obj.prod [Obj.var s, Obj.var t]) =
      .ok (Obj.prod [Obj.var s, Obj.var t])
    rw [simplifyProduct_pair_vars 24 s t hs0 ht0 hs1 ht1 hst, hf]
    rfl

/-! ## Claim C5 — commutativity under canonicalization -/

/-- Claim C5, amended.  Canonicalized commutativity does hold on the
atomic operands the rewriter fully orders — Integer constants and
Variables (with names distinct from each other, from "0"/"1" and from
the UNDEFINED sentinel): both operand orders of a two-term Sum or
Product simplify to the same object.  It fails in general (see the
counterexample) because `Elementary.__lt__` can return `None`, which
leaves the operand order as given. -/
theorem claim_C5 (m n : Int) (s t : String) (hst : s ≠ t)
    (hs0 : s ≠ "0") (hs1 : s ≠ "1") (hsu : s ≠ "UNDEFINED")
    (ht0 : t ≠ "0") (ht1 : t ≠ "1") (htu : t ≠ "UNDEFINED") :
    simplify 30 (sum [intE m, intE n]) = simplify 30 (sum [intE n, intE m]) ∧
    simplify 30 (prod [intE m, intE n]) = simplify 30 (prod [intE n, intE m]) ∧
    simplify 30 (sum [var s, var t]) = simplify 30 (sum [var t, var s]) ∧
    simplify 30 (prod [var s, var t]) = simplify 30 (prod [var t, var s]) := by
  refine ⟨?_, ?_, ?_, ?_⟩
  · rw [simplify_sum_int m n, simplify_sum_int n m, Int.add_comm]
  · rw [simplify_prod_int m n, simplify_prod_int n m, Int.mul_comm]
  · rw [simplify_sum_vars s t hs0 ht0 hst hsu htu,
      simplify_sum_vars t s ht0 hs0 (Ne.symm hst) htu hsu]
    rcases strLt_total s t hst with h | h
    · rw [strLt_asymm s t h, h]
      rfl
    · rw [h, strLt_asymm t s h]
      rfl
  · rw [simplify_prod_vars s t hs0 ht0 hs1 ht1 hst hsu htu,
      simplify_prod_vars t s ht0 hs0 ht1 hs1 (Ne.symm hst) htu hsu]
    rcases strLt_total s t hst with h | h
    · rw [strLt_asymm s t h, h]
      rfl
    · rw [h, strLt_asymm t s h]
      rfl

theorem claim_C5_witness :
    (2 : Int) = 2 ∧ "x" ≠ "y" ∧
      (simplify 30 (sum [intE 2, intE 3]) = simplify 30 (sum [intE 3, intE 2]) ∧
        simplify 30 (prod [intE 2, intE 3]) = simplify 30 (prod [intE 3, intE 2]) ∧
        simplify 30 (sum [var "x", var "y"]) = simplify 30 (sum [var "y", var "x"]) ∧
        simplify 30 (prod [var "x", var "y"]) =
          simplify 30 (prod [var "y", var "x"])) :=
  ⟨rfl, by decide,
    claim_C5 2 3 "x" "y" (by decide) (by decide) (by decide) (by decide)
      (by decide) (by decide) (by decide)⟩

/-- Claim C5 counterexample: for `a = Sin(x)`, `b = Exp(x)` the two
orders survive as differently-ordered sums — `Exp(x) < Sin(x)` evaluates
to `None` inside `Trig`/`Exp.__lt__`, so neither order is rearranged —
and the printed forms differ. -/
theorem claim_C5_counterexample :
    (opAdd 50 (sinE (var "x")) (expE (var "x")) >>= simplify 50)
      = .ok (sum [sinE (var "x"), expE (var "x")]) ∧
    (opAdd 50 (expE (var "x")) (sinE (var "x")) >>= simplify 50)
      = .ok (sum [expE (var "x"), sinE (var "x")]) ∧
    reprObj (sum [sinE (var "x"), expE (var "x")])
      ≠ reprObj (sum [expE (var "x"), sinE (var "x")]) := by
  refine ⟨by rfl, by rfl, by decide⟩

/-! ## Claim C6 — totality of the order -/

/-- Claim C6 counterexample: `Sin(x)` and `Exp(x)` are both fixed points
of `simplify` and are distinct, yet `Sin(x) < Exp(x)` is `False`
(`Trig.__lt__` returns False against any non-Trig Expression) and
`Exp(x) < Sin(x)` is `None` (`Exp.__lt__` falls off the end) — neither
comparison holds, refuting totality. -/
theorem claim_C6_counterexample :
    simplify 10 (sinE (var "x")) = .ok (sinE (var "x")) ∧
    simplify 10 (expE (var "x")) = .ok (expE (var "x")) ∧
    reprObj (sinE (var "x")) ≠ reprObj (expE (var "x")) ∧
    pyLt 10 (sinE (var "x")) (expE (var "x")) = .ok .f ∧
    pyLt 10 (expE (var "x")) (sinE (var "x")) = .ok .n := by
  refine ⟨by rfl, by rfl, by decide, by rfl, by rfl⟩

/-- `Constant.__lt__` through the full protocol on two Integers: exact
value comparison. -/
theorem pyLt_int (fu : Nat) (m n : Int) :
    pyLt (fu + 2) (Obj.intE m) (Obj.intE n) =
      .ok (if m < n then PyB.t else PyB.f) := by
  by_cases h : m < n
  · have hd : dunderLt (fu + 1) (Obj.intE m) (Obj.intE n) = .ok LtV.t := by
      show Except.ok (if (Obj.intE m).constValLt (Obj.intE n) = true
          then LtV.t else LtV.f) = _
      rw [if_pos (show (Obj.intE m).constValLt (Obj.intE n) = true from
        decide_eq_true (show m * 1 < n * 1 by omega))]
    simp only [pyLt]
    rw [hd, mBind_ok, if_pos h]
  · have hd : dunderLt (fu + 1) (Obj.intE m) (Obj.intE n) = .ok LtV.f := by
      show Except.ok (if (Obj.intE m).constValLt (Obj.intE n) = true
          then LtV.t else LtV.f) = _
      rw [if_neg (show ¬ (Obj.intE m).constValLt (Obj.intE n) = true from by
        rw [show (Obj.intE m).constValLt (Obj.intE n) = decide (m * 1 < n * 1)
          from rfl, decide_eq_false (show ¬ m * 1 < n * 1 by omega)]
        exact Bool.false_ne_true)]
    simp only [pyLt]
    rw [hd, mBind_ok, if_neg h]

/-- Claim C6, amended.  The trichotomy the claim asserts does hold on
the canonical atoms: for distinct Integer constants and for distinct
Variables, exactly one direction of `<` holds (the other returns
Python-`False`).  It fails on the full Expression universe (see the
counterexample): `Sin(x) < Exp(x)` and `Exp(x) < Sin(x)` are `False`
and `None` respectively, so neither holds. -/
theorem claim_C6 (m n : Int) (hmn : m ≠ n) (s t : String) (hst : s ≠ t) :
    ((pyLt 10 (intE m) (intE n) = .ok PyB.t ∧
        pyLt 10 (intE n) (intE m) = .ok PyB.f) ∨
      (pyLt 10 (intE m) (intE n) = .ok PyB.f ∧
        pyLt 10 (intE n) (intE m) = .ok PyB.t)) ∧
    ((pyLt 10 (var s) (var t) = .ok PyB.t ∧
        pyLt 10 (var t) (var s) = .ok PyB.f) ∨
      (pyLt 10 (var s) (var t) = .ok PyB.f ∧
        pyLt 10 (var t) (var s) = .ok PyB.t)) := by
  constructor
  · by_cases h : m < n
    · left
      constructor
      · rw [pyLt_int 8 m n, if_pos h]
      · rw [pyLt_int 8 n m, if_neg (by omega)]
    · right
      constructor
      · rw [pyLt_int 8 m n, if_neg h]
      · rw [pyLt_int 8 n m, if_pos (by omega)]
  · rcases strLt_total s t hst with h | h
    · left
      constructor
      · rw [pyLt_var 8 s t, h]
        rfl
      · rw [pyLt_var 8 t s, strLt_asymm s t h]
        rfl
    · right
      constructor
      · rw [pyLt_var 8 s t, strLt_asymm t s h]
        rfl
      · rw [pyLt_var 8 t s, h]
        rfl

theorem claim_C6_witness :
    (1 : Int) ≠ 2 ∧ "x" ≠ "y" ∧
      (((pyLt 10 (intE 1) (intE 2) = .ok PyB.t ∧
          pyLt 10 (intE 2) (intE 1) = .ok PyB.f) ∨
        (pyLt 10 (intE 1) (intE 2) = .ok PyB.f ∧
          pyLt 10 (intE 2) (intE 1) = .ok PyB.t)) ∧
       ((pyLt 10 (var "x") (var "y") = .ok PyB.t ∧
          pyLt 10 (var "y") (var "x") = .ok PyB.f) ∨
        (pyLt 10 (var "x") (var "y") = .ok PyB.f ∧
          pyLt 10 (var "y") (var "x") = .ok PyB.t))) :=
  ⟨by decide, by decide, claim_C6 1 2 (by decide) "x" "y" (by decide)⟩

/-! ## Claim C7 — elementary-function precedence -/

/-- Claim C7 counterexample: the claimed precedence puts Cot before Exp,
so `Cot(x) < Exp(x)` should hold; the code returns False
(`Trig.__lt__` yields False for any non-Trig other), and the reverse
comparison yields None — the claimed cross-class precedence does not
exist.  (The kinds Arctan, Arccos, Arcsin do not exist in the package at
all.) -/
theorem claim_C7_counterexample :
    pyLt 10 (cotE (var "x")) (expE (var "x")) = .ok .f ∧
    pyLt 10 (expE (var "x")) (cotE (var "x")) = .ok .n := by
  refine ⟨by rfl, by rfl⟩

/-- Claim C7, amended.  Among the six Trig kinds the fixed precedence
Sin < Cos < Tan < Csc < Sec < Cot does govern `<` (any arguments), and
two applications of the same kind compare by their arguments; `Exp < Ln`
holds and `Ln < Exp` fails.  But the precedence does not extend across
the class boundary: any Trig compared with `Exp` yields False one way
and None the other, and the kinds Arctan, Arccos, Arcsin of the claimed
chain do not exist in the package. -/
theorem claim_C7 :
    (∀ i j : Fin 6, i < j → ∀ a b : Obj,
        pyLt 10 (trigMk i a) (trigMk j b) = .ok PyB.t ∧
        pyLt 10 (trigMk j b) (trigMk i a) = .ok PyB.f) ∧
    (∀ (i : Fin 6) (a b : Obj) (v : PyB),
        pyLt 8 a b = .ok v → pyLt 10 (trigMk i a) (trigMk i b) = .ok v) ∧
    (∀ a b : Obj,
        pyLt 10 (expE a) (lnE b) = .ok PyB.t ∧
        pyLt 10 (lnE a) (expE b) = .ok PyB.f) ∧
    (∀ (i : Fin 6) (a b : Obj),
        pyLt 10 (trigMk i a) (expE b) = .ok PyB.f ∧
        pyLt 10 (expE b) (trigMk i a) = .ok PyB.n) := by
  refine ⟨?_, ?_, ?_, ?_⟩
  · intro i j hij a b
    fin_cases i <;> fin_cases j <;>
      first
        | exact absurd hij (by decide)
        | exact ⟨rfl, rfl⟩
  · intro i a b v h
    have key : ∀ A B : Obj, dunderLt 9 A B = .ok v.toLtV → pyLt 10 A B = .ok v := by
      intro A B hd
      simp only [pyLt]
      rw [hd, mBind_ok]
      cases v <;> rfl
    fin_cases i <;>
      exact key _ _ (by
        show (pyLt 8 a b >>= fun r => Except.ok r.toLtV) = .ok v.toLtV
        rw [h, mBind_ok])
  · intro a b
    exact ⟨rfl, rfl⟩
  · intro i a b
    fin_cases i <;> exact ⟨rfl, rfl⟩

theorem claim_C7_witness :
    ((0 : Fin 6) < 1 ∧
      pyLt 10 (trigMk 0 (var "x")) (trigMk 1 (var "y")) = .ok PyB.t ∧
      pyLt 10 (trigMk 1 (var "y")) (trigMk 0 (var "x")) = .ok PyB.f) ∧
    (pyLt 8 (var "x") (var "y") = .ok PyB.t ∧
      pyLt 10 (trigMk 2 (var "x")) (trigMk 2 (var "y")) = .ok PyB.t) :=
  ⟨⟨by decide, (claim_C7.1 0 1 (by decide) (var "x") (var "y")).1,
      (claim_C7.1 0 1 (by decide) (var "x") (var "y")).2⟩,
    ⟨by rfl, claim_C7.2.1 2 (var "x") (var "y") PyB.t (by rfl)⟩⟩

/-! ## Support for the distribution rule of `simplify_product` -/

theorem paren_ne_head (x : String) (s : String) (c0 : Char) (l0 : List Char)
    (hs : s.data = c0 :: l0) (hc : c0 ≠ '(') : ("(" ++ x ++ ")" : String) ≠ s := by
  intro he
  have hd : ("(" ++ x ++ ")" : String).data = s.data := by rw [he]
  rw [String.data_append, String.data_append, hs] at hd
  have hd2 : '(' :: (x.data ++ [')']) = c0 :: l0 := hd
  injection hd2 with h1 _
  exact hc h1.symm

theorem paren_ne_zero (x : String) : ("(" ++ x ++ ")" : String) ≠ "0" := by
  intro he
  have hd : ("(" ++ x ++ ")" : String).data = ("0" : String).data := by rw [he]
  rw [String.data_append, String.data_append] at hd
  have hd2 : '(' :: (x.data ++ [')']) = ('0' : Char) :: [] := hd
  injection hd2 with h1 _
  exact absurd h1 (by decide)

theorem prodCV_repr (c : Int) (a : String) :
    reprObj (Obj.prod [Obj.intE c, Obj.var a]) =
      if c = -1 then "-" ++ a else intStr c ++ a := rfl

theorem prodCV_ne_undef (c : Int) (a : String) :
    reprObj (Obj.prod [Obj.intE c, Obj.var a]) ≠ "UNDEFINED" := by
  rw [prodCV_repr]
  by_cases h : c = -1
  · rw [if_pos h]
    intro he
    have hd : ("-" ++ a : String).data = ("UNDEFINED" : String).data := by rw [he]
    rw [String.data_append] at hd
    have hd2 : '-' :: a.data = 'U' :: "NDEFINED".data := hd
    injection hd2 with h1 _
    exact absurd h1 (by decide)
  · rw [if_neg h]
    intro he
    obtain ⟨c0, l0, hl, hor⟩ := intStr_head c
    have hd : (intStr c ++ a).data = ("UNDEFINED" : String).data := by rw [he]
    rw [String.data_append, hl] at hd
    have hd2 : c0 :: (l0 ++ a.data) = 'U' :: "NDEFINED".data := hd
    injection hd2 with h1 _
    subst h1
    rcases hor with h2 | h2
    · exact absurd h2 (by decide)
    · exact absurd h2 (by decide)

theorem prodCV_ne_zero (c : Int) (hc0 : c ≠ 0) (a : String) :
    reprObj (Obj.prod [Obj.intE c, Obj.var a]) ≠ "0" := by
  rw [prodCV_repr]
  by_cases h : c = -1
  · rw [if_pos h]
    intro he
    have hd : ("-" ++ a : String).data = ("0" : String).data := by rw [he]
    rw [String.data_append] at hd
    have hd2 : '-' :: a.data = ('0' : Char) :: [] := hd
    injection hd2 with h1 _
    exact absurd h1 (by decide)
  · rw [if_neg h]
    intro he
    obtain ⟨c0, l0, hl, hor⟩ := intStr_head c
    have hd : (intStr c ++ a).data = ("0" : String).data := by rw [he]
    rw [String.data_append, hl] at hd
    have hd2 : c0 :: (l0 ++ a.data) = ('0' : Char) :: [] := hd
    injection hd2 with h1 h2
    have hl0 : l0 = [] := by
      rcases List.append_eq_nil.mp h2 with ⟨hx, _⟩
      exact hx
    have : intStr c = "0" := by
      apply String.ext
      rw [hl, hl0, h1]
    exact hc0 (intStr_eq_zero_iff c |>.mp this)

/-- `Variable < Integer` through the protocol is always Python-`False`:
`Variable.__lt__` returns NotImplemented, and the reflected
`Integer.__gt__` is `not (Integer < Variable)` = `not True`. -/
theorem pyLt_var_int (fu : Nat) (s : String) (n : Int) :
    pyLt (fu + 4) (Obj.var s) (Obj.intE n) = .ok PyB.f := rfl

/-- `Integer.__mul__` against a Variable builds the canonical two-factor
Product with the constant first. -/
theorem opMul_const_var (fu : Nat) (c : Int) (s : String) (hc0 : c ≠ 0)
    (hc1 : c ≠ 1) (hs0 : s ≠ "0") (hs1 : s ≠ "1") (hcs : intStr c ≠ s) :
    opMul (fu + 8) (Obj.intE c) (Obj.var s) =
      .ok (Obj.prod [Obj.intE c, Obj.var s]) := by
  have e0c : eqS (Obj.intE c) "0" = false := by
    show (intStr c == "0") = false
    exact beq_eq_false_iff_ne.mpr (by rw [Ne, intStr_eq_zero_iff]; omega)
  have e0s : eqS (Obj.var s) "0" = false := by
    show (s == "0") = false
    exact beq_eq_false_iff_ne.mpr hs0
  show (if ((eqS (Obj.intE c) "0") || ((eqS (Obj.var s) "0") || false)) = true
      then Except.ok (Obj.intE 0)
      else productFinish (fu + 6) [Obj.intE c, Obj.var s]) = _
  rw [if_neg (by rw [e0c, e0s]; exact Bool.false_ne_true)]
  have hff : flattenFactors (fu + 5) [Obj.intE c, Obj.var s] =
      .ok [Obj.intE c, Obj.var s] := by
    have e1c : eqS (Obj.intE c) "1" = false := by
      show (intStr c == "1") = false
      exact beq_eq_false_iff_ne.mpr (by rw [Ne, intStr_eq_one_iff]; omega)
    have e1s : eqS (Obj.var s) "1" = false := by
      show (s == "1") = false
      exact beq_eq_false_iff_ne.mpr hs1
    have hobj : eqObj (Obj.intE c) (Obj.var s) = false := by
      show (intStr c == s) = false
      exact beq_eq_false_iff_ne.mpr hcs
    simp only [flattenFactors]
    rw [if_neg (show ¬ (((Obj.intE c).isConstant && (Obj.var s).isConstant) = true)
      from Bool.false_ne_true)]
    rw [if_neg (by rw [e1c]; exact Bool.false_ne_true)]
    rw [if_neg (by rw [e1s]; exact Bool.false_ne_true)]
    show (if eqObj (Obj.intE c) (Obj.var s) = true then _
        else pyLt (fu + 4) (Obj.var s) (Obj.intE c) >>= fun r =>
          if r.truthy = true then Except.ok [Obj.var s, Obj.intE c]
          else Except.ok [Obj.intE c, Obj.var s]) = _
    rw [if_neg (by rw [hobj]; exact Bool.false_ne_true)]
    rw [pyLt_var_int fu s c, mBind_ok]
    rfl
  show (flattenFactors (fu + 5) [Obj.intE c, Obj.var s] >>= fun fl =>
      match fl with
      | [] => Except.ok (Obj.intE 1)
      | [x] => Except.ok x
      | _ => Except.ok (Obj.prod fl)) = _
  rw [hff, mBind_ok]

/-- `Product.__lt__` on two canonical constant-times-variable products:
the trailing variables decide. -/
theorem pyLt_prodCV (fu : Nat) (c : Int) (a b : String) (hab : a ≠ b) :
    pyLt (fu + 6) (Obj.prod [Obj.intE c, Obj.var b])
        (Obj.prod [Obj.intE c, Obj.var a]) =
      .ok (if strLt b a then PyB.t else PyB.f) := by
  have hobj : eqObj (Obj.var b) (Obj.var a) = false := by
    show (b == a) = false
    exact beq_eq_false_iff_ne.mpr (Ne.symm hab)
  have hd : dunderLt (fu + 5) (Obj.prod [Obj.intE c, Obj.var b])
      (Obj.prod [Obj.intE c, Obj.var a]) =
      .ok (if strLt b a then LtV.t else LtV.f) := by
    show (if eqObj (Obj.var b) (Obj.var a) = true
        then cmpBackAux (fu + 2) 2 2 [Obj.intE c] [Obj.intE c]
        else pyLt (fu + 2) (Obj.var b) (Obj.var a) >>= fun r =>
          Except.ok r.toLtV) = _
    rw [if_neg (by rw [hobj]; exact Bool.false_ne_true)]
    rw [pyLt_var fu b a, mBind_ok]
    by_cases h : strLt b a = true
    · rw [h]
      rfl
    · have hf : strLt b a = false := by
        cases hv : strLt b a
        · rfl
        · exact absurd hv h
      rw [hf]
      rfl
  simp only [pyLt]
  rw [hd, mBind_ok]
  by_cases h : strLt b a = true
  · rw [h]
    rfl
  · have hf : strLt b a = false := by
      cases hv : strLt b a
      · rfl
      · exact absurd hv h
    rw [hf]
    rfl

theorem opAdd_zero_prodCV (fu : Nat) (c : Int) (a : String) :
    opAdd (fu + 4) (Obj.pint 0) (Obj.prod [Obj.intE c, Obj.var a]) =
      .ok (Obj.prod [Obj.intE c, Obj.var a]) := by
  have hu : (reprObj (Obj.prod [Obj.intE c, Obj.var a]) == "UNDEFINED") = false :=
    beq_eq_false_iff_ne.mpr (prodCV_ne_undef c a)
  show (if ((intStr 0 == "UNDEFINED") ||
        ((reprObj (Obj.prod [Obj.intE c, Obj.var a]) == "UNDEFINED") || false)) = true
      then Except.ok Obj.undef
      else flattenTerms (fu + 1) [Obj.intE 0, Obj.prod [Obj.intE c, Obj.var a]] >>=
        fun fl =>
        match fl with
        | [] => Except.ok (Obj.intE 0)
        | [x] => Except.ok x
        | _ => Except.ok (Obj.sum fl)) = _
  rw [if_neg (by rw [hu]; exact Bool.false_ne_true)]
  rfl

theorem opAdd_prodCV (fu : Nat) (c : Int) (a b : String) (hc0 : c ≠ 0)
    (hab : a ≠ b) :
    opAdd (fu + 9) (Obj.prod [Obj.intE c, Obj.var a])
        (Obj.prod [Obj.intE c, Obj.var b]) =
      .ok (if strLt b a
        then Obj.sum [Obj.prod [Obj.intE c, Obj.var b], Obj.prod [Obj.intE c, Obj.var a]]
        else Obj.sum [Obj.prod [Obj.intE c, Obj.var a], Obj.prod [Obj.intE c, Obj.var b]])
      := by
  have hu1 : (reprObj (Obj.prod [Obj.intE c, Obj.var a]) == "UNDEFINED") = false :=
    beq_eq_false_iff_ne.mpr (prodCV_ne_undef c a)
  have hu2 : (reprObj (Obj.prod [Obj.intE c, Obj.var b]) == "UNDEFINED") = false :=
    beq_eq_false_iff_ne.mpr (prodCV_ne_undef c b)
  have hz1 : eqS (Obj.prod [Obj.intE c, Obj.var a]) "0" = false := by
    show (reprObj (Obj.prod [Obj.intE c, Obj.var a]) == "0") = false
    exact beq_eq_false_iff_ne.mpr (prodCV_ne_zero c hc0 a)
  have hz2 : eqS (Obj.prod [Obj.intE c, Obj.var b]) "0" = false := by
    show (reprObj (Obj.prod [Obj.intE c, Obj.var b]) == "0") = false
    exact beq_eq_false_iff_ne.mpr (prodCV_ne_zero c hc0 b)
  have hobj : eqObj (Obj.prod [Obj.var a]) (Obj.prod [Obj.var b]) = false := by
    show (("(" ++ a ++ ")" : String) == ("(" ++ b ++ ")" : String)) = false
    exact beq_eq_false_iff_ne.mpr (paren_ne a b hab)
  show simplifySum (fu + 8)
      (Obj.sum [Obj.prod [Obj.intE c, Obj.var a], Obj.prod [Obj.intE c, Obj.var b]]) = _
  show (if ((reprObj (Obj.prod [Obj.intE c, Obj.var a]) == "UNDEFINED") ||
        ((reprObj (Obj.prod [Obj.intE c, Obj.var b]) == "UNDEFINED") || false)) = true
      then Except.ok Obj.undef
      else flattenTerms (fu + 7)
          [Obj.prod [Obj.intE c, Obj.var a], Obj.prod [Obj.intE c, Obj.var b]] >>=
        fun fl =>
        match fl with
        | [] => Except.ok (Obj.intE 0)
        | [x] => Except.ok x
        | _ => Except.ok (Obj.sum fl)) = _
  rw [if_neg (by rw [hu1, hu2]; exact Bool.false_ne_true)]
  have hft : flattenTerms (fu + 7)
      [Obj.prod [Obj.intE c, Obj.var a], Obj.prod [Obj.intE c, Obj.var b]] =
      .ok (if strLt b a
        then [Obj.prod [Obj.intE c, Obj.var b], Obj.prod [Obj.intE c, Obj.var a]]
        else [Obj.prod [Obj.intE c, Obj.var a], Obj.prod [Obj.intE c, Obj.var b]]) := by
    simp only [flattenTerms]
    rw [if_neg (show ¬ (((Obj.prod [Obj.intE c, Obj.var a]).isConstant &&
        (Obj.prod [Obj.intE c, Obj.var b]).isConstant) = true) from Bool.false_ne_true)]
    rw [if_neg (by rw [hz1]; exact Bool.false_ne_true)]
    rw [if_neg (by rw [hz2]; exact Bool.false_ne_true)]
    show (if eqObj (Obj.prod [Obj.var a]) (Obj.prod [Obj.var b]) = true then _
        else pyLt (fu + 6) (Obj.prod [Obj.intE c, Obj.var b])
            (Obj.prod [Obj.intE c, Obj.var a]) >>= fun r =>
          if r.truthy = true
          then Except.ok [Obj.prod [Obj.intE c, Obj.var b], Obj.prod [Obj.intE c, Obj.var a]]
          else Except.ok [Obj.prod [Obj.intE c, Obj.var a], Obj.prod [Obj.intE c, Obj.var b]])
        = _
    rw [if_neg (by rw [hobj]; exact Bool.false_ne_true)]
    rw [pyLt_prodCV fu c a b hab, mBind_ok]
    by_cases h : strLt b a = true
    · rw [h]
      rfl
    · have hf : strLt b a = false := by
        cases hv : strLt b a
        · rfl
        · exact absurd hv h
      rw [hf]
      rfl
  rw [hft, mBind_ok]
  by_cases h : strLt b a = true
  · rw [h]
    rfl
  · have hf : strLt b a = false := by
      cases hv : strLt b a
      · rfl
      · exact absurd hv h
    rw [hf]
    rfl

/-! ## Claim C9 — distribution of a constant over a sum -/

/-- Claim C9 counterexample: `simplify(Product(2, Sum(a, b)))` does not
return the distributed sum `2a + 2b`.  `construct` distributes through
the `*` operator, but the dispatcher then applies `simplify_product` to
the resulting Sum, reading its terms as factors and producing
`(4 · a · b)`.  Direct `simplify_product` on the same node does return
the distributed sum, so the two disagree. -/
theorem claim_C9_counterexample :
    simplify 100 (prod [intE 2, sum [var "a", var "b"]])
      = .ok (prod [intE 4, var "a", var "b"]) ∧
    simplifyProduct 100 (prod [intE 2, sum [var "a", var "b"]])
      = .ok (sum [prod [intE 2, var "a"], prod [intE 2, var "b"]]) ∧
    reprObj (prod [intE 4, var "a", var "b"])
      ≠ reprObj (sum [prod [intE 2, var "a"], prod [intE 2, var "b"]]) := by
  refine ⟨by rfl, by rfl, by decide⟩

/-- Claim C9, amended.  `simplify_product` itself does distribute a
Constant over a two-term Sum of distinct variables, returning the
name-ordered Sum of constant-times-variable products.  The implicit
consequence fails, though: the `simplify` dispatcher re-applies
`simplify_product` to that distributed Sum (dispatching on the original
node's type), which multiplies the two terms together — so canonical
results of `simplify` can even corrupt the value (see the
counterexample's `(4 · a · b)`). -/
theorem claim_C9 (c : Int) (a b : String) (hc0 : c ≠ 0) (hc1 : c ≠ 1)
    (ha0 : a ≠ "0") (hb0 : b ≠ "0") (ha1 : a ≠ "1") (hb1 : b ≠ "1") (hab : a ≠ b)
    (hca : intStr c ≠ a) (hcb : intStr c ≠ b) :
    simplifyProduct 30 (prod [intE c, Obj.sum [var a, var b]]) =
      .ok (if strLt b a
        then Obj.sum [prod [intE c, var b], prod [intE c, var a]]
        else Obj.sum [prod [intE c, var a], prod [intE c, var b]]) := by
  have hzc : eqS (Obj.intE c) "0" = false := by
    show (intStr c == "0") = false
    exact beq_eq_false_iff_ne.mpr (by rw [Ne, intStr_eq_zero_iff]; omega)
  have hzs : eqS (Obj.sum [Obj.var a, Obj.var b]) "0" = false := by
    show (("(" ++ String.intercalate " + " [b, a] ++ ")" : String) == "0") = false
    exact beq_eq_false_iff_ne.mpr (paren_ne_zero _)
  show (if ((eqS (Obj.intE c) "0") ||
        ((eqS (Obj.sum [Obj.var a, Obj.var b]) "0") || false)) = true
      then Except.ok (Obj.intE 0)
      else mulListWith 29 (Obj.intE c) [Obj.var a, Obj.var b] >>= fun parts =>
        pySum 29 (Obj.pint 0) parts) = _
  rw [if_neg (by rw [hzc, hzs]; exact Bool.false_ne_true)]
  have hml : mulListWith 29 (Obj.intE c) [Obj.var a, Obj.var b] =
      .ok [Obj.prod [Obj.intE c, Obj.var a], Obj.prod [Obj.intE c, Obj.var b]] := by
    show (opMul 28 (Obj.intE c) (Obj.var a) >>= fun y =>
        (opMul 27 (Obj.intE c) (Obj.var b) >>= fun y2 =>
          (mulListWith 27 (Obj.intE c) ([] : List Obj) >>= fun ys2 =>
            Except.ok (y2 :: ys2))) >>= fun ys =>
        Except.ok (y :: ys)) = _
    rw [opMul_const_var 20 c a hc0 hc1 ha0 ha1 hca, mBind_ok,
      opMul_const_var 19 c b hc0 hc1 hb0 hb1 hcb, mBind_ok]
    rfl
  rw [hml, mBind_ok]
  show (opAdd 28 (Obj.pint 0) (Obj.prod [Obj.intE c, Obj.var a]) >>= fun acc =>
      pySum 28 acc [Obj.prod [Obj.intE c, Obj.var b]]) = _
  rw [opAdd_zero_prodCV 24 c a, mBind_ok]
  show (opAdd 27 (Obj.prod [Obj.intE c, Obj.var a])
      (Obj.prod [Obj.intE c, Obj.var b]) >>= fun acc2 => pySum 27 acc2 []) = _
  rw [opAdd_prodCV 18 c a b hc0 hab, mBind_ok]
  by_cases h : strLt b a = true
  · rw [h]
    rfl
  · have hf : strLt b a = false := by
      cases hv : strLt b a
      · rfl
      · exact absurd hv h
    rw [hf]
    rfl

theorem claim_C9_witness :
    (3 : Int) ≠ 0 ∧ "x" ≠ "y" ∧ intStr 3 ≠ "x" ∧
      simplifyProduct 30 (prod [intE 3, Obj.sum [var "x", var "y"]]) =
        .ok (if strLt "y" "x"
          then Obj.sum [prod [intE 3, var "y"], prod [intE 3, var "x"]]
          else Obj.sum [prod [intE 3, var "x"], prod [intE 3, var "y"]]) :=
  ⟨by decide, by decide, by decide,
    claim_C9 3 "x" "y" (by decide) (by decide) (by decide) (by decide) (by decide)
      (by decide) (by decide) (by decide) (by decide)⟩

/-! ## Support for the rational-integration strategy (claim C8)

Printed-form disequalities decided by the first character, and the
`Constant` arithmetic operators at symbolic integer values with a
generic fuel. -/

theorem str_ne_head (t s : String) (ct : Char) (lt2 : List Char)
    (ht : t.data = ct :: lt2) (cs : Char) (ls : List Char) (hs : s.data = cs :: ls)
    (hne : ct ≠ cs) : t ≠ s := by
  intro he
  rw [he, hs] at ht
  injection ht with h1 _
  exact hne h1.symm

theorem eqS_ne_head (a : Obj) (s : String) (ct : Char) (lt2 : List Char)
    (ht : (Obj.reprObj a).data = ct :: lt2) (cs : Char) (ls : List Char)
    (hs : s.data = cs :: ls) (hne : ct ≠ cs) : eqS a s = false :=
  beq_eq_false_iff_ne.mpr (str_ne_head _ s ct lt2 ht cs ls hs hne)

theorem eqObj_ne_head (a b : Obj) (ca : Char) (la : List Char)
    (ha : (Obj.reprObj a).data = ca :: la) (cb : Char) (lb : List Char)
    (hb : (Obj.reprObj b).data = cb :: lb) (hne : ca ≠ cb) : eqObj a b = false :=
  beq_eq_false_iff_ne.mpr (str_ne_head _ _ ca la ha cb lb hb hne)

theorem reprObj_sum_data (L : List Obj) :
    (reprObj (Obj.sum L)).data =
      '(' :: ((String.intercalate " + " (reprList (ObjList.ofList L)).reverse).data
        ++ [')']) := rfl

theorem reprObj_pow_data (b e : Obj) :
    (reprObj (Obj.powE b e)).data =
      '(' :: ((((reprObj b).data ++ (" ^ " : String).data) ++ (reprObj e).data)
        ++ [')']) := rfl

theorem intStr_head_ne (n : Int) (c : Char) (hc1 : c ≠ '-')
    (hc2 : ¬ (48 ≤ c.toNat ∧ c.toNat ≤ 57)) :
    ∃ c0 l0, (intStr n).data = c0 :: l0 ∧ c0 ≠ c := by
  obtain ⟨c0, l0, hl, hor⟩ := intStr_head n
  refine ⟨c0, l0, hl, ?_⟩
  intro he
  subst he
  rcases hor with h | h
  · exact hc1 h
  · exact hc2 h

theorem eqObj_intE_var_x (n : Int) : eqObj (Obj.intE n) (Obj.var "x") = false := by
  show (intStr n == "x") = false
  exact beq_eq_false_iff_ne.mpr
    (intStr_ne_of_head n "x" 'x' [] rfl (by decide) (by decide))

theorem eqObj_var_x_intE (n : Int) : eqObj (Obj.var "x") (Obj.intE n) = false := by
  obtain ⟨c0, l0, hl, hne⟩ := intStr_head_ne n 'x' (by decide) (by decide)
  exact eqObj_ne_head _ _ 'x' [] rfl c0 l0 hl hne.symm

theorem eqObj_intE_sum (n : Int) (L : List Obj) :
    eqObj (Obj.intE n) (Obj.sum L) = false := by
  obtain ⟨c0, l0, hl, hne⟩ := intStr_head_ne n '(' (by decide) (by decide)
  exact eqObj_ne_head _ _ c0 l0 hl '(' _ (reprObj_sum_data L) hne

theorem eqObj_sum_intE (L : List Obj) (n : Int) :
    eqObj (Obj.sum L) (Obj.intE n) = false := by
  obtain ⟨c0, l0, hl, hne⟩ := intStr_head_ne n '(' (by decide) (by decide)
  exact eqObj_ne_head _ _ '(' _ (reprObj_sum_data L) c0 l0 hl hne.symm

theorem eqObj_prodCV_var (c : Int) (hc : c ≠ -1) (a : String) :
    eqObj (Obj.prod [Obj.intE c, Obj.var a]) (Obj.var a) = false := by
  refine beq_eq_false_iff_ne.mpr ?_
  show reprObj (Obj.prod [Obj.intE c, Obj.var a]) ≠ a
  rw [prodCV_repr, if_neg hc]
  intro he
  obtain ⟨c0, l0, hl, _⟩ := intStr_head c
  have hd : (intStr c ++ a).data = a.data := by rw [he]
  rw [String.data_append, hl] at hd
  have h2 := congrArg List.length hd
  simp [List.length_append] at h2
  omega

theorem eqS_intE_zero (n : Int) (hn : n ≠ 0) : eqS (Obj.intE n) "0" = false := by
  show (intStr n == "0") = false
  exact beq_eq_false_iff_ne.mpr (by rw [Ne, intStr_eq_zero_iff]; exact hn)

theorem eqS_intE_one (n : Int) (hn : n ≠ 1) : eqS (Obj.intE n) "1" = false := by
  show (intStr n == "1") = false
  exact beq_eq_false_iff_ne.mpr (by rw [Ne, intStr_eq_one_iff]; exact hn)

theorem opAddG (fu : Nat) (m n : Int) :
    opAdd (fu + 1) (Obj.intE m) (Obj.intE n) = .ok (Obj.intE (m + n)) := by
  have h0 : opAdd (fu + 1) (Obj.intE m) (Obj.intE n)
      = constAddM (Obj.intE m) (Obj.intE n) := rfl
  have h1 : constAddM (Obj.intE m) (Obj.intE n)
      = ratMake (m * ((pyLcm 1 1).fdiv 1) + n * ((pyLcm 1 1).fdiv 1)) (pyLcm 1 1) := rfl
  have h2 : ratMake (m * ((pyLcm 1 1).fdiv 1) + n * ((pyLcm 1 1).fdiv 1)) (pyLcm 1 1)
      = ratMake (m * 1 + n * 1) 1 := rfl
  rw [h0, h1, h2, show m * 1 + n * 1 = m + n from by ring]
  exact ratMake_int (m + n)

theorem opSubG (fu : Nat) (m n : Int) :
    opSub (fu + 1) (Obj.intE m) (Obj.intE n) = .ok (Obj.intE (m - n)) := by
  have h0 : opSub (fu + 1) (Obj.intE m) (Obj.intE n)
      = constSubM (Obj.intE m) (Obj.intE n) := rfl
  have h1 : constSubM (Obj.intE m) (Obj.intE n)
      = ratMake (m * ((pyLcm 1 1).fdiv 1) - n * ((pyLcm 1 1).fdiv 1)) (pyLcm 1 1) := rfl
  have h2 : ratMake (m * ((pyLcm 1 1).fdiv 1) - n * ((pyLcm 1 1).fdiv 1)) (pyLcm 1 1)
      = ratMake (m * 1 - n * 1) 1 := rfl
  rw [h0, h1, h2, show m * 1 - n * 1 = m - n from by ring]
  exact ratMake_int (m - n)

theorem opMulG (fu : Nat) (m n : Int) :
    opMul (fu + 1) (Obj.intE m) (Obj.intE n) = .ok (Obj.intE (m * n)) := by
  show ratMake (m * n) (1 * 1) = .ok (Obj.intE (m * n))
  rw [show (1 : Int) * 1 = 1 from by norm_num]
  exact ratMake_int (m * n)

theorem opAdd_zeroIntG (fu : Nat) (n : Int) :
    opAdd (fu + 1) (Obj.intE 0) (Obj.intE n) = .ok (Obj.intE n) := by
  have h := opAddG fu 0 n
  rwa [zero_add] at h

theorem opAdd_intZeroG (fu : Nat) (n : Int) :
    opAdd (fu + 1) (Obj.intE n) (Obj.intE 0) = .ok (Obj.intE n) := by
  have h := opAddG fu n 0
  rwa [add_zero] at h

theorem opPow_sq (fu : Nat) (n : Int) (hn1 : n ≠ 1) :
    opPow (fu + 2) (Obj.intE n) (Obj.pint 2) = .ok (Obj.intE (n * n)) := by
  show intPow (fu + 1) n (Obj.intE 2) = .ok (Obj.intE (n * n))
  have hd1 : decide (n = 1) = false := decide_eq_false hn1
  have heq : eqS (Obj.intE 2) "0" = false := rfl
  simp only [intPow, hd1, heq, Bool.or_false, Bool.false_eq_true, if_false]
  rw [if_neg (show ¬ ((Obj.intE 2).constIsNeg = true) from Bool.false_ne_true)]
  show Except.ok (Obj.intE (n ^ (2 : Int).toNat)) = .ok (Obj.intE (n * n))
  rw [show ((2 : Int).toNat) = 2 from rfl, pow_two]

/-- `contains(Integer(n), Variable("x"))` is False: the printed forms
differ, and the operand scan sees only a raw int. -/
theorem containsPy_intE (fu : Nat) (n : Int) :
    containsPy (fu + 2) (Obj.intE n) (Obj.var "x") = .ok false := by
  show (if eqObj (Obj.intE n) (Obj.var "x") = true then Except.ok true
      else if ¬ ((Obj.intE n).isExpression = true) then Except.ok false
      else (Obj.intE n).operands >>= fun ops =>
        containsList (fu + 1) ops (Obj.var "x")) = .ok false
  rw [if_neg (by rw [eqObj_intE_var_x n]; exact Bool.false_ne_true)]
  rfl

theorem isMonomial_intE_x (fu : Nat) (n : Int) :
    isMonomial (fu + 3) (Obj.intE n) (Obj.var "x") = .ok true := by
  show (if eqObj (Obj.intE n) (Obj.var "x") = true then Except.ok true
      else containsPy (fu + 2) (Obj.intE n) (Obj.var "x") >>= fun c =>
        Except.ok (!c)) = .ok true
  rw [if_neg (by rw [eqObj_intE_var_x n]; exact Bool.false_ne_true)]
  rw [containsPy_intE fu n, mBind_ok]
  rfl

theorem coefMonomial_intE_x (fu : Nat) (n : Int) :
    coefMonomial (fu + 3) (Obj.intE n) (Obj.var "x")
      = .ok (some (Obj.intE n, Obj.intE 0)) := by
  show (if eqObj (Obj.intE n) (Obj.var "x") = true
      then Except.ok (some (Obj.intE 1, Obj.intE 1))
      else containsPy (fu + 2) (Obj.intE n) (Obj.var "x") >>= fun c =>
        if c = true then Except.ok none
        else Except.ok (some (Obj.intE n, Obj.intE 0)))
      = .ok (some (Obj.intE n, Obj.intE 0))
  rw [if_neg (by rw [eqObj_intE_var_x n]; exact Bool.false_ne_true)]
  rw [containsPy_intE fu n, mBind_ok]
  rfl

theorem containsPy_prodCV (fu : Nat) (p : Int) (hpm1 : p ≠ -1) :
    containsPy (fu + 4) (Obj.prod [Obj.intE p, Obj.var "x"]) (Obj.var "x")
      = .ok true := by
  show (if eqObj (Obj.prod [Obj.intE p, Obj.var "x"]) (Obj.var "x") = true
      then Except.ok true
      else if ¬ ((Obj.prod [Obj.intE p, Obj.var "x"]).isExpression = true)
      then Except.ok false
      else (Obj.prod [Obj.intE p, Obj.var "x"]).operands >>= fun ops =>
        containsList (fu + 3) ops (Obj.var "x")) = .ok true
  rw [if_neg (by rw [eqObj_prodCV_var p hpm1 "x"]; exact Bool.false_ne_true)]
  show (containsPy (fu + 2) (Obj.intE p) (Obj.var "x") >>= fun c =>
      if c = true then Except.ok true
      else containsList (fu + 2) [Obj.var "x"] (Obj.var "x")) = .ok true
  rw [containsPy_intE fu p, mBind_ok]
  rfl

theorem isMonomial_prodCV (fu : Nat) (p : Int) (hpm1 : p ≠ -1) :
    isMonomial (fu + 6) (Obj.prod [Obj.intE p, Obj.var "x"]) (Obj.var "x")
      = .ok true := by
  show (if eqObj (Obj.prod [Obj.intE p, Obj.var "x"]) (Obj.var "x") = true
      then Except.ok true
      else monoList (fu + 5) [Obj.intE p, Obj.var "x"] (Obj.var "x")) = .ok true
  rw [if_neg (by rw [eqObj_prodCV_var p hpm1 "x"]; exact Bool.false_ne_true)]
  show (isMonomial (fu + 1 + 3) (Obj.intE p) (Obj.var "x") >>= fun m =>
      if m = true then monoList (fu + 4) [Obj.var "x"] (Obj.var "x")
      else Except.ok false) = .ok true
  rw [isMonomial_intE_x (fu + 1) p, mBind_ok]
  rfl

/-- `Product(Integer(p), Variable("x")) / Variable("x")` recovers the
coefficient: the quotient runs through `simplify_product`, which merges
`x` against `x^-1` and drops the resulting `x^0 = 1`. -/
theorem opDiv_prodCV (fu : Nat) (p : Int) (hp0 : p ≠ 0) (hp1 : p ≠ 1) :
    opDiv (fu + 13) (Obj.prod [Obj.intE p, Obj.var "x"]) (Obj.var "x")
      = .ok (Obj.intE p) := by
  show simplifyProduct (fu + 11)
      (Obj.prod [Obj.prod [Obj.intE p, Obj.var "x"],
        Obj.powE (Obj.var "x") (Obj.intE (-1))]) = .ok (Obj.intE p)
  have hz1 : eqS (Obj.prod [Obj.intE p, Obj.var "x"]) "0" = false := by
    show (reprObj (Obj.prod [Obj.intE p, Obj.var "x"]) == "0") = false
    exact beq_eq_false_iff_ne.mpr (prodCV_ne_zero p hp0 "x")
  show (if ((eqS (Obj.prod [Obj.intE p, Obj.var "x"]) "0") ||
        ((eqS (Obj.powE (Obj.var "x") (Obj.intE (-1))) "0") || false)) = true
      then Except.ok (Obj.intE 0)
      else productFinish (fu + 10) [Obj.prod [Obj.intE p, Obj.var "x"],
        Obj.powE (Obj.var "x") (Obj.intE (-1))]) = .ok (Obj.intE p)
  rw [if_neg (by rw [hz1]; exact Bool.false_ne_true)]
  have hlt : pyLt (fu + 6) (Obj.powE (Obj.var "x") (Obj.intE (-1))) (Obj.intE p)
      = .ok PyB.f := by
    have hdl : dunderLt (fu + 5) (Obj.powE (Obj.var "x") (Obj.intE (-1)))
        (Obj.intE p) = .ok LtV.f := by
      show (if eqObj (Obj.var "x") (Obj.intE p) = true
          then pyLt (fu + 4) (Obj.intE (-1)) (Obj.intE 1) >>= fun r =>
            Except.ok r.toLtV
          else pyLt (fu + 4) (Obj.var "x") (Obj.intE p) >>= fun r =>
            Except.ok r.toLtV) = .ok LtV.f
      rw [if_neg (by rw [eqObj_var_x_intE p]; exact Bool.false_ne_true)]
      rw [pyLt_var_int fu "x" p, mBind_ok]
      rfl
    show (dunderLt (fu + 5) (Obj.powE (Obj.var "x") (Obj.intE (-1)))
        (Obj.intE p) >>= fun r =>
        match r with
        | LtV.t => Except.ok PyB.t
        | LtV.f => Except.ok PyB.f
        | LtV.n => Except.ok PyB.n
        | LtV.ni =>
          dunderGt (fu + 5) (Obj.intE p)
              (Obj.powE (Obj.var "x") (Obj.intE (-1))) >>= fun r2 =>
            match r2 with
            | LtV.t => Except.ok PyB.t
            | LtV.f => Except.ok PyB.f
            | LtV.n => Except.ok PyB.n
            | LtV.ni => Except.error Err.typeError) = .ok PyB.f
    rw [hdl, mBind_ok]
  have hf2 : flattenFactors (fu + 7)
      [Obj.intE p, Obj.powE (Obj.var "x") (Obj.intE (-1))]
      = .ok [Obj.intE p, Obj.powE (Obj.var "x") (Obj.intE (-1))] := by
    show (if eqS (Obj.intE p) "1" = true
        then Except.ok [Obj.powE (Obj.var "x") (Obj.intE (-1))]
        else if eqS (Obj.powE (Obj.var "x") (Obj.intE (-1))) "1" = true
        then Except.ok [Obj.intE p]
        else (if eqObj (Obj.intE p) (Obj.var "x") = true
          then (exponentM (Obj.intE p) >>= fun e1 =>
            exponentM (Obj.powE (Obj.var "x") (Obj.intE (-1))) >>= fun e2 =>
            opAdd (fu + 6) e1 e2 >>= fun s =>
            simplifySum (fu + 6) s >>= fun ne =>
            opPow (fu + 6) (Obj.intE p) ne >>= fun pw =>
            simplifyPower (fu + 6) pw >>= fun np =>
            if eqS np "1" = true then Except.ok [] else Except.ok [np])
          else (pyLt (fu + 6) (Obj.powE (Obj.var "x") (Obj.intE (-1)))
              (Obj.intE p) >>= fun r =>
            if r.truthy = true
            then Except.ok [Obj.powE (Obj.var "x") (Obj.intE (-1)), Obj.intE p]
            else Except.ok [Obj.intE p,
              Obj.powE (Obj.var "x") (Obj.intE (-1))])))
        = .ok [Obj.intE p, Obj.powE (Obj.var "x") (Obj.intE (-1))]
    rw [if_neg (by rw [eqS_intE_one p hp1]; exact Bool.false_ne_true)]
    rw [if_neg (show ¬ (eqS (Obj.powE (Obj.var "x") (Obj.intE (-1))) "1" = true)
      from Bool.false_ne_true)]
    rw [if_neg (by rw [eqObj_intE_var_x p]; exact Bool.false_ne_true)]
    rw [hlt, mBind_ok]
    rfl
  have hle : listEq [Obj.intE p, Obj.powE (Obj.var "x") (Obj.intE (-1))]
      [Obj.intE p, Obj.powE (Obj.var "x") (Obj.intE (-1))] = true := by
    show (eqObj (Obj.intE p) (Obj.intE p) &&
        (eqObj (Obj.powE (Obj.var "x") (Obj.intE (-1)))
          (Obj.powE (Obj.var "x") (Obj.intE (-1))) &&
          true)) = true
    rw [show eqObj (Obj.intE p) (Obj.intE p) = true from beq_self_eq_true _]
    rfl
  have hff : flattenFactors (fu + 9) [Obj.prod [Obj.intE p, Obj.var "x"],
      Obj.powE (Obj.var "x") (Obj.intE (-1))] = .ok [Obj.intE p] := by
    show (flattenFactors (fu + 7) [Obj.intE p,
        Obj.powE (Obj.var "x") (Obj.intE (-1))] >>= fun h =>
        match h with
        | [] => mergeFactors (fu + 7) [Obj.var "x"] []
        | [x] => mergeFactors (fu + 7) [Obj.var "x"] [] >>= fun rest =>
            Except.ok (x :: rest)
        | _ =>
          if listEq h [Obj.intE p, Obj.powE (Obj.var "x") (Obj.intE (-1))] = true
          then (mergeFactors (fu + 7) [Obj.var "x"]
              [Obj.powE (Obj.var "x") (Obj.intE (-1))] >>= fun rest =>
            Except.ok (Obj.intE p :: rest))
          else if listEq h [Obj.powE (Obj.var "x") (Obj.intE (-1)), Obj.intE p]
              = true
          then (mergeFactors (fu + 7) [Obj.intE p, Obj.var "x"] [] >>= fun rest =>
            Except.ok (Obj.powE (Obj.var "x") (Obj.intE (-1)) :: rest))
          else Except.error Err.assertionError) = .ok [Obj.intE p]
    rw [hf2, mBind_ok]
    show (if listEq [Obj.intE p, Obj.powE (Obj.var "x") (Obj.intE (-1))]
          [Obj.intE p, Obj.powE (Obj.var "x") (Obj.intE (-1))] = true
        then (mergeFactors (fu + 7) [Obj.var "x"]
            [Obj.powE (Obj.var "x") (Obj.intE (-1))] >>= fun rest =>
          Except.ok (Obj.intE p :: rest))
        else if listEq [Obj.intE p, Obj.powE (Obj.var "x") (Obj.intE (-1))]
            [Obj.powE (Obj.var "x") (Obj.intE (-1)), Obj.intE p] = true
        then (mergeFactors (fu + 7) [Obj.intE p, Obj.var "x"] [] >>= fun rest =>
          Except.ok (Obj.powE (Obj.var "x") (Obj.intE (-1)) :: rest))
        else Except.error Err.assertionError) = .ok [Obj.intE p]
    rw [if_pos hle]
    rw [show mergeFactors (fu + 7) [Obj.var "x"]
        [Obj.powE (Obj.var "x") (Obj.intE (-1))] = .ok [] from rfl, mBind_ok]
  show (flattenFactors (fu + 9) [Obj.prod [Obj.intE p, Obj.var "x"],
      Obj.powE (Obj.var "x") (Obj.intE (-1))] >>= fun fl =>
      match fl with
      | [] => Except.ok (Obj.intE 1)
      | [x] => Except.ok x
      | _ => Except.ok (Obj.prod fl)) = .ok (Obj.intE p)
  rw [hff, mBind_ok]

theorem coefMonomial_prodCV (fu : Nat) (p : Int) (hp0 : p ≠ 0) (hp1 : p ≠ 1)
    (hpm1 : p ≠ -1) :
    coefMonomial (fu + 16) (Obj.prod [Obj.intE p, Obj.var "x"]) (Obj.var "x")
      = .ok (some (Obj.intE p, Obj.intE 1)) := by
  show (if eqObj (Obj.prod [Obj.intE p, Obj.var "x"]) (Obj.var "x") = true
      then Except.ok (some (Obj.intE 1, Obj.intE 1))
      else coefProdLoop (fu + 15) (Obj.prod [Obj.intE p, Obj.var "x"])
        (Obj.var "x") [Obj.intE p, Obj.var "x"] (Obj.intE 0)
        (Obj.prod [Obj.intE p, Obj.var "x"]))
      = .ok (some (Obj.intE p, Obj.intE 1))
  rw [if_neg (by rw [eqObj_prodCV_var p hpm1 "x"]; exact Bool.false_ne_true)]
  show (coefMonomial (fu + 11 + 3) (Obj.intE p) (Obj.var "x") >>= fun r =>
      match r with
      | none => Except.ok none
      | some (_, deg) =>
        if eqS deg "0" = true
        then coefProdLoop (fu + 14) (Obj.prod [Obj.intE p, Obj.var "x"])
          (Obj.var "x") [Obj.var "x"] (Obj.intE 0)
          (Obj.prod [Obj.intE p, Obj.var "x"])
        else (opPow (fu + 14) (Obj.var "x") deg >>= fun pw =>
          opDiv (fu + 14) (Obj.prod [Obj.intE p, Obj.var "x"]) pw >>= fun c2 =>
          coefProdLoop (fu + 14) (Obj.prod [Obj.intE p, Obj.var "x"])
            (Obj.var "x") [Obj.var "x"] deg c2))
      = .ok (some (Obj.intE p, Obj.intE 1))
  rw [coefMonomial_intE_x (fu + 11) p, mBind_ok]
  show (coefMonomial (fu + 13) (Obj.var "x") (Obj.var "x") >>= fun r =>
      match r with
      | none => Except.ok none
      | some (_, deg) =>
        if eqS deg "0" = true
        then coefProdLoop (fu + 13) (Obj.prod [Obj.intE p, Obj.var "x"])
          (Obj.var "x") [] (Obj.intE 0) (Obj.prod [Obj.intE p, Obj.var "x"])
        else (opPow (fu + 13) (Obj.var "x") deg >>= fun pw =>
          opDiv (fu + 13) (Obj.prod [Obj.intE p, Obj.var "x"]) pw >>= fun c2 =>
          coefProdLoop (fu + 13) (Obj.prod [Obj.intE p, Obj.var "x"])
            (Obj.var "x") [] deg c2))
      = .ok (some (Obj.intE p, Obj.intE 1))
  rw [show coefMonomial (fu + 13) (Obj.var "x") (Obj.var "x")
      = .ok (some (Obj.intE 1, Obj.intE 1)) from rfl, mBind_ok]
  show (opDiv (fu + 13) (Obj.prod [Obj.intE p, Obj.var "x"])
      (Obj.var "x") >>= fun c2 =>
      coefProdLoop (fu + 13) (Obj.prod [Obj.intE p, Obj.var "x"])
        (Obj.var "x") [] (Obj.intE 1) c2)
      = .ok (some (Obj.intE p, Obj.intE 1))
  rw [opDiv_prodCV fu p hp0 hp1, mBind_ok]
  rfl

/-- `is_polynomial` on the expanded square `x^2 + p·x + q`. -/
theorem isPoly_D (fu : Nat) (p q : Int) (hpm1 : p ≠ -1) :
    isPolynomial (fu + 9)
      (Obj.sum [Obj.powE (Obj.var "x") (Obj.intE 2),
        Obj.prod [Obj.intE p, Obj.var "x"], Obj.intE q])
      (Obj.var "x") = .ok true := by
  show (if eqObj (Obj.sum [Obj.powE (Obj.var "x") (Obj.intE 2),
        Obj.prod [Obj.intE p, Obj.var "x"], Obj.intE q]) (Obj.var "x") = true
      then Except.ok true
      else monoList (fu + 8) [Obj.powE (Obj.var "x") (Obj.intE 2),
        Obj.prod [Obj.intE p, Obj.var "x"], Obj.intE q] (Obj.var "x")) = .ok true
  rw [if_neg (by
    rw [eqObj_ne_head _ (Obj.var "x") '(' _ (reprObj_sum_data _) 'x' [] rfl
      (by decide)]
    exact Bool.false_ne_true)]
  show (isMonomial (fu + 7) (Obj.powE (Obj.var "x") (Obj.intE 2))
      (Obj.var "x") >>= fun m =>
      if m = true
      then monoList (fu + 7) [Obj.prod [Obj.intE p, Obj.var "x"], Obj.intE q]
        (Obj.var "x")
      else Except.ok false) = .ok true
  rw [show isMonomial (fu + 7) (Obj.powE (Obj.var "x") (Obj.intE 2))
      (Obj.var "x") = .ok true from rfl, mBind_ok]
  show (isMonomial (fu + 6) (Obj.prod [Obj.intE p, Obj.var "x"])
      (Obj.var "x") >>= fun m =>
      if m = true then monoList (fu + 6) [Obj.intE q] (Obj.var "x")
      else Except.ok false) = .ok true
  rw [isMonomial_prodCV fu p hpm1, mBind_ok]
  show (isMonomial (fu + 2 + 3) (Obj.intE q) (Obj.var "x") >>= fun m =>
      if m = true then monoList (fu + 5) ([] : List Obj) (Obj.var "x")
      else Except.ok false) = .ok true
  rw [isMonomial_intE_x (fu + 2) q, mBind_ok]
  rfl

/-- `degree` of the expanded square `x^2 + p·x + q` is 2. -/
theorem degD (fu : Nat) (p q : Int) (hp0 : p ≠ 0) (hp1 : p ≠ 1) (hpm1 : p ≠ -1) :
    degreePy (fu + 19)
      (Obj.sum [Obj.powE (Obj.var "x") (Obj.intE 2),
        Obj.prod [Obj.intE p, Obj.var "x"], Obj.intE q])
      (Obj.var "x") = .ok (some (Obj.intE 2)) := by
  show (if eqS (Obj.sum [Obj.powE (Obj.var "x") (Obj.intE 2),
        Obj.prod [Obj.intE p, Obj.var "x"], Obj.intE q]) "0" = true
      then Except.ok (some (Obj.pint (-1)))
      else degSumLoop (fu + 18) [Obj.powE (Obj.var "x") (Obj.intE 2),
        Obj.prod [Obj.intE p, Obj.var "x"], Obj.intE q] (Obj.var "x")
        (Obj.intE 0)) = .ok (some (Obj.intE 2))
  rw [if_neg (by
    rw [eqS_ne_head _ _ '(' _ (reprObj_sum_data _) '0' [] rfl (by decide)]
    exact Bool.false_ne_true)]
  show (coefMonomial (fu + 16) (Obj.prod [Obj.intE p, Obj.var "x"])
      (Obj.var "x") >>= fun r =>
      match r with
      | none => Except.ok none
      | some (_, n) =>
        (opAdd (fu + 16) (Obj.intE 0) n >>= fun ds =>
        pyLt (fu + 16) (Obj.intE 2) ds >>= fun lt =>
        degSumLoop (fu + 16) [Obj.intE q] (Obj.var "x")
          (if lt.truthy = true then ds else Obj.intE 2)))
      = .ok (some (Obj.intE 2))
  rw [coefMonomial_prodCV fu p hp0 hp1 hpm1, mBind_ok]
  show (coefMonomial (fu + 12 + 3) (Obj.intE q) (Obj.var "x") >>= fun r =>
      match r with
      | none => Except.ok none
      | some (_, n) =>
        (opAdd (fu + 15) (Obj.intE 0) n >>= fun ds =>
        pyLt (fu + 15) (Obj.intE 2) ds >>= fun lt =>
        degSumLoop (fu + 15) ([] : List Obj) (Obj.var "x")
          (if lt.truthy = true then ds else Obj.intE 2)))
      = .ok (some (Obj.intE 2))
  rw [coefMonomial_intE_x (fu + 12) q, mBind_ok]
  rfl

/-- `quadratic_form` of the expanded square `x^2 + p·x + q` is
`[1, p, q]`. -/
theorem qfD (fu : Nat) (p q : Int) (hp0 : p ≠ 0) (hp1 : p ≠ 1) (hpm1 : p ≠ -1) :
    quadraticForm (fu + 17)
      (Obj.sum [Obj.powE (Obj.var "x") (Obj.intE 2),
        Obj.prod [Obj.intE p, Obj.var "x"], Obj.intE q])
      (Obj.var "x") = .ok (some (Obj.intE 1, Obj.intE p, Obj.intE q)) := by
  show (if eqObj (Obj.sum [Obj.powE (Obj.var "x") (Obj.intE 2),
        Obj.prod [Obj.intE p, Obj.var "x"], Obj.intE q]) (Obj.var "x") = true
      then Except.ok (some (Obj.intE 1, Obj.intE 0, Obj.intE 0))
      else qfSumLoop (fu + 16) [Obj.powE (Obj.var "x") (Obj.intE 2),
        Obj.prod [Obj.intE p, Obj.var "x"], Obj.intE q] (Obj.var "x")
        (Obj.intE 0) (Obj.intE 0) (Obj.intE 0))
      = .ok (some (Obj.intE 1, Obj.intE p, Obj.intE q))
  rw [if_neg (by
    rw [eqObj_ne_head _ (Obj.var "x") '(' _ (reprObj_sum_data _) 'x' [] rfl
      (by decide)]
    exact Bool.false_ne_true)]
  have hqf2 : quadraticForm (fu + 14) (Obj.prod [Obj.intE p, Obj.var "x"])
      (Obj.var "x") = .ok (some (Obj.intE 0, Obj.intE p, Obj.intE 0)) := by
    show (if eqObj (Obj.prod [Obj.intE p, Obj.var "x"]) (Obj.var "x") = true
        then Except.ok (some (Obj.intE 1, Obj.intE 0, Obj.intE 0))
        else (containsPy (fu + 9 + 4) (Obj.prod [Obj.intE p, Obj.var "x"])
            (Obj.var "x") >>= fun c =>
          if ¬ (c = true)
          then Except.ok (some (Obj.intE 0, Obj.intE 0,
            Obj.prod [Obj.intE p, Obj.var "x"]))
          else (opDiv (fu + 13) (Obj.prod [Obj.intE p, Obj.var "x"])
              (Obj.var "x") >>= fun q2 =>
            linearForm (fu + 13) q2 (Obj.var "x") >>= fun lf =>
            match lf with
            | some (r, s) => Except.ok (some (r, s, Obj.intE 0))
            | none => Except.ok none)))
        = .ok (some (Obj.intE 0, Obj.intE p, Obj.intE 0))
    rw [if_neg (by rw [eqObj_prodCV_var p hpm1 "x"]; exact Bool.false_ne_true)]
    rw [containsPy_prodCV (fu + 9) p hpm1, mBind_ok]
    show (opDiv (fu + 13) (Obj.prod [Obj.intE p, Obj.var "x"])
        (Obj.var "x") >>= fun q2 =>
        linearForm (fu + 13) q2 (Obj.var "x") >>= fun lf =>
        match lf with
        | some (r, s) => Except.ok (some (r, s, Obj.intE 0))
        | none => Except.ok none)
        = .ok (some (Obj.intE 0, Obj.intE p, Obj.intE 0))
    rw [opDiv_prodCV fu p hp0 hp1, mBind_ok]
    have hlf : linearForm (fu + 13) (Obj.intE p) (Obj.var "x")
        = .ok (some (Obj.intE 0, Obj.intE p)) := by
      show (if eqObj (Obj.intE p) (Obj.var "x") = true
          then Except.ok (some (Obj.intE 1, Obj.intE 0))
          else Except.ok (some (Obj.intE 0, Obj.intE p)))
          = .ok (some (Obj.intE 0, Obj.intE p))
      rw [if_neg (by rw [eqObj_intE_var_x p]; exact Bool.false_ne_true)]
    rw [hlf, mBind_ok]
  show (quadraticForm (fu + 14) (Obj.prod [Obj.intE p, Obj.var "x"])
      (Obj.var "x") >>= fun tf =>
      match tf with
      | none => Except.ok none
      | some (a, b, c) =>
        (opAdd (fu + 14) (Obj.intE 1) a >>= fun qa2 =>
        opAdd (fu + 14) (Obj.intE 0) b >>= fun qb2 =>
        opAdd (fu + 14) (Obj.intE 0) c >>= fun qc2 =>
        qfSumLoop (fu + 14) [Obj.intE q] (Obj.var "x") qa2 qb2 qc2))
      = .ok (some (Obj.intE 1, Obj.intE p, Obj.intE q))
  rw [hqf2, mBind_ok]
  show (opAdd (fu + 13 + 1) (Obj.intE 0) (Obj.intE p) >>= fun qb2 =>
      opAdd (fu + 14) (Obj.intE 0) (Obj.intE 0) >>= fun qc2 =>
      qfSumLoop (fu + 14) [Obj.intE q] (Obj.var "x") (Obj.intE 1) qb2 qc2)
      = .ok (some (Obj.intE 1, Obj.intE p, Obj.intE q))
  rw [opAdd_zeroIntG (fu + 13) p, mBind_ok]
  have hq3 : quadraticForm (fu + 13) (Obj.intE q) (Obj.var "x")
      = .ok (some (Obj.intE 0, Obj.intE 0, Obj.intE q)) := by
    show (if eqObj (Obj.intE q) (Obj.var "x") = true
        then Except.ok (some (Obj.intE 1, Obj.intE 0, Obj.intE 0))
        else Except.ok (some (Obj.intE 0, Obj.intE 0, Obj.intE q)))
        = .ok (some (Obj.intE 0, Obj.intE 0, Obj.intE q))
    rw [if_neg (by rw [eqObj_intE_var_x q]; exact Bool.false_ne_true)]
  show (quadraticForm (fu + 13) (Obj.intE q) (Obj.var "x") >>= fun tf =>
      match tf with
      | none => Except.ok none
      | some (a, b, c) =>
        (opAdd (fu + 13) (Obj.intE 1) a >>= fun qa2 =>
        opAdd (fu + 13) (Obj.intE p) b >>= fun qb2 =>
        opAdd (fu + 13) (Obj.intE 0) c >>= fun qc2 =>
        qfSumLoop (fu + 13) ([] : List Obj) (Obj.var "x") qa2 qb2 qc2))
      = .ok (some (Obj.intE 1, Obj.intE p, Obj.intE q))
  rw [hq3, mBind_ok]
  show (opAdd (fu + 12 + 1) (Obj.intE p) (Obj.intE 0) >>= fun qb2 =>
      opAdd (fu + 13) (Obj.intE 0) (Obj.intE q) >>= fun qc2 =>
      qfSumLoop (fu + 13) ([] : List Obj) (Obj.var "x") (Obj.intE 1) qb2 qc2)
      = .ok (some (Obj.intE 1, Obj.intE p, Obj.intE q))
  rw [opAdd_intZeroG (fu + 12) p, mBind_ok]
  show (opAdd (fu + 12 + 1) (Obj.intE 0) (Obj.intE q) >>= fun qc2 =>
      qfSumLoop (fu + 13) ([] : List Obj) (Obj.var "x") (Obj.intE 1)
        (Obj.intE p) qc2)
      = .ok (some (Obj.intE 1, Obj.intE p, Obj.intE q))
  rw [opAdd_zeroIntG (fu + 12) q, mBind_ok]
  rfl

/-- `is_polynomial` on `x^2 + c`. -/
theorem isPoly_D2 (fu : Nat) (c : Int) :
    isPolynomial (fu + 6)
      (Obj.sum [Obj.powE (Obj.var "x") (Obj.intE 2), Obj.intE c])
      (Obj.var "x") = .ok true := by
  show (if eqObj (Obj.sum [Obj.powE (Obj.var "x") (Obj.intE 2), Obj.intE c])
        (Obj.var "x") = true
      then Except.ok true
      else monoList (fu + 5) [Obj.powE (Obj.var "x") (Obj.intE 2), Obj.intE c]
        (Obj.var "x")) = .ok true
  rw [if_neg (by
    rw [eqObj_ne_head _ (Obj.var "x") '(' _ (reprObj_sum_data _) 'x' [] rfl
      (by decide)]
    exact Bool.false_ne_true)]
  show (isMonomial (fu + 4) (Obj.powE (Obj.var "x") (Obj.intE 2))
      (Obj.var "x") >>= fun m =>
      if m = true then monoList (fu + 4) [Obj.intE c] (Obj.var "x")
      else Except.ok false) = .ok true
  rw [show isMonomial (fu + 4) (Obj.powE (Obj.var "x") (Obj.intE 2))
      (Obj.var "x") = .ok true from rfl, mBind_ok]
  show (isMonomial (fu + 3) (Obj.intE c) (Obj.var "x") >>= fun m =>
      if m = true then monoList (fu + 3) ([] : List Obj) (Obj.var "x")
      else Except.ok false) = .ok true
  rw [isMonomial_intE_x fu c, mBind_ok]
  rfl

/-- `degree` of `x^2 + c` is 2. -/
theorem degD2 (fu : Nat) (c : Int) :
    degreePy (fu + 6)
      (Obj.sum [Obj.powE (Obj.var "x") (Obj.intE 2), Obj.intE c])
      (Obj.var "x") = .ok (some (Obj.intE 2)) := by
  show (if eqS (Obj.sum [Obj.powE (Obj.var "x") (Obj.intE 2), Obj.intE c])
        "0" = true
      then Except.ok (some (Obj.pint (-1)))
      else degSumLoop (fu + 5) [Obj.powE (Obj.var "x") (Obj.intE 2), Obj.intE c]
        (Obj.var "x") (Obj.intE 0)) = .ok (some (Obj.intE 2))
  rw [if_neg (by
    rw [eqS_ne_head _ _ '(' _ (reprObj_sum_data _) '0' [] rfl (by decide)]
    exact Bool.false_ne_true)]
  show (coefMonomial (fu + 3) (Obj.intE c) (Obj.var "x") >>= fun r =>
      match r with
      | none => Except.ok none
      | some (_, n) =>
        (opAdd (fu + 3) (Obj.intE 0) n >>= fun ds =>
        pyLt (fu + 3) (Obj.intE 2) ds >>= fun lt =>
        degSumLoop (fu + 3) ([] : List Obj) (Obj.var "x")
          (if lt.truthy = true then ds else Obj.intE 2)))
      = .ok (some (Obj.intE 2))
  rw [coefMonomial_intE_x fu c, mBind_ok]
  rfl

/-- `quadratic_form` of `x^2 + c` is `[1, 0, c]`. -/
theorem qfD2 (fu : Nat) (c : Int) :
    quadraticForm (fu + 6)
      (Obj.sum [Obj.powE (Obj.var "x") (Obj.intE 2), Obj.intE c])
      (Obj.var "x") = .ok (some (Obj.intE 1, Obj.intE 0, Obj.intE c)) := by
  show (if eqObj (Obj.sum [Obj.powE (Obj.var "x") (Obj.intE 2), Obj.intE c])
        (Obj.var "x") = true
      then Except.ok (some (Obj.intE 1, Obj.intE 0, Obj.intE 0))
      else qfSumLoop (fu + 5) [Obj.powE (Obj.var "x") (Obj.intE 2), Obj.intE c]
        (Obj.var "x") (Obj.intE 0) (Obj.intE 0) (Obj.intE 0))
      = .ok (some (Obj.intE 1, Obj.intE 0, Obj.intE c))
  rw [if_neg (by
    rw [eqObj_ne_head _ (Obj.var "x") '(' _ (reprObj_sum_data _) 'x' [] rfl
      (by decide)]
    exact Bool.false_ne_true)]
  have hq3 : quadraticForm (fu + 3) (Obj.intE c) (Obj.var "x")
      = .ok (some (Obj.intE 0, Obj.intE 0, Obj.intE c)) := by
    show (if eqObj (Obj.intE c) (Obj.var "x") = true
        then Except.ok (some (Obj.intE 1, Obj.intE 0, Obj.intE 0))
        else Except.ok (some (Obj.intE 0, Obj.intE 0, Obj.intE c)))
        = .ok (some (Obj.intE 0, Obj.intE 0, Obj.intE c))
    rw [if_neg (by rw [eqObj_intE_var_x c]; exact Bool.false_ne_true)]
  show (quadraticForm (fu + 3) (Obj.intE c) (Obj.var "x") >>= fun tf =>
      match tf with
      | none => Except.ok none
      | some (a, b, c2) =>
        (opAdd (fu + 3) (Obj.intE 1) a >>= fun qa2 =>
        opAdd (fu + 3) (Obj.intE 0) b >>= fun qb2 =>
        opAdd (fu + 3) (Obj.intE 0) c2 >>= fun qc2 =>
        qfSumLoop (fu + 3) ([] : List Obj) (Obj.var "x") qa2 qb2 qc2))
      = .ok (some (Obj.intE 1, Obj.intE 0, Obj.intE c))
  rw [hq3, mBind_ok]
  show (opAdd (fu + 2 + 1) (Obj.intE 0) (Obj.intE c) >>= fun qc2 =>
      qfSumLoop (fu + 3) ([] : List Obj) (Obj.var "x") (Obj.intE 1)
        (Obj.intE 0) qc2)
      = .ok (some (Obj.intE 1, Obj.intE 0, Obj.intE c))
  rw [opAdd_zeroIntG (fu + 2) c, mBind_ok]
  rfl

/-- `Product([2, x]) + Integer(n)`: the constant sorts before the
product term in the canonical Sum. -/
theorem opAdd_prod2x_int (fu : Nat) (n : Int) (hn0 : n ≠ 0) :
    opAdd (fu + 5) (Obj.prod [Obj.intE 2, Obj.var "x"]) (Obj.intE n)
      = .ok (Obj.sum [Obj.intE n, Obj.prod [Obj.intE 2, Obj.var "x"]]) := by
  have hu : (reprObj (Obj.intE n) == "UNDEFINED") = false :=
    beq_eq_false_iff_ne.mpr (intStr_ne_undef n)
  show simplifySum (fu + 4)
      (Obj.sum [Obj.prod [Obj.intE 2, Obj.var "x"], Obj.intE n])
      = .ok (Obj.sum [Obj.intE n, Obj.prod [Obj.intE 2, Obj.var "x"]])
  show (if ((reprObj (Obj.prod [Obj.intE 2, Obj.var "x"]) == "UNDEFINED") ||
        ((reprObj (Obj.intE n) == "UNDEFINED") || false)) = true
      then Except.ok Obj.undef
      else flattenTerms (fu + 3) [Obj.prod [Obj.intE 2, Obj.var "x"],
          Obj.intE n] >>= fun fl =>
        match fl with
        | [] => Except.ok (Obj.intE 0)
        | [x] => Except.ok x
        | _ => Except.ok (Obj.sum fl))
      = .ok (Obj.sum [Obj.intE n, Obj.prod [Obj.intE 2, Obj.var "x"]])
  rw [if_neg (by rw [hu]; exact Bool.false_ne_true)]
  have hft : flattenTerms (fu + 3) [Obj.prod [Obj.intE 2, Obj.var "x"],
      Obj.intE n] = .ok [Obj.intE n, Obj.prod [Obj.intE 2, Obj.var "x"]] := by
    show (if eqS (Obj.intE n) "0" = true
        then Except.ok [Obj.prod [Obj.intE 2, Obj.var "x"]]
        else ((Obj.prod [Obj.intE 2, Obj.var "x"]).term >>= fun t1 =>
          (Obj.intE n).term >>= fun t2 =>
          if eqObj t1 t2 = true
          then ((Obj.prod [Obj.intE 2, Obj.var "x"]).coefficient >>= fun c1 =>
            (Obj.intE n).coefficient >>= fun c2 =>
            opAdd (fu + 2) c1 c2 >>= fun nc =>
            (Obj.prod [Obj.intE 2, Obj.var "x"]).term >>= fun t1b =>
            opMul (fu + 2) nc t1b >>= fun np =>
            if eqS np "0" = true then Except.ok [] else Except.ok [np])
          else (pyLt (fu + 2) (Obj.intE n)
              (Obj.prod [Obj.intE 2, Obj.var "x"]) >>= fun r =>
            if r.truthy = true
            then Except.ok [Obj.intE n, Obj.prod [Obj.intE 2, Obj.var "x"]]
            else Except.ok [Obj.prod [Obj.intE 2, Obj.var "x"], Obj.intE n])))
        = .ok [Obj.intE n, Obj.prod [Obj.intE 2, Obj.var "x"]]
    rw [if_neg (by rw [eqS_intE_zero n hn0]; exact Bool.false_ne_true)]
    show (pyLt (fu + 2) (Obj.intE n)
        (Obj.prod [Obj.intE 2, Obj.var "x"]) >>= fun r =>
        if r.truthy = true
        then Except.ok [Obj.intE n, Obj.prod [Obj.intE 2, Obj.var "x"]]
        else Except.ok [Obj.prod [Obj.intE 2, Obj.var "x"], Obj.intE n])
        = .ok [Obj.intE n, Obj.prod [Obj.intE 2, Obj.var "x"]]
    rw [show pyLt (fu + 2) (Obj.intE n) (Obj.prod [Obj.intE 2, Obj.var "x"])
        = .ok PyB.t from rfl, mBind_ok]
    rfl
  rw [hft, mBind_ok]

/-- `-2 / Sum(...)`: division by a canonical Sum builds the
`(-2) · Sum^(-1)` product literally. -/
theorem opDiv_negTwo_sum (fu : Nat) (L : List Obj) :
    opDiv (fu + 11) (Obj.pint (-2)) (Obj.sum L)
      = .ok (Obj.prod [Obj.intE (-2),
          Obj.powE (Obj.sum L) (Obj.intE (-1))]) := by
  have hz : eqS (Obj.sum L) "0" = false :=
    eqS_ne_head _ _ '(' _ (reprObj_sum_data L) '0' [] rfl (by decide)
  have h1 : eqS (Obj.sum L) "1" = false :=
    eqS_ne_head _ _ '(' _ (reprObj_sum_data L) '1' [] rfl (by decide)
  show (if eqS (Obj.sum L) "0" = true then Except.error Err.zeroDivisionError
      else (opPow (fu + 10) (Obj.sum L) (Obj.pint (-1)) >>= fun pw =>
        opMul (fu + 10) (Obj.intE (-2)) pw))
      = .ok (Obj.prod [Obj.intE (-2), Obj.powE (Obj.sum L) (Obj.intE (-1))])
  rw [if_neg (by rw [hz]; exact Bool.false_ne_true)]
  have hpw : opPow (fu + 10) (Obj.sum L) (Obj.pint (-1))
      = .ok (Obj.powE (Obj.sum L) (Obj.intE (-1))) := by
    show simplifyPower (fu + 9) (Obj.powE (Obj.sum L) (Obj.intE (-1)))
        = .ok (Obj.powE (Obj.sum L) (Obj.intE (-1)))
    show (if eqS (Obj.sum L) "0" = true
        then (if ((Obj.intE (-1)).isConstant && (Obj.intE (-1)).constIsPos) = true
          then Except.ok (Obj.intE 0) else Except.ok Obj.undef)
        else if eqS (Obj.sum L) "1" = true then Except.ok (Obj.intE 1)
        else Except.ok (Obj.powE (Obj.sum L) (Obj.intE (-1))))
        = .ok (Obj.powE (Obj.sum L) (Obj.intE (-1)))
    rw [if_neg (by rw [hz]; exact Bool.false_ne_true)]
    rw [if_neg (by rw [h1]; exact Bool.false_ne_true)]
  rw [hpw, mBind_ok]
  have hz2 : eqS (Obj.powE (Obj.sum L) (Obj.intE (-1))) "0" = false :=
    eqS_ne_head _ _ '(' _ (reprObj_pow_data _ _) '0' [] rfl (by decide)
  have h12 : eqS (Obj.powE (Obj.sum L) (Obj.intE (-1))) "1" = false :=
    eqS_ne_head _ _ '(' _ (reprObj_pow_data _ _) '1' [] rfl (by decide)
  show simplifyProduct (fu + 9)
      (Obj.prod [Obj.intE (-2), Obj.powE (Obj.sum L) (Obj.intE (-1))])
      = .ok (Obj.prod [Obj.intE (-2), Obj.powE (Obj.sum L) (Obj.intE (-1))])
  show (if ((eqS (Obj.intE (-2)) "0") ||
        ((eqS (Obj.powE (Obj.sum L) (Obj.intE (-1))) "0") || false)) = true
      then Except.ok (Obj.intE 0)
      else productFinish (fu + 8) [Obj.intE (-2),
        Obj.powE (Obj.sum L) (Obj.intE (-1))])
      = .ok (Obj.prod [Obj.intE (-2), Obj.powE (Obj.sum L) (Obj.intE (-1))])
  rw [if_neg (by rw [hz2]; exact Bool.false_ne_true)]
  have hlt : pyLt (fu + 6) (Obj.powE (Obj.sum L) (Obj.intE (-1)))
      (Obj.intE (-2)) = .ok PyB.f := by
    have hlt2 : pyLt (fu + 4) (Obj.sum L) (Obj.intE (-2)) = .ok PyB.f := by
      show (dunderLt (fu + 3) (Obj.sum L) (Obj.intE (-2)) >>= fun r =>
          match r with
          | LtV.t => Except.ok PyB.t
          | LtV.f => Except.ok PyB.f
          | LtV.n => Except.ok PyB.n
          | LtV.ni =>
            dunderGt (fu + 3) (Obj.intE (-2)) (Obj.sum L) >>= fun r2 =>
              match r2 with
              | LtV.t => Except.ok PyB.t
              | LtV.f => Except.ok PyB.f
              | LtV.n => Except.ok PyB.n
              | LtV.ni => Except.error Err.typeError) = .ok PyB.f
      rw [show dunderLt (fu + 3) (Obj.sum L) (Obj.intE (-2)) = .ok LtV.ni
        from rfl, mBind_ok]
      rw [show dunderGt (fu + 3) (Obj.intE (-2)) (Obj.sum L) = .ok LtV.f
        from rfl, mBind_ok]
    have hdl : dunderLt (fu + 5) (Obj.powE (Obj.sum L) (Obj.intE (-1)))
        (Obj.intE (-2)) = .ok LtV.f := by
      show (if eqObj (Obj.sum L) (Obj.intE (-2)) = true
          then pyLt (fu + 4) (Obj.intE (-1)) (Obj.intE 1) >>= fun r =>
            Except.ok r.toLtV
          else pyLt (fu + 4) (Obj.sum L) (Obj.intE (-2)) >>= fun r =>
            Except.ok r.toLtV) = .ok LtV.f
      rw [if_neg (by rw [eqObj_sum_intE L (-2)]; exact Bool.false_ne_true)]
      rw [hlt2, mBind_ok]
      rfl
    show (dunderLt (fu + 5) (Obj.powE (Obj.sum L) (Obj.intE (-1)))
        (Obj.intE (-2)) >>= fun r =>
        match r with
        | LtV.t => Except.ok PyB.t
        | LtV.f => Except.ok PyB.f
        | LtV.n => Except.ok PyB.n
        | LtV.ni =>
          dunderGt (fu + 5) (Obj.intE (-2))
              (Obj.powE (Obj.sum L) (Obj.intE (-1))) >>= fun r2 =>
            match r2 with
            | LtV.t => Except.ok PyB.t
            | LtV.f => Except.ok PyB.f
            | LtV.n => Except.ok PyB.n
            | LtV.ni => Except.error Err.typeError) = .ok PyB.f
    rw [hdl, mBind_ok]
  have hff : flattenFactors (fu + 7) [Obj.intE (-2),
      Obj.powE (Obj.sum L) (Obj.intE (-1))]
      = .ok [Obj.intE (-2), Obj.powE (Obj.sum L) (Obj.intE (-1))] := by
    show (if eqS (Obj.powE (Obj.sum L) (Obj.intE (-1))) "1" = true
        then Except.ok [Obj.intE (-2)]
        else (if eqObj (Obj.intE (-2)) (Obj.sum L) = true
          then (exponentM (Obj.intE (-2)) >>= fun e1 =>
            exponentM (Obj.powE (Obj.sum L) (Obj.intE (-1))) >>= fun e2 =>
            opAdd (fu + 6) e1 e2 >>= fun s =>
            simplifySum (fu + 6) s >>= fun ne =>
            opPow (fu + 6) (Obj.intE (-2)) ne >>= fun pw2 =>
            simplifyPower (fu + 6) pw2 >>= fun np =>
            if eqS np "1" = true then Except.ok [] else Except.ok [np])
          else (pyLt (fu + 6) (Obj.powE (Obj.sum L) (Obj.intE (-1)))
              (Obj.intE (-2)) >>= fun r =>
            if r.truthy = true
            then Except.ok [Obj.powE (Obj.sum L) (Obj.intE (-1)),
              Obj.intE (-2)]
            else Except.ok [Obj.intE (-2),
              Obj.powE (Obj.sum L) (Obj.intE (-1))])))
        = .ok [Obj.intE (-2), Obj.powE (Obj.sum L) (Obj.intE (-1))]
    rw [if_neg (by rw [h12]; exact Bool.false_ne_true)]
    rw [if_neg (by rw [eqObj_intE_sum (-2) L]; exact Bool.false_ne_true)]
    rw [hlt, mBind_ok]
    rfl
  show (flattenFactors (fu + 7) [Obj.intE (-2),
      Obj.powE (Obj.sum L) (Obj.intE (-1))] >>= fun fl =>
      match fl with
      | [] => Except.ok (Obj.intE 1)
      | [x] => Except.ok x
      | _ => Except.ok (Obj.prod fl))
      = .ok (Obj.prod [Obj.intE (-2), Obj.powE (Obj.sum L) (Obj.intE (-1))])
  rw [hff, mBind_ok]

/-- The head of `_integrate_rational` on an input whose accumulated
numerator is `Integer(1)` and whose denominator is a degree-2 polynomial
in the integration variable: with every collaborator result supplied,
the run reaches the discriminant dispatch with an `Integer`
discriminant `m`. -/
theorem integrateRational_toDisc (fu : Nat) (e wrt D a b c b2v fourAv fourACv : Obj)
    (m : Int)
    (hden : denomAcc fu e = .ok D)
    (hpoly : isPolynomial fu D wrt = .ok true)
    (hdeg : degreePy fu D wrt = .ok (some (Obj.intE 2)))
    (hnum : numAcc fu e = .ok (Obj.intE 1))
    (hpn : isPolynomial fu (Obj.intE 1) wrt = .ok true)
    (hnd : degreePy fu (Obj.intE 1) wrt = .ok (some (Obj.intE 0)))
    (hgt : pyGtObj fu (Obj.intE 0) (Obj.intE 2) = .ok false)
    (hqf : quadraticForm fu D wrt = .ok (some (a, b, c)))
    (hb2 : opPow fu b (Obj.pint 2) = .ok b2v)
    (h4a : opMul fu (Obj.pint 4) a = .ok fourAv)
    (h4ac : opMul fu fourAv c = .ok fourACv)
    (hsub : opSub fu b2v fourACv = .ok (Obj.intE m)) :
    integrateRational (fu + 1) e wrt =
      (if eqS (Obj.intE m) "0" = true then
        (opMul fu (Obj.pint 2) a >>= fun twoA =>
         opMul fu twoA wrt >>= fun twoAX =>
         opAdd fu twoAX b >>= fun dn =>
         opDiv fu (Obj.pint (-2)) dn >>= fun r =>
         Except.ok (some r))
      else if (Obj.intE m).constIsPos = true then Except.ok none
      else Except.error Err.nameError) := by
  show (denomAcc fu e >>= fun denom =>
      isPolynomial fu denom wrt >>= fun pd =>
      if ¬ (pd = true) then Except.ok none
      else (degreePy fu denom wrt >>= fun dd =>
        match dd with
        | none => Except.error Err.typeError
        | some ddeg =>
          (intVal ddeg >>= fun k =>
           if ¬ (k ≤ 2) then Except.ok none
           else (numAcc fu e >>= fun num =>
             isPolynomial fu num wrt >>= fun pn =>
             if ¬ (pn = true) then Except.ok none
             else (degreePy fu num wrt >>= fun nd =>
               match nd with
               | none => Except.error Err.typeError
               | some ndeg =>
                 (pyGtObj fu ndeg ddeg >>= fun gt =>
                  if gt = true then Except.error Err.unmodelled
                  else (quadraticForm fu denom wrt >>= fun qf =>
                    match qf with
                    | none => Except.error Err.typeError
                    | some (a2, b3, c2) =>
                      (opPow fu b3 (Obj.pint 2) >>= fun b2x =>
                       opMul fu (Obj.pint 4) a2 >>= fun fourA =>
                       opMul fu fourA c2 >>= fun fourAC =>
                       opSub fu b2x fourAC >>= fun disc =>
                       if eqS num "1" = true then
                         if disc.isIntE = true then
                           if eqS disc "0" = true then
                             (opMul fu (Obj.pint 2) a2 >>= fun twoA =>
                              opMul fu twoA wrt >>= fun twoAX =>
                              opAdd fu twoAX b3 >>= fun dn =>
                              opDiv fu (Obj.pint (-2)) dn >>= fun r =>
                              Except.ok (some r))
                           else if disc.constIsPos = true then Except.ok none
                           else Except.error Err.nameError
                         else Except.error Err.nameError
                       else if eqS ndeg "1" = true then Except.error Err.unmodelled
                       else Except.ok none)))))))) = _
  rw [hden, mBind_ok]
  show (isPolynomial fu D wrt >>= fun pd =>
      if ¬ (pd = true) then Except.ok none
      else (degreePy fu D wrt >>= fun dd =>
        match dd with
        | none => Except.error Err.typeError
        | some ddeg =>
          (intVal ddeg >>= fun k =>
           if ¬ (k ≤ 2) then Except.ok none
           else (numAcc fu e >>= fun num =>
             isPolynomial fu num wrt >>= fun pn =>
             if ¬ (pn = true) then Except.ok none
             else (degreePy fu num wrt >>= fun nd =>
               match nd with
               | none => Except.error Err.typeError
               | some ndeg =>
                 (pyGtObj fu ndeg ddeg >>= fun gt =>
                  if gt = true then Except.error Err.unmodelled
                  else (quadraticForm fu D wrt >>= fun qf =>
                    match qf with
                    | none => Except.error Err.typeError
                    | some (a2, b3, c2) =>
                      (opPow fu b3 (Obj.pint 2) >>= fun b2x =>
                       opMul fu (Obj.pint 4) a2 >>= fun fourA =>
                       opMul fu fourA c2 >>= fun fourAC =>
                       opSub fu b2x fourAC >>= fun disc =>
                       if eqS num "1" = true then
                         if disc.isIntE = true then
                           if eqS disc "0" = true then
                             (opMul fu (Obj.pint 2) a2 >>= fun twoA =>
                              opMul fu twoA wrt >>= fun twoAX =>
                              opAdd fu twoAX b3 >>= fun dn =>
                              opDiv fu (Obj.pint (-2)) dn >>= fun r =>
                              Except.ok (some r))
                           else if disc.constIsPos = true then Except.ok none
                           else Except.error Err.nameError
                         else Except.error Err.nameError
                       else if eqS ndeg "1" = true then Except.error Err.unmodelled
                       else Except.ok none)))))))) = _
  rw [hpoly, mBind_ok]
  show (degreePy fu D wrt >>= fun dd =>
      match dd with
      | none => Except.error Err.typeError
      | some ddeg =>
        (intVal ddeg >>= fun k =>
         if ¬ (k ≤ 2) then Except.ok none
         else (numAcc fu e >>= fun num =>
           isPolynomial fu num wrt >>= fun pn =>
           if ¬ (pn = true) then Except.ok none
           else (degreePy fu num wrt >>= fun nd =>
             match nd with
             | none => Except.error Err.typeError
             | some ndeg =>
               (pyGtObj fu ndeg ddeg >>= fun gt =>
                if gt = true then Except.error Err.unmodelled
                else (quadraticForm fu D wrt >>= fun qf =>
                  match qf with
                  | none => Except.error Err.typeError
                  | some (a2, b3, c2) =>
                    (opPow fu b3 (Obj.pint 2) >>= fun b2x =>
                     opMul fu (Obj.pint 4) a2 >>= fun fourA =>
                     opMul fu fourA c2 >>= fun fourAC =>
                     opSub fu b2x fourAC >>= fun disc =>
                     if eqS num "1" = true then
                       if disc.isIntE = true then
                         if eqS disc "0" = true then
                           (opMul fu (Obj.pint 2) a2 >>= fun twoA =>
                            opMul fu twoA wrt >>= fun twoAX =>
                            opAdd fu twoAX b3 >>= fun dn =>
                            opDiv fu (Obj.pint (-2)) dn >>= fun r =>
                            Except.ok (some r))
                         else if disc.constIsPos = true then Except.ok none
                         else Except.error Err.nameError
                       else Except.error Err.nameError
                     else if eqS ndeg "1" = true then Except.error Err.unmodelled
                     else Except.ok none))))))) = _
  rw [hdeg, mBind_ok]
  show (numAcc fu e >>= fun num =>
      isPolynomial fu num wrt >>= fun pn =>
      if ¬ (pn = true) then Except.ok none
      else (degreePy fu num wrt >>= fun nd =>
        match nd with
        | none => Except.error Err.typeError
        | some ndeg =>
          (pyGtObj fu ndeg (Obj.intE 2) >>= fun gt =>
           if gt = true then Except.error Err.unmodelled
           else (quadraticForm fu D wrt >>= fun qf =>
             match qf with
             | none => Except.error Err.typeError
             | some (a2, b3, c2) =>
               (opPow fu b3 (Obj.pint 2) >>= fun b2x =>
                opMul fu (Obj.pint 4) a2 >>= fun fourA =>
                opMul fu fourA c2 >>= fun fourAC =>
                opSub fu b2x fourAC >>= fun disc =>
                if eqS num "1" = true then
                  if disc.isIntE = true then
                    if eqS disc "0" = true then
                      (opMul fu (Obj.pint 2) a2 >>= fun twoA =>
                       opMul fu twoA wrt >>= fun twoAX =>
                       opAdd fu twoAX b3 >>= fun dn =>
                       opDiv fu (Obj.pint (-2)) dn >>= fun r =>
                       Except.ok (some r))
                    else if disc.constIsPos = true then Except.ok none
                    else Except.error Err.nameError
                  else Except.error Err.nameError
                else if eqS ndeg "1" = true then Except.error Err.unmodelled
                else Except.ok none))))) = _
  rw [hnum, mBind_ok]
  show (isPolynomial fu (Obj.intE 1) wrt >>= fun pn =>
      if ¬ (pn = true) then Except.ok none
      else (degreePy fu (Obj.intE 1) wrt >>= fun nd =>
        match nd with
        | none => Except.error Err.typeError
        | some ndeg =>
          (pyGtObj fu ndeg (Obj.intE 2) >>= fun gt =>
           if gt = true then Except.error Err.unmodelled
           else (quadraticForm fu D wrt >>= fun qf =>
             match qf with
             | none => Except.error Err.typeError
             | some (a2, b3, c2) =>
               (opPow fu b3 (Obj.pint 2) >>= fun b2x =>
                opMul fu (Obj.pint 4) a2 >>= fun fourA =>
                opMul fu fourA c2 >>= fun fourAC =>
                opSub fu b2x fourAC >>= fun disc =>
                if eqS (Obj.intE 1) "1" = true then
                  if disc.isIntE = true then
                    if eqS disc "0" = true then
                      (opMul fu (Obj.pint 2) a2 >>= fun twoA =>
                       opMul fu twoA wrt >>= fun twoAX =>
                       opAdd fu twoAX b3 >>= fun dn =>
                       opDiv fu (Obj.pint (-2)) dn >>= fun r =>
                       Except.ok (some r))
                    else if disc.constIsPos = true then Except.ok none
                    else Except.error Err.nameError
                  else Except.error Err.nameError
                else if eqS ndeg "1" = true then Except.error Err.unmodelled
                else Except.ok none))))) = _
  rw [hpn, mBind_ok]
  show (degreePy fu (Obj.intE 1) wrt >>= fun nd =>
      match nd with
      | none => Except.error Err.typeError
      | some ndeg =>
        (pyGtObj fu ndeg (Obj.intE 2) >>= fun gt =>
         if gt = true then Except.error Err.unmodelled
         else (quadraticForm fu D wrt >>= fun qf =>
           match qf with
           | none => Except.error Err.typeError
           | some (a2, b3, c2) =>
             (opPow fu b3 (Obj.pint 2) >>= fun b2x =>
              opMul fu (Obj.pint 4) a2 >>= fun fourA =>
              opMul fu fourA c2 >>= fun fourAC =>
              opSub fu b2x fourAC >>= fun disc =>
              if eqS (Obj.intE 1) "1" = true then
                if disc.isIntE = true then
                  if eqS disc "0" = true then
                    (opMul fu (Obj.pint 2) a2 >>= fun twoA =>
                     opMul fu twoA wrt >>= fun twoAX =>
                     opAdd fu twoAX b3 >>= fun dn =>
                     opDiv fu (Obj.pint (-2)) dn >>= fun r =>
                     Except.ok (some r))
                  else if disc.constIsPos = true then Except.ok none
                  else Except.error Err.nameError
                else Except.error Err.nameError
              else if eqS ndeg "1" = true then Except.error Err.unmodelled
              else Except.ok none)))) = _
  rw [hnd, mBind_ok]
  show (pyGtObj fu (Obj.intE 0) (Obj.intE 2) >>= fun gt =>
      if gt = true then Except.error Err.unmodelled
      else (quadraticForm fu D wrt >>= fun qf =>
        match qf with
        | none => Except.error Err.typeError
        | some (a2, b3, c2) =>
          (opPow fu b3 (Obj.pint 2) >>= fun b2x =>
           opMul fu (Obj.pint 4) a2 >>= fun fourA =>
           opMul fu fourA c2 >>= fun fourAC =>
           opSub fu b2x fourAC >>= fun disc =>
           if eqS (Obj.intE 1) "1" = true then
             if disc.isIntE = true then
               if eqS disc "0" = true then
                 (opMul fu (Obj.pint 2) a2 >>= fun twoA =>
                  opMul fu twoA wrt >>= fun twoAX =>
                  opAdd fu twoAX b3 >>= fun dn =>
                  opDiv fu (Obj.pint (-2)) dn >>= fun r =>
                  Except.ok (some r))
               else if disc.constIsPos = true then Except.ok none
               else Except.error Err.nameError
             else Except.error Err.nameError
           else if eqS (Obj.intE 0) "1" = true then Except.error Err.unmodelled
           else Except.ok none))) = _
  rw [hgt, mBind_ok]
  show (quadraticForm fu D wrt >>= fun qf =>
      match qf with
      | none => Except.error Err.typeError
      | some (a2, b3, c2) =>
        (opPow fu b3 (Obj.pint 2) >>= fun b2x =>
         opMul fu (Obj.pint 4) a2 >>= fun fourA =>
         opMul fu fourA c2 >>= fun fourAC =>
         opSub fu b2x fourAC >>= fun disc =>
         if eqS (Obj.intE 1) "1" = true then
           if disc.isIntE = true then
             if eqS disc "0" = true then
               (opMul fu (Obj.pint 2) a2 >>= fun twoA =>
                opMul fu twoA wrt >>= fun twoAX =>
                opAdd fu twoAX b3 >>= fun dn =>
                opDiv fu (Obj.pint (-2)) dn >>= fun r =>
                Except.ok (some r))
             else if disc.constIsPos = true then Except.ok none
             else Except.error Err.nameError
           else Except.error Err.nameError
         else if eqS (Obj.intE 0) "1" = true then Except.error Err.unmodelled
         else Except.ok none)) = _
  rw [hqf, mBind_ok]
  show (opPow fu b (Obj.pint 2) >>= fun b2x =>
      opMul fu (Obj.pint 4) a >>= fun fourA =>
      opMul fu fourA c >>= fun fourAC =>
      opSub fu b2x fourAC >>= fun disc =>
      if eqS (Obj.intE 1) "1" = true then
        if disc.isIntE = true then
          if eqS disc "0" = true then
            (opMul fu (Obj.pint 2) a >>= fun twoA =>
             opMul fu twoA wrt >>= fun twoAX =>
             opAdd fu twoAX b >>= fun dn =>
             opDiv fu (Obj.pint (-2)) dn >>= fun r =>
             Except.ok (some r))
          else if disc.constIsPos = true then Except.ok none
          else Except.error Err.nameError
        else Except.error Err.nameError
      else if eqS (Obj.intE 0) "1" = true then Except.error Err.unmodelled
      else Except.ok none) = _
  rw [hb2, mBind_ok]
  show (opMul fu (Obj.pint 4) a >>= fun fourA =>
      opMul fu fourA c >>= fun fourAC =>
      opSub fu b2v fourAC >>= fun disc =>
      if eqS (Obj.intE 1) "1" = true then
        if disc.isIntE = true then
          if eqS disc "0" = true then
            (opMul fu (Obj.pint 2) a >>= fun twoA =>
             opMul fu twoA wrt >>= fun twoAX =>
             opAdd fu twoAX b >>= fun dn =>
             opDiv fu (Obj.pint (-2)) dn >>= fun r =>
             Except.ok (some r))
          else if disc.constIsPos = true then Except.ok none
          else Except.error Err.nameError
        else Except.error Err.nameError
      else if eqS (Obj.intE 0) "1" = true then Except.error Err.unmodelled
      else Except.ok none) = _
  rw [h4a, mBind_ok]
  show (opMul fu fourAv c >>= fun fourAC =>
      opSub fu b2v fourAC >>= fun disc =>
      if eqS (Obj.intE 1) "1" = true then
        if disc.isIntE = true then
          if eqS disc "0" = true then
            (opMul fu (Obj.pint 2) a >>= fun twoA =>
             opMul fu twoA wrt >>= fun twoAX =>
             opAdd fu twoAX b >>= fun dn =>
             opDiv fu (Obj.pint (-2)) dn >>= fun r =>
             Except.ok (some r))
          else if disc.constIsPos = true then Except.ok none
          else Except.error Err.nameError
        else Except.error Err.nameError
      else if eqS (Obj.intE 0) "1" = true then Except.error Err.unmodelled
      else Except.ok none) = _
  rw [h4ac, mBind_ok]
  show (opSub fu b2v fourACv >>= fun disc =>
      if eqS (Obj.intE 1) "1" = true then
        if disc.isIntE = true then
          if eqS disc "0" = true then
            (opMul fu (Obj.pint 2) a >>= fun twoA =>
             opMul fu twoA wrt >>= fun twoAX =>
             opAdd fu twoAX b >>= fun dn =>
             opDiv fu (Obj.pint (-2)) dn >>= fun r =>
             Except.ok (some r))
          else if disc.constIsPos = true then Except.ok none
          else Except.error Err.nameError
        else Except.error Err.nameError
      else if eqS (Obj.intE 0) "1" = true then Except.error Err.unmodelled
      else Except.ok none) = _
  rw [hsub, mBind_ok]
  rfl

/-! ## Claim C8 — the discriminant dispatch of rational integration -/

/-- Claim C8 counterexample.  The claim asserts that every positive
discriminant makes the strategy report failure through the explicit
no-result value.  With a rational leading coefficient the discriminant
can be a positive `Rational`: for the denominator `(1/3)x² + 2x + 1`
(numerator 1) the run computes `disc = 2² - 4·(1/3)·1 = 8/3`, which is
positive but not an `Integer` instance, so the
`isinstance(discriminant, Integer)` guard is skipped and the
fall-through references the name `Arctan`, which no module defines —
the strategy crashes with NameError instead of reporting failure. -/
theorem claim_C8_counterexample :
    (Obj.ratE 8 3).constIsPos = true ∧
    opSub 59 (intE 4) (ratE 4 3) = .ok (ratE 8 3) ∧
    integrateRational 60
        (divE (intE 1) (Obj.sum [prod [ratE 1 3, powE (var "x") (intE 2)],
          prod [intE 2, var "x"], intE 1])) (var "x")
      = .error .nameError := by
  refine ⟨by decide, by rfl, by rfl⟩

/-- Claim C8, amended.  In the rational-function integration strategy
(`_integrate_rational`), for a numerator `1` over a quadratic-form
denominator, a zero discriminant yields the rational-function
antiderivative `-2/(2a·x + b)`, and a positive discriminant reports
failure through the explicit no-result value `None` only when the
discriminant is an `Integer` instance; a positive `Rational`
discriminant skips that guard and crashes with NameError on the unbound
name `Arctan` (see the counterexample).  The first two conjuncts
instantiate the claimed behaviour over the expanded-square family
`1/(x² + 2d·x + d²)` (discriminant `0`, any `d ≠ 0`) and the family
`1/(x² + c)` with `c < 0` (Integer discriminant `-4c > 0`); the third
exhibits the crash at the rational discriminant `8/3`. -/
theorem claim_C8 (d c : Int) (hd : d ≠ 0) (hc : c < 0) :
    integrateRational 60
        (divE (intE 1) (Obj.sum [powE (var "x") (intE 2),
          prod [intE (2*d), var "x"], intE (d*d)])) (var "x")
      = .ok (some (prod [intE (-2),
          powE (Obj.sum [intE (2*d), prod [intE 2, var "x"]]) (intE (-1))])) ∧
    integrateRational 60
        (divE (intE 1) (Obj.sum [powE (var "x") (intE 2), intE c])) (var "x")
      = .ok none ∧
    integrateRational 60
        (divE (intE 1) (Obj.sum [prod [ratE 1 3, powE (var "x") (intE 2)],
          prod [intE 2, var "x"], intE 1])) (var "x")
      = .error .nameError := by
  have hp0 : (2*d : Int) ≠ 0 := by omega
  have hp1 : (2*d : Int) ≠ 1 := by omega
  have hpm1 : (2*d : Int) ≠ -1 := by omega
  refine ⟨?_, ?_, by rfl⟩
  · have hb2 : opPow 59 (intE (2*d)) (Obj.pint 2) = .ok (intE (4*(d*d))) := by
      have h := opPow_sq 57 (2*d) hp1
      rw [show (2*d) * (2*d) = 4*(d*d) from by ring] at h
      exact h
    have hsub : opSub 59 (intE (4*(d*d))) (intE (4*(d*d))) = .ok (intE 0) := by
      have h := opSubG 58 (4*(d*d)) (4*(d*d))
      rw [sub_self] at h
      exact h
    refine Eq.trans (integrateRational_toDisc 59
      (divE (intE 1) (Obj.sum [powE (var "x") (intE 2),
        prod [intE (2*d), var "x"], intE (d*d)]))
      (var "x")
      (Obj.sum [powE (var "x") (intE 2), prod [intE (2*d), var "x"],
        intE (d*d)])
      (intE 1) (intE (2*d)) (intE (d*d))
      (intE (4*(d*d))) (intE 4) (intE (4*(d*d))) 0
      rfl
      (isPoly_D 50 (2*d) (d*d) hpm1)
      (degD 40 (2*d) (d*d) hp0 hp1 hpm1)
      rfl rfl rfl rfl
      (qfD 42 (2*d) (d*d) hp0 hp1 hpm1)
      hb2 rfl (opMulG 58 4 (d*d)) hsub) ?_
    show (opMul 59 (Obj.pint 2) (intE 1) >>= fun twoA =>
        opMul 59 twoA (var "x") >>= fun twoAX =>
        opAdd 59 twoAX (intE (2*d)) >>= fun dn =>
        opDiv 59 (Obj.pint (-2)) dn >>= fun r =>
        Except.ok (some r)) = _
    rw [show opMul 59 (Obj.pint 2) (intE 1) = Except.ok (intE 2) from rfl,
      mBind_ok]
    show (opMul 59 (intE 2) (var "x") >>= fun twoAX =>
        opAdd 59 twoAX (intE (2*d)) >>= fun dn =>
        opDiv 59 (Obj.pint (-2)) dn >>= fun r =>
        Except.ok (some r)) = _
    rw [show opMul 59 (intE 2) (var "x")
        = Except.ok (prod [intE 2, var "x"]) from rfl, mBind_ok]
    show (opAdd (54 + 5) (prod [intE 2, var "x"]) (intE (2*d)) >>= fun dn =>
        opDiv 59 (Obj.pint (-2)) dn >>= fun r =>
        Except.ok (some r)) = _
    rw [opAdd_prod2x_int 54 (2*d) hp0, mBind_ok]
    show (opDiv (48 + 11) (Obj.pint (-2))
        (Obj.sum [intE (2*d), prod [intE 2, var "x"]]) >>= fun r =>
        Except.ok (some r)) = _
    rw [opDiv_negTwo_sum 48 [intE (2*d), prod [intE 2, var "x"]], mBind_ok]
  · refine Eq.trans (integrateRational_toDisc 59
      (divE (intE 1) (Obj.sum [powE (var "x") (intE 2), intE c]))
      (var "x")
      (Obj.sum [powE (var "x") (intE 2), intE c])
      (intE 1) (intE 0) (intE c)
      (intE 0) (intE 4) (intE (4*c)) (0 - 4*c)
      rfl
      (isPoly_D2 53 c)
      (degD2 53 c)
      rfl rfl rfl rfl
      (qfD2 53 c)
      rfl rfl (opMulG 58 4 c) (opSubG 58 0 (4*c))) ?_
    rw [if_neg (by
      rw [eqS_intE_zero (0 - 4*c) (by omega)]
      exact Bool.false_ne_true)]
    rw [if_pos (show (Obj.intE (0 - 4*c)).constIsPos = true
      from decide_eq_true (by omega))]

theorem claim_C8_witness :
    (1 : Int) ≠ 0 ∧ (-1 : Int) < 0 ∧
      (integrateRational 60
          (divE (intE 1) (Obj.sum [powE (var "x") (intE 2),
            prod [intE (2*1), var "x"], intE (1*1)])) (var "x")
        = .ok (some (prod [intE (-2),
            powE (Obj.sum [intE (2*1), prod [intE 2, var "x"]])
              (intE (-1))])) ∧
      integrateRational 60
          (divE (intE 1) (Obj.sum [powE (var "x") (intE 2), intE (-1)]))
          (var "x") = .ok none ∧
      integrateRational 60
          (divE (intE 1) (Obj.sum [prod [ratE 1 3, powE (var "x") (intE 2)],
            prod [intE 2, var "x"], intE 1])) (var "x")
        = .error .nameError) :=
  ⟨by decide, by decide, claim_C8 1 (-1) (by decide) (by decide)⟩

end LevyCAS
